import Mathlib

/-!
Verification of the etikit label codec (TPCL and ZPL drivers).

JavaScript strings are modelled as `List Char` (`JStr`); JavaScript numbers
appearing in the codec are integers or `NaN` (modelled as `Option ℤ`) except
for template dimensions and font sizes, which are exact rationals (`ℚ`);
`Option ℚ` models a possibly-NaN rational.  Rational arithmetic is written
through `Rat.divInt` / integer formulas so that every definition evaluates by
kernel reduction; bridge lemmas relate them to the ordinary field operations.
-/

/-- Characters of a JavaScript string. -/
abbrev JStr := List Char

/-- Character data of a Lean string literal. -/
def toChars (s : String) : JStr := s.data

/-- Exact product of two rationals, written so that it evaluates by kernel
reduction (models JS `a * b` on exact values). -/
def qmul (a b : ℚ) : ℚ := Rat.divInt (a.num * b.num) ((a.den : ℤ) * (b.den : ℤ))

/-- Exact difference of two rationals (models JS `a - b` on exact values). -/
def qsub (a b : ℚ) : ℚ :=
  Rat.divInt (a.num * (b.den : ℤ) - b.num * (a.den : ℤ)) ((a.den : ℤ) * (b.den : ℤ))

/-- Exact quotient of two rationals (models JS `a / b` on exact values with a
nonzero divisor). -/
def qdiv (a b : ℚ) : ℚ := Rat.divInt (a.num * (b.den : ℤ)) ((a.den : ℤ) * b.num)

/-- JavaScript `Math.round` on an exact rational: half-up rounding, i.e.
`⌊q + 1/2⌋`, computed by flooring integer division. -/
def jsRound (q : ℚ) : ℤ := Int.fdiv (2 * q.num + (q.den : ℤ)) (2 * (q.den : ℤ))

/-- Rational value of an integer, written so that it evaluates by kernel
reduction. -/
def intToQ (z : ℤ) : ℚ := Rat.divInt z 1

/-- Value of a decimal digit character. -/
def digitVal (c : Char) : ℕ := c.toNat - 48

/-- Decimal digits of a natural number, least-significant step last; the
fuel argument makes the recursion structural (models JS `Number.toString`
for nonnegative integers). -/
def natToCharsF : ℕ → ℕ → JStr
  | 0, _ => []
  | fuel + 1, n =>
    if n < 10 then [Nat.digitChar n]
    else natToCharsF fuel (n / 10) ++ [Nat.digitChar (n % 10)]

/-- Decimal representation of a natural number. -/
def natToChars (n : ℕ) : JStr := natToCharsF (n + 1) n

/-- Decimal representation of an integer (models JS `Number.toString` for
integers). -/
def intToChars (i : ℤ) : JStr :=
  if i < 0 then '-' :: natToChars i.natAbs else natToChars i.toNat

/-- Rendering of an integer-or-NaN JS number (models `x.toString()` and
template-literal interpolation). -/
def jsNumToChars : Option ℤ → JStr
  | none => toChars "NaN"
  | some i => intToChars i

/-- JavaScript `String.prototype.padStart` with a one-character pad. -/
def padStartCh (l : JStr) (n : ℕ) (c : Char) : JStr :=
  if n ≤ l.length then l else List.replicate (n - l.length) c ++ l

/-- Numeric value of a list of decimal digit characters. -/
def digitsVal (l : JStr) : ℕ := l.foldl (fun a c => 10 * a + digitVal c) 0

/-- Longest leading run of decimal digits, as a value; `none` when the list
does not start with a digit. -/
def parseDigits (l : JStr) : Option ℤ :=
  match l.takeWhile Char.isDigit with
  | [] => none
  | ds => some (digitsVal ds : ℤ)

/-- JavaScript `parseInt(s, 10)` restricted to inputs without leading
whitespace: an optional sign followed by the longest digit run; `none`
models `NaN`. -/
def parseIntCh : JStr → Option ℤ
  | '-' :: rest => (parseDigits rest).map (fun n => -n)
  | '+' :: rest => parseDigits rest
  | l => parseDigits l

/-- JavaScript `parseInt` applied to a possibly-undefined string
(`parseInt(undefined)` is `NaN`). -/
def jsParseIntOpt (o : Option JStr) : Option ℤ := o.bind parseIntCh

/-- JavaScript `String.prototype.split` with a one-character separator. -/
def splitCh (c : Char) : JStr → List JStr
  | [] => [[]]
  | a :: l =>
    if a = c then [] :: splitCh c l
    else
      match splitCh c l with
      | [] => [[a]]
      | h :: t => (a :: h) :: t

/-- JavaScript `String.prototype.startsWith`. -/
def hasPre : JStr → JStr → Bool
  | [], _ => true
  | _ :: _, [] => false
  | p :: ps, s :: ss => p = s && hasPre ps ss

/-- JavaScript `x || 0` on an integer-or-NaN number (`NaN` and `0` are the
only falsy values that can occur). -/
def jsOrZero (v : Option ℤ) : ℤ := v.getD 0

/-- JavaScript `s || d` on a possibly-undefined string (the empty string is
falsy). -/
def jsOrStr (v : Option JStr) (d : JStr) : JStr :=
  match v with
  | some s => if s = [] then d else s
  | none => d

/-- First value bound to a key in an association list (models JS object
indexing and `Map.prototype.get`). -/
def assocFind {α : Type} (k : JStr) : List (JStr × α) → Option α
  | [] => none
  | (k', v) :: t => if k' = k then some v else assocFind k t

/-! ## Label data model (src/types.ts) -/

/-- Text element (`TextElement` in types.ts).  `content : Option JStr` models
the optional `content` property (`none` = property absent); numeric fields
are integers-or-NaN. -/
structure TextElement where
  id : JStr
  x : Option ℤ
  y : Option ℤ
  rotation : Option ℤ
  content : Option JStr
  fontFamily : JStr
  fontSizePt : Option ℚ
  fontWeight : Option JStr
  fontStyle : Option JStr
  width : Option ℚ
  height : Option ℚ
deriving DecidableEq, Repr

/-- Barcode element (`BarcodeElement` in types.ts). -/
structure BarcodeElement where
  id : JStr
  x : Option ℤ
  y : Option ℤ
  rotation : Option ℤ
  content : Option JStr
  barcodeType : JStr
  height : Option ℤ
  width : Option ℤ
  showText : Option Bool
deriving DecidableEq, Repr

/-- QR element (`QRCodeElement` in types.ts). -/
structure QRCodeElement where
  id : JStr
  x : Option ℤ
  y : Option ℤ
  rotation : Option ℤ
  content : Option JStr
  size : Option ℤ
  errorCorrection : Option JStr
deriving DecidableEq, Repr

/-- Line element (`LineElement` in types.ts). -/
structure LineElement where
  id : JStr
  x : Option ℤ
  y : Option ℤ
  rotation : Option ℤ
  x2 : Option ℤ
  y2 : Option ℤ
  thickness : Option ℤ
deriving DecidableEq, Repr

/-- Rectangle element (`RectangleElement` in types.ts). -/
structure RectangleElement where
  id : JStr
  x : Option ℤ
  y : Option ℤ
  rotation : Option ℤ
  width : Option ℤ
  height : Option ℤ
  thickness : Option ℤ
deriving DecidableEq, Repr

/-- Tagged union of label elements (`LabelElement` in types.ts). -/
inductive LabelElement where
  | text (el : TextElement)
  | barcode (el : BarcodeElement)
  | qrcode (el : QRCodeElement)
  | line (el : LineElement)
  | rectangle (el : RectangleElement)
deriving DecidableEq, Repr

/-- Print settings (`PrintSettings` in types.ts, with the `zplDotsPerMm`
field used by the ZPL driver). -/
structure PrintSettings where
  quantity : Option ℤ
  speed : Option ℤ := none
  darkness : Option ℤ := none
  zplDotsPerMm : Option ℚ := none
deriving DecidableEq, Repr

/-- Label template (`LabelTemplate` in types.ts); width and height are
millimetres. -/
structure LabelTemplate where
  name : JStr
  width : Option ℚ
  height : Option ℚ
  elements : List LabelElement
  printSettings : Option PrintSettings
deriving DecidableEq, Repr

/-- Coordinate units per millimetre (`COORDS_PER_MM` in types.ts). -/
def COORDS_PER_MM : ℚ := 10

/-- Dots per millimetre default (`DOTS_PER_MM` in types.ts). -/
def DOTS_PER_MM : ℚ := 8

/-- Default printer resolution in DPI (`DEFAULT_DPI` in types.ts). -/
def DEFAULT_DPI : ℚ := 203

/-! ## TPCL driver: font table and generate (drivers/tpcl.ts) -/

/-- Resolved typography of a text element (`Typography` in tpcl.ts). -/
structure Typography where
  fontFamily : JStr
  fontSizePt : ℚ
  fontWeight : JStr
  fontStyle : JStr
deriving DecidableEq, Repr

/-- Short constructor for table entries. -/
def tpclPreset (k fam : String) (size : ℚ) (w st : String) : JStr × Typography :=
  (toChars k, ⟨toChars fam, size, toChars w, toChars st⟩)

/-- TPCL font preset table (`TPCL_FONT_PRESETS`), in object-literal order. -/
def TPCL_FONT_PRESETS : List (JStr × Typography) :=
  [ tpclPreset "A" "times" 8 "normal" "normal"
  , tpclPreset "B" "times" 10 "normal" "normal"
  , tpclPreset "C" "times" 10 "bold" "normal"
  , tpclPreset "D" "times" 12 "bold" "normal"
  , tpclPreset "E" "times" 14 "bold" "normal"
  , tpclPreset "F" "times" 12 "normal" "italic"
  , tpclPreset "G" "helvetica" 6 "normal" "normal"
  , tpclPreset "H" "helvetica" 10 "normal" "normal"
  , tpclPreset "I" "helvetica" 12 "normal" "normal"
  , tpclPreset "J" "helvetica" 12 "bold" "normal"
  , tpclPreset "K" "helvetica" 14 "bold" "normal"
  , tpclPreset "L" "helvetica" 12 "normal" "italic"
  , tpclPreset "M" "presentation" 18 "bold" "normal"
  , tpclPreset "N" "letter-gothic" (mkRat 19 2) "normal" "normal"
  , tpclPreset "O" "prestige-elite" 7 "normal" "normal"
  , tpclPreset "P" "prestige-elite" 10 "normal" "normal"
  , tpclPreset "Q" "courier" 10 "normal" "normal"
  , tpclPreset "R" "courier" 12 "bold" "normal"
  , tpclPreset "S" "ocr-a" 12 "normal" "normal"
  , tpclPreset "T" "ocr-b" 12 "normal" "normal" ]

/-- Normalised typography of a text element (`normalizeTypography`). -/
def normalizeTypography (el : TextElement) : Typography :=
  { fontFamily := if el.fontFamily ≠ [] then el.fontFamily else toChars "helvetica"
    fontSizePt :=
      match el.fontSizePt with
      | some p => if 0 < p then p else 10
      | none => 10
    fontWeight := if el.fontWeight = some (toChars "bold") then toChars "bold" else toChars "normal"
    fontStyle := if el.fontStyle = some (toChars "italic") then toChars "italic" else toChars "normal" }

/-- TPCL font code of a text element: first preset whose four typography
fields match exactly, falling back to `G` (`getTpclFontId`). -/
def getTpclFontId (el : TextElement) : JStr :=
  let typography := normalizeTypography el
  match TPCL_FONT_PRESETS.find? (fun p => p.2 = typography) with
  | some p => p.1
  | none => toChars "G"

/-- TPCL symbology table (`BARCODE_MAP`). -/
def BARCODE_MAP : List (JStr × JStr) :=
  [ (toChars "code128", toChars "9")
  , (toChars "ean13", toChars "2")
  , (toChars "ean8", toChars "1")
  , (toChars "upca", toChars "3")
  , (toChars "upce", toChars "4")
  , (toChars "code39", toChars "5") ]

/-- Reverse symbology table (`REVERSE_BARCODE_MAP`). -/
def REVERSE_BARCODE_MAP : List (JStr × JStr) :=
  BARCODE_MAP.map (fun p => (p.2, p.1))

/-- Magnification normalisation inside TPCL generate (`normalizeMag`):
non-numbers and non-positive values become 10; values below 10 are scaled
by 10 and rounded; the result is clamped to [0, 99]. -/
def normalizeMag (v : Option ℚ) : ℤ :=
  match v with
  | none => 10
  | some value =>
    if value ≤ 0 then 10
    else
      let normalized := if value < 10 then jsRound (qmul value 10) else jsRound value
      max 0 (min 99 normalized)

/-- Test for an id of shape `prefix` + digits (`isPrefixedId` with a
two-letter tag, modelling the regex `^TAG\d+$`). -/
def idHasTag (tag : JStr) (id : JStr) : Bool :=
  hasPre tag id && (let r := id.drop tag.length; !r.isEmpty && r.all Char.isDigit)

/-- TPCL definition-command id of a text element: the element id when it
already matches `PC` + digits, else `PC` + 3-digit element index. -/
def pcIdOf (id : JStr) (index : ℕ) : JStr :=
  if idHasTag (toChars "PC") id then id
  else toChars "PC" ++ padStartCh (natToChars index) 3 '0'

/-- TPCL definition-command id of a barcode or QR element: the element id
when it matches `XB` + digits, else `XB` + 2-digit element index. -/
def xbIdOf (id : JStr) (index : ℕ) : JStr :=
  if idHasTag (toChars "XB") id then id
  else toChars "XB" ++ padStartCh (natToChars index) 2 '0'

/-- Data-command id from a definition id: `id.replace(/^PC/, 'RC')`. -/
def rcIdFrom (pcId : JStr) : JStr :=
  if hasPre (toChars "PC") pcId then toChars "RC" ++ pcId.drop 2 else pcId

/-- Data-command id from a barcode definition id (`replace(/^XB/, 'RB')`). -/
def rbIdFrom (xbId : JStr) : JStr :=
  if hasPre (toChars "XB") xbId then toChars "RB" ++ xbId.drop 2 else xbId

/-- Rotation field of a TPCL text command: `(rotation || 0)` rendered and
padded to two characters. -/
def rotationChars (rot : Option ℤ) : JStr :=
  padStartCh (intToChars (jsOrZero rot)) 2 '0'

/-- Brace framing of one TPCL command: `{` + body + `|}` (every command
emitted by generate ends with the separator-terminator pair). -/
def tpclCmd (body : JStr) : JStr := '{' :: body ++ toChars "|\x7d"

/-- Four command buckets accumulated by TPCL generate. -/
structure TpclBuckets where
  pc : List JStr
  xb : List JStr
  rc : List JStr
  gfx : List JStr

/-- Text definition command emitted for a text element at a given index. -/
def pcLineOf (index : ℕ) (el : TextElement) : JStr :=
  tpclCmd (pcIdOf el.id index ++ ';' :: (padStartCh (jsNumToChars el.x) 4 '0' ++
    ',' :: (padStartCh (jsNumToChars el.y) 4 '0' ++
    ',' :: (padStartCh (intToChars (normalizeMag el.height)) 2 '0' ++
    ',' :: (padStartCh (intToChars (normalizeMag el.width)) 2 '0' ++
    ',' :: (getTpclFontId el ++
    ',' :: (rotationChars el.rotation ++ toChars ",B")))))))

/-- Text data command emitted for a text element that has a content
property. -/
def rcLineOf (index : ℕ) (el : TextElement) : JStr :=
  tpclCmd (rcIdFrom (pcIdOf el.id index) ++ ';' :: el.content.getD [])

/-- Symbology code field of a barcode element. -/
def barcodeTypeCode (el : BarcodeElement) : JStr :=
  (assocFind el.barcodeType BARCODE_MAP).getD (toChars "9")

/-- Barcode definition command emitted for a barcode element. -/
def xbLineOf (index : ℕ) (el : BarcodeElement) : JStr :=
  tpclCmd (xbIdOf el.id index ++ ';' :: (padStartCh (jsNumToChars el.x) 4 '0' ++
    ',' :: (padStartCh (jsNumToChars el.y) 4 '0' ++
    ',' :: (barcodeTypeCode el ++
    ',' :: ('3' :: ',' :: (padStartCh (jsNumToChars el.width) 2 '0' ++
    ',' :: (intToChars (max 0 (min 3 (jsOrZero el.rotation))) ++
    ',' :: (padStartCh (jsNumToChars el.height) 4 '0' ++ toChars ",+0000000000,000,0,00"))))))))

/-- Barcode data command emitted for a barcode element. -/
def rbLineOf (index : ℕ) (el : BarcodeElement) : JStr :=
  tpclCmd (rbIdFrom (xbIdOf el.id index) ++ ';' :: el.content.getD [])

/-- QR definition command emitted for a QR element. -/
def qrXbLineOf (index : ℕ) (el : QRCodeElement) : JStr :=
  tpclCmd (xbIdOf el.id index ++ ';' :: (padStartCh (jsNumToChars el.x) 4 '0' ++
    ',' :: (padStartCh (jsNumToChars el.y) 4 '0' ++
    ',' :: ('T' :: ',' :: (jsOrStr el.errorCorrection (toChars "H") ++
    ',' :: (padStartCh (jsNumToChars (el.size.map (fun s => max 1 (min 20 s)))) 2 '0' ++
    ',' :: ('A' :: ',' :: intToChars (max 0 (min 3 (jsOrZero el.rotation))))))))))

/-- QR data command emitted for a QR element. -/
def qrRbLineOf (index : ℕ) (el : QRCodeElement) : JStr :=
  tpclCmd (rbIdFrom (xbIdOf el.id index) ++ ';' :: el.content.getD [])

/-- Line-draw command emitted for a line element. -/
def lcLineOf (el : LineElement) : JStr :=
  tpclCmd ('L' :: 'C' :: ';' :: (padStartCh (jsNumToChars el.x) 4 '0' ++
    ',' :: (padStartCh (jsNumToChars el.y) 4 '0' ++
    ',' :: (padStartCh (jsNumToChars el.x2) 4 '0' ++
    ',' :: (padStartCh (jsNumToChars el.y2) 4 '0' ++
    ',' :: ('0' :: ',' :: jsNumToChars el.thickness))))))

/-- Box-draw command emitted for a rectangle element. -/
def xrLineOf (el : RectangleElement) : JStr :=
  tpclCmd ('X' :: 'R' :: ';' :: (padStartCh (jsNumToChars el.x) 4 '0' ++
    ',' :: (padStartCh (jsNumToChars el.y) 4 '0' ++
    ',' :: (padStartCh (jsNumToChars (el.x.bind (fun a => el.width.map (fun b => a + b)))) 4 '0' ++
    ',' :: (padStartCh (jsNumToChars (el.y.bind (fun a => el.height.map (fun b => a + b)))) 4 '0' ++
    toChars ",B")))))

/-- Commands contributed by one element at a given index, split into the
four buckets of `TPCLDriver.generate`. -/
def tpclElementCmds (index : ℕ) : LabelElement → TpclBuckets
  | .text el =>
    { pc := [pcLineOf index el]
      xb := []
      rc :=
        match el.content with
        | some _ => [rcLineOf index el]
        | none => []
      gfx := [] }
  | .barcode el =>
    { pc := [], xb := [xbLineOf index el, rbLineOf index el], rc := [], gfx := [] }
  | .qrcode el =>
    { pc := [], xb := [qrXbLineOf index el, qrRbLineOf index el], rc := [], gfx := [] }
  | .line el =>
    { pc := [], xb := [], rc := [], gfx := [lcLineOf el] }
  | .rectangle el =>
    { pc := [], xb := [], rc := [], gfx := [xrLineOf el] }

/-- Concatenated bucket contents of an element list starting at a given
index (the `forEach` of `TPCLDriver.generate`). -/
def tpclBucketsFrom (index : ℕ) : List LabelElement → TpclBuckets
  | [] => ⟨[], [], [], []⟩
  | el :: rest =>
    let b := tpclElementCmds index el
    let r := tpclBucketsFrom (index + 1) rest
    ⟨b.pc ++ r.pc, b.xb ++ r.xb, b.rc ++ r.rc, b.gfx ++ r.gfx⟩

/-- Millimetre value scaled to tenths and rounded, as a string (the length,
width and effective-length fields of the TPCL size command); `NaN` renders
as `NaN`. -/
def mmTimes10Chars (v : Option ℚ) : JStr :=
  match v with
  | none => toChars "NaN"
  | some q => intToChars (jsRound (qmul q COORDS_PER_MM))

/-- TPCL size command (`{D...|}`) of a template. -/
def tpclSizeLine (t : LabelTemplate) : JStr :=
  let length := padStartCh (mmTimes10Chars t.height) 4 '0'
  let width := padStartCh (mmTimes10Chars t.width) 4 '0'
  let effectiveLength := padStartCh (mmTimes10Chars (t.height.map (fun h => qsub h 3))) 4 '0'
  tpclCmd ('D' :: length ++ ',' :: width ++ ',' :: effectiveLength)

/-- TPCL issue command (`{XS...|}`): quantity from print settings, default
0001 when absent. -/
def tpclXsLine (ps : Option PrintSettings) : JStr :=
  match ps with
  | some s =>
    tpclCmd (toChars "XS;I," ++ padStartCh (jsNumToChars s.quantity) 4 '0' ++ toChars ",0002C52200")
  | none => tpclCmd (toChars "XS;I,0001,0002C52200")

/-- Command lines of `TPCLDriver.generate`, in emission order. -/
def tpclGenerateLines (t : LabelTemplate) : List JStr :=
  let buckets := tpclBucketsFrom 0 t.elements
  [tpclCmd (toChars "C"), tpclSizeLine t, tpclCmd (toChars "AX;+000,+000,+00"),
    tpclCmd (toChars "AY;+10,0")]
    ++ buckets.pc ++ buckets.xb ++ buckets.rc ++ buckets.gfx ++ [tpclXsLine t.printSettings]

/-- CRLF separator. -/
def crlf : JStr := ['\r', '\n']

/-- JavaScript `Array.prototype.join` with a fixed separator. -/
def joinSep (sep : JStr) : List JStr → JStr
  | [] => []
  | [l] => l
  | l :: ls => l ++ sep ++ joinSep sep ls

/-- Full output of `TPCLDriver.generate`: lines joined by CRLF with a
trailing CRLF. -/
def tpclGenerate (t : LabelTemplate) : JStr :=
  joinSep crlf (tpclGenerateLines t) ++ crlf

/-! ## TPCL driver: parse (drivers/tpcl.ts) -/

/-- Command tokenizer state machine, equivalent to scanning with the regex
`/\x7b[^\x7d]+\|?\x7d/g`: a token runs from a `{` through the next `}` and
must contain at least one character in between. -/
def tokenizeAux : JStr → Option JStr → List JStr
  | [], _ => []
  | c :: rest, none =>
    if c = '{' then tokenizeAux rest (some []) else tokenizeAux rest none
  | c :: rest, some acc =>
    if c = '}' then
      if acc.isEmpty then tokenizeAux rest none
      else ('{' :: acc ++ ['}']) :: tokenizeAux rest none
    else tokenizeAux rest (some (acc ++ [c]))

/-- All brace-delimited command tokens of a TPCL payload. -/
def tokenize (l : JStr) : List JStr := tokenizeAux l none

/-- Stripped command body: `cmd.replace(/^\x7b/, '').replace(/\|?\x7d$/, '')`. -/
def cleanOf (tok : JStr) : JStr :=
  let s1 := if hasPre (toChars "\x7b") tok then tok.drop 1 else tok
  match s1.getLast? with
  | some '}' =>
    let s2 := s1.dropLast
    match s2.getLast? with
    | some '|' => s2.dropLast
    | _ => s2
  | _ => s1

/-- NaN-propagating subtraction of JS numbers. -/
def jintSub (a b : Option ℤ) : Option ℤ := a.bind (fun x => b.map (fun y => x - y))

/-- Pending text-field definition recorded by TPCL parse. -/
structure TextDef where
  x : Option ℤ
  y : Option ℤ
  height : Option ℤ
  width : Option ℤ
  font : Option JStr
  rotation : Option ℤ
  id : JStr
deriving DecidableEq, Repr

/-- Transient state of TPCL parse. -/
structure PState where
  width : Option ℚ
  height : Option ℚ
  textDefs : List (JStr × TextDef)
  barcodeDefs : List (JStr × List JStr)
  elements : List LabelElement
  ctr : ℕ
deriving DecidableEq, Repr

/-- Initial TPCL parse state (width 100, height 150). -/
def pInit : PState := ⟨some 100, some 150, [], [], [], 0⟩

/-- Runtime failure of the parser (a JS `TypeError` from accessing a
property of `undefined`). -/
inductive JsErr where
  | typeError
deriving DecidableEq, Repr

/-- Fallback typography used by TPCL parse, the table entry for code `G`
(`TPCL_FONT_PRESETS.G`). -/
def tpclPresetG : Typography :=
  ⟨toChars "helvetica", 6, toChars "normal", toChars "normal"⟩

/-- Property names an object literal inherits from `Object.prototype`. For
these keys the JS bracket lookup `TPCL_FONT_PRESETS[key]` yields the
inherited value — a function, or `Object.prototype` itself for `__proto__`
— which is neither `null` nor `undefined`. -/
def OBJECT_PROTO_KEYS : List JStr :=
  [toChars "constructor", toChars "hasOwnProperty", toChars "isPrototypeOf",
   toChars "propertyIsEnumerable", toChars "toLocaleString", toChars "toString",
   toChars "valueOf", toChars "__defineGetter__", toChars "__defineSetter__",
   toChars "__lookupGetter__", toChars "__lookupSetter__", toChars "__proto__"]

/-- The JS lookup `TPCL_FONT_PRESETS[def.font] ?? TPCL_FONT_PRESETS.G`
followed by the four typography field reads. An own key of the preset
object literal yields its typography. A key inherited from
`Object.prototype` yields the inherited non-typography value — it is not
nullish, so the `??` fallback does not fire, and every typography field
read on it is `undefined` (modelled as `none` here). Any other key —
including an absent `def.font`, which indexes as the string `undefined`,
not a property of the object — reads as `undefined` and falls back to the
`G` preset. -/
def fontPresetIndex (f : Option JStr) : Option Typography :=
  match f with
  | none => some tpclPresetG
  | some key =>
    match assocFind key TPCL_FONT_PRESETS with
    | some typ => some typ
    | none => if key ∈ OBJECT_PROTO_KEYS then none else some tpclPresetG

/-- Millimetre value of a tenths-of-millimetre integer
(`parseInt(...) / COORDS_PER_MM`); `Rat.divInt z 10` is exact division
by 10. -/
def coordsToMmQ (v : Option ℤ) : Option ℚ := v.map (fun z => Rat.divInt z 10)

/-- Processing of one command token by `TPCLDriver.parse`.  Accessing the
parameter section `parts[1]` of a command that has none
(`parts[1].split(',')` on `undefined`) is the JS `TypeError` modelled by
`Except.error`. -/
def tpclStep (g : ℕ → JStr) (st : PState) (tok : JStr) : Except JsErr PState :=
  let cleanCmd := cleanOf tok
  let parts := splitCh ';' cleanCmd
  let commandType := parts.headD []
  if hasPre (toChars "D") cleanCmd && parts.length = 1 then
    let params := splitCh ',' (cleanCmd.drop 1)
    if 2 ≤ params.length then
      .ok { st with height := coordsToMmQ (jsParseIntOpt params[0]?)
                    width := coordsToMmQ (jsParseIntOpt params[1]?) }
    else .ok st
  else if commandType = toChars "D" && 1 < parts.length then
    let params := splitCh ',' (parts.getD 1 [])
    if 2 ≤ params.length then
      .ok { st with height := coordsToMmQ (jsParseIntOpt params[0]?)
                    width := coordsToMmQ (jsParseIntOpt params[1]?) }
    else .ok st
  else if commandType = toChars "LC" then
    match parts[1]? with
    | none => .error .typeError
    | some p1 =>
      let params := splitCh ',' p1
      if 6 ≤ params.length then
        .ok { st with
          elements := st.elements ++ [.line
            { id := g st.ctr
              x := jsParseIntOpt params[0]?
              y := jsParseIntOpt params[1]?
              rotation := some 0
              x2 := jsParseIntOpt params[2]?
              y2 := jsParseIntOpt params[3]?
              thickness := jsParseIntOpt params[5]? }]
          ctr := st.ctr + 1 }
      else .ok st
  else if commandType = toChars "XR" then
    match parts[1]? with
    | none => .error .typeError
    | some p1 =>
      let params := splitCh ',' p1
      if 5 ≤ params.length then
        let x1 := jsParseIntOpt params[0]?
        let y1 := jsParseIntOpt params[1]?
        let x2 := jsParseIntOpt params[2]?
        let y2 := jsParseIntOpt params[3]?
        .ok { st with
          elements := st.elements ++ [.rectangle
            { id := g st.ctr
              x := x1
              y := y1
              rotation := some 0
              width := jintSub x2 x1
              height := jintSub y2 y1
              thickness := some 3 }]
          ctr := st.ctr + 1 }
      else .ok st
  else if hasPre (toChars "PC") commandType then
    match parts[1]? with
    | none => .error .typeError
    | some p1 =>
      let params := splitCh ',' p1
      .ok { st with
        textDefs := (commandType,
          { x := jsParseIntOpt params[0]?
            y := jsParseIntOpt params[1]?
            height := jsParseIntOpt params[2]?
            width := jsParseIntOpt params[3]?
            font := params[4]?
            rotation := jsParseIntOpt params[5]?
            id := commandType }) :: st.textDefs }
  else if hasPre (toChars "RC") commandType then
    let pcId := toChars "PC" ++ commandType.drop 2
    match assocFind pcId st.textDefs with
    | some d =>
      let content := cleanCmd.drop (commandType.length + 1)
      let typography := fontPresetIndex d.font
      .ok { st with
        elements := st.elements ++ [.text
          { id := d.id
            x := d.x
            y := d.y
            rotation := d.rotation
            fontFamily := (typography.map Typography.fontFamily).getD []
            fontSizePt := typography.map Typography.fontSizePt
            fontWeight := typography.map Typography.fontWeight
            fontStyle := typography.map Typography.fontStyle
            width := d.width.map intToQ
            height := d.height.map intToQ
            content := some content }] }
    | none => .ok st
  else if hasPre (toChars "XB") commandType then
    match parts[1]? with
    | none => .error .typeError
    | some p1 =>
      let params := splitCh ',' p1
      .ok { st with barcodeDefs := (commandType, params) :: st.barcodeDefs }
  else if hasPre (toChars "RB") commandType then
    let xbId := toChars "XB" ++ commandType.drop 2
    match assocFind xbId st.barcodeDefs with
    | some params =>
      let content := cleanCmd.drop (commandType.length + 1)
      if params.length = 7 && params[2]? = some (toChars "T") then
        .ok { st with
          elements := st.elements ++ [.qrcode
            { id := xbId
              x := jsParseIntOpt params[0]?
              y := jsParseIntOpt params[1]?
              rotation := jsParseIntOpt params[6]?
              size := jsParseIntOpt params[4]?
              content := some content
              errorCorrection := params[3]? }] }
      else
        .ok { st with
          elements := st.elements ++ [.barcode
            { id := xbId
              x := jsParseIntOpt params[0]?
              y := jsParseIntOpt params[1]?
              rotation := jsParseIntOpt params[5]?
              barcodeType := ((params[2]?.bind
                (fun p => assocFind p REVERSE_BARCODE_MAP)).getD (toChars "code128"))
              width := jsParseIntOpt params[4]?
              height := jsParseIntOpt params[6]?
              content := some content
              showText := none }] }
    | none => .ok st
  else .ok st

/-- Full `TPCLDriver.parse`: tokenize, fold the command interpreter over the
tokens, and package the final state; `g` supplies the fresh random ids used
for line and rectangle elements. -/
def tpclParse (g : ℕ → JStr) (s : JStr) : Except JsErr LabelTemplate := do
  let st ← (tokenize s).foldlM (tpclStep g) pInit
  return { name := toChars "Imported Label"
           width := st.width
           height := st.height
           elements := st.elements
           printSettings := none }

/-- Element with its id replaced by the empty string. -/
def eraseElemId : LabelElement → LabelElement
  | .text el => .text { el with id := [] }
  | .barcode el => .barcode { el with id := [] }
  | .qrcode el => .qrcode { el with id := [] }
  | .line el => .line { el with id := [] }
  | .rectangle el => .rectangle { el with id := [] }

/-- Template with all element ids erased. -/
def eraseIds (t : LabelTemplate) : LabelTemplate :=
  { t with elements := t.elements.map eraseElemId }

/-! ## ZPL driver: parse (drivers/zpl.ts, with the DPI-candidate variant of
the inference heuristic from the alternative driver source) -/

/-- Index of the first occurrence of a pattern (JS `String.indexOf`). -/
def idxOfAux (pat : JStr) : JStr → ℕ → Option ℕ
  | [], i => if hasPre pat [] then some i else none
  | c :: t, i => if hasPre pat (c :: t) then some i else idxOfAux pat t (i + 1)

/-- First index of a pattern in a string. -/
def idxOf (pat l : JStr) : Option ℕ := idxOfAux pat l 0

/-- Index of the last occurrence of a pattern (JS `String.lastIndexOf`). -/
def lastIdxOfAux (pat : JStr) : JStr → ℕ → Option ℕ → Option ℕ
  | [], i, acc => if hasPre pat [] then some i else acc
  | c :: t, i, acc => lastIdxOfAux pat t (i + 1) (if hasPre pat (c :: t) then some i else acc)

/-- Last index of a pattern in a string. -/
def lastIdxOf (pat l : JStr) : Option ℕ := lastIdxOfAux pat l 0 none

/-- Median used by the DPI heuristic: ascending sort, element at index
`⌊length / 2⌋`; `none` on an empty list. -/
def medianInt (arr : List ℤ) : Option ℤ :=
  match arr with
  | [] => none
  | _ =>
    let sorted := arr.mergeSort (fun a b => a ≤ b)
    sorted[sorted.length / 2]?

/-- Millimetres per point (`25.4 / 72`). -/
def MM_PER_PT : ℚ := Rat.divInt 254 720

/-- Score of one dots-per-millimetre candidate in the DPI-inference
heuristic (`inferDotsPerMm` loop body, identical in both driver sources):
plausible label-size bonuses and penalties plus a typical-text-height
bonus. -/
def scoreCand (cand wDots hDots : ℚ) (typicalTextHeightDots : Option ℤ) : ℤ :=
  let widthMmCand := qdiv wDots cand
  let heightMmCand := qdiv hDots cand
  let s1 : ℤ :=
    if 20 ≤ widthMmCand ∧ widthMmCand ≤ 160 then 3
    else if 160 ≤ widthMmCand ∧ widthMmCand ≤ 260 then 1
    else -3
  let s2 : ℤ :=
    if 20 ≤ heightMmCand ∧ heightMmCand ≤ 260 then 2
    else if 260 ≤ heightMmCand ∧ heightMmCand ≤ 400 then 0
    else -2
  let s3 : ℤ := if 600 < widthMmCand ∨ 600 < heightMmCand then -10 else 0
  let s4 : ℤ :=
    match typicalTextHeightDots with
    | none => 0
    | some typ =>
      let textPt := qdiv (qmul (qdiv (intToQ typ) cand) 72) (Rat.divInt 254 10)
      if 4 ≤ textPt ∧ textPt ≤ 72 then 1
      else if 150 < textPt then -2
      else 0
  s1 + s2 + s3 + s4

/-- Candidate-selection fold of the inference heuristic: the best candidate
starts at the default with score `-∞` (modelled as `none`) and is replaced
only on a strictly greater score. -/
def selectCand (wDots hDots : ℚ) (typ : Option ℤ) (dflt : ℚ) (cands : List ℚ) : ℚ :=
  (cands.foldl
    (fun acc cand =>
      let score := scoreCand cand wDots hDots typ
      match acc.2 with
      | none => (cand, some score)
      | some bestScore => if bestScore < score then (cand, some score) else acc)
    (dflt, (none : Option ℤ))).1

/-- DPI-inference heuristic of the alternative ZPL driver source
(`inferDotsPerMm` with DPI candidates `[DEFAULT_DPI, 300, 600]`); returns
the chosen dots-per-millimetre value `dpi / 25.4`. -/
def inferDotsPerMmDpi (wDots hDots : ℚ) (textHeightsDots : List ℤ) : ℚ :=
  let candidatesDpi : List ℚ := [DEFAULT_DPI, 300, 600]
  let typicalTextHeightDots := medianInt textHeightsDots
  selectCand wDots hDots typicalTextHeightDots (qdiv DEFAULT_DPI (Rat.divInt 254 10))
    (candidatesDpi.map (fun dpi => qdiv dpi (Rat.divInt 254 10)))

/-- DPI-inference heuristic of drivers/zpl.ts (`inferDotsPerMm` with
dots-per-millimetre candidates `[DOTS_PER_MM, 11.811, 23.622]`). -/
def inferDotsPerMmZ (wDots hDots : ℚ) (textHeightsDots : List ℤ) : ℚ :=
  let candidates : List ℚ := [DOTS_PER_MM, Rat.divInt 11811 1000, Rat.divInt 23622 1000]
  let typicalTextHeightDots := medianInt textHeightsDots
  selectCand wDots hDots typicalTextHeightDots DOTS_PER_MM candidates

/-- Specification-side candidate selection: the first candidate in
enumeration order whose score no other candidate strictly exceeds.  This
definition follows the spec's words ("highest-scoring candidate is adopted;
ties favor the first candidate in enumeration order") and is compared with
the driver's fold. -/
def specFirstMaxCand (wDots hDots : ℚ) (typ : Option ℤ) (cands : List ℚ) : Option ℚ :=
  cands.find? (fun c =>
    cands.all (fun d => scoreCand d wDots hDots typ ≤ scoreCand c wDots hDots typ))

/-- Field record accumulated by ZPL parse. -/
inductive FieldRecord where
  | text (foX foY : ℤ) (o : JStr) (hDots wDots : ℤ) (data : JStr)
  | barcode (foX foY : ℤ) (btype : JStr) (o : JStr) (hDots : ℤ) (showText : Bool)
      (narrowDots : ℤ) (data : JStr)
  | qrcode (foX foY : ℤ) (o : JStr) (mag : ℤ) (ec : Option JStr) (data : JStr)
  | gb (foX foY wDots hDots tDots : ℤ)
  | gd (foX foY wDots hDots tDots : ℤ) (o : Option JStr)
deriving DecidableEq, Repr

/-- Pending field populated by a content-type command and finalized at the
field boundary. -/
inductive ZPending where
  | text (o : JStr) (hDots wDots : ℤ)
  | barcode (btype : JStr) (o : JStr) (hDots : ℤ) (showText : Bool)
  | qrcode (o : JStr) (mag : ℤ) (ec : Option JStr)
  | gb (wDots hDots tDots : ℤ)
  | gd (wDots hDots tDots : ℤ) (o : Option JStr)
deriving DecidableEq, Repr

/-- Transient state of ZPL parse. -/
structure ZState where
  fields : List FieldRecord
  printSettings : Option PrintSettings
  hasPW : Bool
  hasLL : Bool
  pwDots : Option ℤ
  llDots : Option ℤ
  maxXDots : ℤ
  maxYDots : ℤ
  currentFO : Option (ℤ × ℤ)
  currentBy : Option (ℤ × ℤ × ℤ)
  pending : Option ZPending
  pendingData : Option JStr
deriving DecidableEq, Repr

/-- Initial ZPL parse state. -/
def zInit : ZState :=
  ⟨[], none, false, false, none, none, 0, 0, none, none, none, none⟩

/-- Running maximum extent update (`updateMax`). -/
def zUpdateMax (st : ZState) (xDots yDots wDots hDots : ℤ) : ZState :=
  { st with
    maxXDots := max st.maxXDots (max 0 xDots + max 0 wDots)
    maxYDots := max st.maxYDots (max 0 yDots + max 0 hDots) }

/-- Estimated ascent in dots (`Math.round(fontHeightDots * 0.8)`). -/
def estimateAscentDots (fontHeightDots : ℤ) : ℤ :=
  jsRound (qmul (intToQ fontHeightDots) (Rat.divInt 8 10))

/-- Bar height default `currentBy?.h || 10` (`undefined` and `0` are
falsy). -/
def byHeightDefault (by' : Option (ℤ × ℤ × ℤ)) : ℤ :=
  match by' with
  | some (_, _, h) => if h = 0 then 10 else h
  | none => 10

/-- Show-text flag `(showText || 'N').toUpperCase() === 'Y'`. -/
def showTextFlag (v : Option JStr) : Bool :=
  (jsOrStr v (toChars "N")).map Char.toUpper = toChars "Y"

/-- Length-or-one of a string (`s.length || 1`). -/
def lenOr1 (l : JStr) : ℤ := if l.length = 0 then 1 else (l.length : ℤ)

/-- Zebra rotation letter decoded to the 0-3 rotation integer
(`zplToRotation`). -/
def zplToRotation (o : Option JStr) : ℤ :=
  let c := (jsOrStr o (toChars "N")).map Char.toUpper
  if c = toChars "R" then 1
  else if c = toChars "I" then 2
  else if c = toChars "B" then 3
  else 0

/-- Field finalization at a `^FS` boundary (the `FS` branch of
`ZPLDriver.parse`). -/
def zFinalize (st : ZState) : ZState :=
  match st.currentFO, st.pending with
  | some fo, some pending =>
    let st' :=
      match pending with
      | .text o hDots wDots =>
        let contentStr := st.pendingData.getD []
        let approxWidthDots :=
          max 1 (jsRound (qmul (qmul (intToQ (lenOr1 contentStr)) (intToQ wDots)) (Rat.divInt 6 10)))
        let st1 := zUpdateMax st fo.1 fo.2 approxWidthDots (max 1 hDots)
        { st1 with fields := st1.fields ++ [FieldRecord.text fo.1 fo.2 o hDots wDots contentStr] }
      | .barcode btype o hDots showText =>
        let data := st.pendingData.getD []
        let narrow := max 1 ((st.currentBy.map (fun (b : ℤ × ℤ × ℤ) => b.1)).getD 2)
        let moduleCount : ℤ :=
          if btype = toChars "code39" then lenOr1 data * 13 + 35
          else if btype = toChars "ean13" then 95
          else if btype = toChars "ean8" then 67
          else if btype = toChars "upca" then 95
          else if btype = toChars "upce" then 51
          else lenOr1 data * 11 + 35
        let st1 := zUpdateMax st fo.1 fo.2 (moduleCount * narrow) (max 1 hDots)
        { st1 with fields := st1.fields ++ [FieldRecord.barcode fo.1 fo.2 btype o hDots showText narrow data] }
      | .qrcode o mag ec =>
        let payload :=
          let d := st.pendingData.getD []
          if hasPre (toChars "LA,") d then d.drop 3 else d
        let approxSizeDots := max 1 (25 * max 1 mag)
        let st1 := zUpdateMax st fo.1 fo.2 approxSizeDots approxSizeDots
        { st1 with fields := st1.fields ++ [FieldRecord.qrcode fo.1 fo.2 o mag ec payload] }
      | .gb wDots hDots tDots =>
        let st1 := zUpdateMax st fo.1 fo.2 (max 1 wDots) (max 1 hDots)
        { st1 with fields := st1.fields ++ [FieldRecord.gb fo.1 fo.2 wDots hDots tDots] }
      | .gd wDots hDots tDots o =>
        let st1 := zUpdateMax st fo.1 fo.2 (max 1 wDots) (max 1 hDots)
        { st1 with fields := st1.fields ++ [FieldRecord.gd fo.1 fo.2 wDots hDots tDots o] }
    { st' with pending := none, pendingData := none }
  | _, _ => { st with pending := none, pendingData := none }

/-- Processing of one caret-delimited command by `ZPLDriver.parse`. -/
def zplStep (st : ZState) (raw : JStr) : ZState :=
  let cmd := raw.take 2
  let rest := raw.drop 2
  if cmd = toChars "PW" then
    match parseIntCh rest with
    | some dots => { st with pwDots := some dots, hasPW := true }
    | none => st
  else if cmd = toChars "LL" then
    match parseIntCh rest with
    | some dots => { st with llDots := some dots, hasLL := true }
    | none => st
  else if cmd = toChars "MD" then
    match parseIntCh rest with
    | some d =>
      { st with printSettings := some { st.printSettings.getD { quantity := some 1 } with darkness := some d } }
    | none => st
  else if cmd = toChars "PR" then
    match parseIntCh rest with
    | some s =>
      { st with printSettings := some { st.printSettings.getD { quantity := some 1 } with speed := some s } }
    | none => st
  else if cmd = toChars "PQ" then
    match parseIntCh rest with
    | some q =>
      { st with printSettings := some { st.printSettings.getD { quantity := some 1 } with quantity := some q } }
    | none => st
  else if cmd = toChars "FO" then
    let params := splitCh ',' rest
    let x := jsParseIntOpt params[0]?
    let y := jsParseIntOpt params[1]?
    { st with currentFO := some (x.getD 0, y.getD 0) }
  else if cmd = toChars "BY" then
    let params := splitCh ',' rest
    let w := jsParseIntOpt params[0]?
    let r := jsParseIntOpt params[1]?
    let h := jsParseIntOpt params[2]?
    { st with currentBy := some (w.getD 2, r.getD 2, h.getD 10) }
  else if cmd = toChars "A0" then
    let params := splitCh ',' rest
    let hDots := jsParseIntOpt params[1]?
    let wDots := jsParseIntOpt params[2]?
    { st with pending := some (ZPending.text (jsOrStr params[0]? (toChars "N")) (hDots.getD 20) (wDots.getD 20)) }
  else if cmd = toChars "BC" then
    let params := splitCh ',' rest
    let hDots := jsParseIntOpt params[1]?
    { st with pending := some (ZPending.barcode (toChars "code128") (jsOrStr params[0]? (toChars "N"))
        (hDots.getD (byHeightDefault st.currentBy)) (showTextFlag params[2]?)) }
  else if cmd = toChars "B3" then
    let params := splitCh ',' rest
    let hDots := jsParseIntOpt params[2]?
    { st with pending := some (ZPending.barcode (toChars "code39") (jsOrStr params[0]? (toChars "N"))
        (hDots.getD (byHeightDefault st.currentBy)) (showTextFlag params[3]?)) }
  else if cmd = toChars "BE" then
    let params := splitCh ',' rest
    let hDots := jsParseIntOpt params[1]?
    { st with pending := some (ZPending.barcode (toChars "ean13") (jsOrStr params[0]? (toChars "N"))
        (hDots.getD (byHeightDefault st.currentBy)) (showTextFlag params[2]?)) }
  else if cmd = toChars "B8" then
    let params := splitCh ',' rest
    let hDots := jsParseIntOpt params[1]?
    { st with pending := some (ZPending.barcode (toChars "ean8") (jsOrStr params[0]? (toChars "N"))
        (hDots.getD (byHeightDefault st.currentBy)) (showTextFlag params[2]?)) }
  else if cmd = toChars "BU" then
    let params := splitCh ',' rest
    let hDots := jsParseIntOpt params[1]?
    { st with pending := some (ZPending.barcode (toChars "upca") (jsOrStr params[0]? (toChars "N"))
        (hDots.getD (byHeightDefault st.currentBy)) (showTextFlag params[2]?)) }
  else if cmd = toChars "B9" then
    let params := splitCh ',' rest
    let hDots := jsParseIntOpt params[1]?
    { st with pending := some (ZPending.barcode (toChars "upce") (jsOrStr params[0]? (toChars "N"))
        (hDots.getD (byHeightDefault st.currentBy)) (showTextFlag params[2]?)) }
  else if cmd = toChars "BQ" then
    let params := splitCh ',' rest
    let mag := jsParseIntOpt params[2]?
    { st with pending := some (ZPending.qrcode (jsOrStr params[0]? (toChars "N")) (mag.getD 4) params[3]?) }
  else if cmd = toChars "GB" then
    let params := splitCh ',' rest
    let wDots := jsParseIntOpt params[0]?
    let hDots := jsParseIntOpt params[1]?
    let tDots := jsParseIntOpt params[2]?
    { st with pending := some (ZPending.gb (wDots.getD 1) (hDots.getD 1) (tDots.getD 1)) }
  else if cmd = toChars "GD" then
    let params := splitCh ',' rest
    let wDots := jsParseIntOpt params[0]?
    let hDots := jsParseIntOpt params[1]?
    let tDots := jsParseIntOpt params[2]?
    { st with pending := some (ZPending.gd (wDots.getD 1) (hDots.getD 1) (tDots.getD 1) params[4]?) }
  else if cmd = toChars "FD" then
    { st with pendingData := some rest }
  else if cmd = toChars "FS" then
    zFinalize st
  else st

/-- Rounding to a positive step (`roundTo`), used with step `0.1`. -/
def roundToStep (value step : ℚ) : ℚ := qmul (intToQ (jsRound (qdiv value step))) step

/-- Label element built from one field record at the resolved
dots-per-millimetre (the element-construction loop of `ZPLDriver.parse`);
`id` is the freshly generated random id. -/
def zBuildElement (spmm : ℚ) (id : JStr) : FieldRecord → LabelElement
  | .text foX foY o hDots wDots data =>
    let scaleX : ℚ := if 0 < hDots then qdiv (intToQ wDots) (intToQ hDots) else 1
    let baseDots := hDots
    let yBaselineDots := foY + estimateAscentDots hDots
    let dotsToCoords := fun (d : ℤ) => jsRound (qmul (qdiv (intToQ d) spmm) COORDS_PER_MM)
    .text
      { id := id
        x := some (dotsToCoords foX)
        y := some (dotsToCoords yBaselineDots)
        rotation := some (zplToRotation (some o))
        content := some data
        fontFamily := toChars "helvetica"
        fontSizePt := some (qdiv (qdiv (qdiv (intToQ baseDots) spmm) MM_PER_PT) (Rat.divInt 14 10))
        fontWeight := some (toChars "normal")
        fontStyle := some (toChars "normal")
        width := some scaleX
        height := some 1 }
  | .barcode foX foY btype o hDots showText narrowDots data =>
    let dotsToCoords := fun (d : ℤ) => jsRound (qmul (qdiv (intToQ d) spmm) COORDS_PER_MM)
    let dotsToBaseDots := fun (d : ℤ) => max 1 (jsRound (qdiv (qmul (intToQ d) DOTS_PER_MM) spmm))
    .barcode
      { id := id
        x := some (dotsToCoords foX)
        y := some (dotsToCoords foY)
        rotation := some (zplToRotation (some o))
        content := some data
        barcodeType := btype
        width := some (dotsToBaseDots narrowDots)
        height := some (dotsToCoords hDots)
        showText := some showText }
  | .qrcode foX foY o mag ec data =>
    let dotsToCoords := fun (d : ℤ) => jsRound (qmul (qdiv (intToQ d) spmm) COORDS_PER_MM)
    let dotsToBaseDots := fun (d : ℤ) => max 1 (jsRound (qdiv (qmul (intToQ d) DOTS_PER_MM) spmm))
    .qrcode
      { id := id
        x := some (dotsToCoords foX)
        y := some (dotsToCoords foY)
        rotation := some (zplToRotation (some o))
        content := some data
        size := some (max 1 (min 20 (dotsToBaseDots mag)))
        errorCorrection := some (jsOrStr ec (toChars "H")) }
  | .gb foX foY wDots hDots tDots =>
    let dotsToCoords := fun (d : ℤ) => jsRound (qmul (qdiv (intToQ d) spmm) COORDS_PER_MM)
    let dotsToBaseDots := fun (d : ℤ) => max 1 (jsRound (qdiv (qmul (intToQ d) DOTS_PER_MM) spmm))
    let xCoords := dotsToCoords foX
    let yCoordsTop := dotsToCoords foY
    let wCoords := dotsToCoords wDots
    let hCoords := dotsToCoords hDots
    let t := dotsToBaseDots tDots
    if wDots ≤ tDots ∨ hDots ≤ tDots then
      let isVertical := wDots ≤ tDots
      .line
        { id := id
          x := some xCoords
          y := some yCoordsTop
          rotation := some 0
          x2 := some (xCoords + (if isVertical then 0 else wCoords))
          y2 := some (yCoordsTop + (if isVertical then hCoords else 0))
          thickness := some t }
    else
      .rectangle
        { id := id
          x := some xCoords
          y := some yCoordsTop
          rotation := some 0
          width := some wCoords
          height := some hCoords
          thickness := some t }
  | .gd foX foY wDots hDots tDots o =>
    let dotsToCoords := fun (d : ℤ) => jsRound (qmul (qdiv (intToQ d) spmm) COORDS_PER_MM)
    let dotsToBaseDots := fun (d : ℤ) => max 1 (jsRound (qdiv (qmul (intToQ d) DOTS_PER_MM) spmm))
    let xCoords := dotsToCoords foX
    let yCoordsTop := dotsToCoords foY
    let wCoords := dotsToCoords wDots
    let hCoords := dotsToCoords hDots
    let orient := (jsOrStr o (toChars "R")).map Char.toUpper
    .line
      { id := id
        x := some xCoords
        y := some yCoordsTop
        rotation := some 0
        x2 := some (xCoords + wCoords)
        y2 := some (yCoordsTop + (if orient = toChars "L" then 0 else hCoords))
        thickness := some (dotsToBaseDots tDots) }

/-- Text-field heights of the accumulated field records. -/
def zTextHeights (fields : List FieldRecord) : List ℤ :=
  fields.filterMap (fun f =>
    match f with
    | .text _ _ _ h _ _ => some h
    | _ => none)

/-- Payload slice between the first `^XA` and the last `^XZ` marker, or the
whole input when the markers are absent or out of order. -/
def zplSlice (content : JStr) : JStr :=
  let start := idxOf (toChars "^XA") content
  let endIdx := lastIdxOf (toChars "^XZ") content
  match start, endIdx with
  | some s, some e => if s < e then (content.drop s).take (e + 3 - s) else content
  | _, _ => content

/-- Caret-split non-empty command tokens of a ZPL payload
(`zpl.split('^').filter(Boolean)`). -/
def zplCommands (content : JStr) : List JStr :=
  (splitCh '^' (zplSlice content)).filter (fun l => !l.isEmpty)

/-- Detection of an effective print-quantity command: a `PQ` token whose
parameter parses to a finite number (the only way `^PQ` changes the parsed
quantity). -/
def zplHasPq (content : JStr) : Bool :=
  (zplCommands content).any
    (fun raw => raw.take 2 = toChars "PQ" && (parseIntCh (raw.drop 2)).isSome)

/-- Full `ZPLDriver.parse`: slice between the `^XA`/`^XZ` markers, fold the
command interpreter over the caret-split commands, infer the source
resolution, and build the template; `g` supplies the fresh random element
ids. -/
def zplParse (g : ℕ → JStr) (content : JStr) : LabelTemplate :=
  let commands := zplCommands content
  let st := commands.foldl zplStep zInit
  let widthDotsForInference : ℤ := st.pwDots.getD (max 1 st.maxXDots)
  let heightDotsForInference : ℤ := st.llDots.getD (max 1 st.maxYDots)
  let textHeightsDots := zTextHeights st.fields
  let sourceDotsPerMm :=
    inferDotsPerMmZ (intToQ widthDotsForInference) (intToQ heightDotsForInference) textHeightsDots
  let dotsToMm := fun (d : ℤ) => qdiv (intToQ d) sourceDotsPerMm
  let marginDots := jsRound (qmul 10 sourceDotsPerMm)
  let widthMm1 : ℚ :=
    match st.hasPW, st.pwDots with
    | true, some p => dotsToMm p
    | _, _ => 0
  let heightMm1 : ℚ :=
    match st.hasLL, st.llDots with
    | true, some p => dotsToMm p
    | _, _ => 0
  let widthMm2 := if !st.hasPW then dotsToMm (max 1 (st.maxXDots + marginDots)) else widthMm1
  let heightMm2 := if !st.hasLL then dotsToMm (max 1 (st.maxYDots + marginDots)) else heightMm1
  let widthMm3 := if widthMm2 ≤ 0 then 100 else widthMm2
  let heightMm3 := if heightMm2 ≤ 0 then 150 else heightMm2
  let widthMm := roundToStep widthMm3 (Rat.divInt 1 10)
  let heightMm := roundToStep heightMm3 (Rat.divInt 1 10)
  let elements :=
    (st.fields.enum.map (fun p => zBuildElement sourceDotsPerMm (g p.1) p.2))
  let ps0 := st.printSettings.getD { quantity := some 1 }
  let ps1 := if ps0.quantity = none then { ps0 with quantity := some 1 } else ps0
  let ps2 := { ps1 with zplDotsPerMm := some sourceDotsPerMm }
  { name := toChars "Imported ZPL"
    width := some widthMm
    height := some heightMm
    elements := elements
    printSettings := some ps2 }

/-! ## Concrete instances and auxiliary predicates used by the claims -/

/-- Id supply producing empty ids. -/
def gid0 : ℕ → JStr := fun _ => []

/-- Id supply producing `a` for every request (one possible run of
`Math.random`). -/
def gidA : ℕ → JStr := fun _ => toChars "a"

/-- Id supply producing `b` for every request (another possible run of
`Math.random`). -/
def gidB : ℕ → JStr := fun _ => toChars "b"

/-- Classification of a generated command line as a definition command
(`PC` or `XB` tag). -/
def isDefLine : JStr → Bool
  | '{' :: 'P' :: 'C' :: _ => true
  | '{' :: 'X' :: 'B' :: _ => true
  | _ => false

/-- Classification of a generated command line as a data command (`RC` or
`RB` tag). -/
def isDataLine : JStr → Bool
  | '{' :: 'R' :: 'C' :: _ => true
  | '{' :: 'R' :: 'B' :: _ => true
  | _ => false

/-- Classification as a text definition command (`PC` tag). -/
def isPcLine : JStr → Bool
  | '{' :: 'P' :: 'C' :: _ => true
  | _ => false

/-- Classification as a text data command (`RC` tag). -/
def isRcLine : JStr → Bool
  | '{' :: 'R' :: 'C' :: _ => true
  | _ => false

/-- Ordering property of a generated command stream: no definition command
occurs after a data command. -/
def defsBeforeData (lines : List JStr) : Prop :=
  lines.Pairwise (fun a b => isDataLine a = true → isDefLine b = false)

/-- Absence of a closing brace, the one character that ends a TPCL command
token. -/
def noBrace (s : JStr) : Bool := !s.contains '}'

/-- Canonicity of one element for the amended idempotent-re-encode claim:
nonnegative integral coordinates, a content property on text elements, no
closing brace inside contents, ids that do not collide with the derived
`PC`/`XB` field numbering, and a recognised error-correction level. -/
def canonicalElemB : LabelElement → Bool
  | .text el =>
    (match el.x, el.y with
     | some x, some y => decide (0 ≤ x) && decide (0 ≤ y)
     | _, _ => false) &&
    (match el.content with
     | some s => noBrace s
     | none => false) &&
    (match el.width with
     | none => true
     | some q => decide (q.den = 1)) &&
    (match el.height with
     | none => true
     | some q => decide (q.den = 1)) &&
    !idHasTag (toChars "PC") el.id
  | .barcode el =>
    (match el.x, el.y, el.height with
     | some x, some y, some h => decide (0 ≤ x) && decide (0 ≤ y) && decide (0 ≤ h)
     | _, _, _ => false) &&
    el.width.isSome &&
    (match el.content with
     | some s => noBrace s
     | none => true) &&
    !idHasTag (toChars "XB") el.id
  | .qrcode el =>
    (match el.x, el.y with
     | some x, some y => decide (0 ≤ x) && decide (0 ≤ y)
     | _, _ => false) &&
    el.size.isSome &&
    (match el.content with
     | some s => noBrace s
     | none => true) &&
    (el.errorCorrection = none || el.errorCorrection = some (toChars "L") ||
     el.errorCorrection = some (toChars "M") || el.errorCorrection = some (toChars "Q") ||
     el.errorCorrection = some (toChars "H")) &&
    !idHasTag (toChars "XB") el.id
  | .line el =>
    (match el.x, el.y, el.x2, el.y2 with
     | some x, some y, some x2, some y2 =>
       decide (0 ≤ x) && decide (0 ≤ y) && decide (0 ≤ x2) && decide (0 ≤ y2)
     | _, _, _, _ => false) &&
    el.thickness.isSome
  | .rectangle el =>
    (match el.x, el.y, el.width, el.height with
     | some x, some y, some w, some h =>
       decide (0 ≤ x) && decide (0 ≤ y) && decide (0 ≤ x + w) && decide (0 ≤ y + h)
     | _, _, _, _ => false)

/-- Canonicity of a template for the amended idempotent-re-encode claim:
nonnegative dimensions, canonical elements, and a print quantity of 1 when
print settings are present. -/
def canonicalB (t : LabelTemplate) : Bool :=
  (match t.width with
   | some q => decide (0 ≤ q)
   | none => false) &&
  (match t.height with
   | some q => decide (0 ≤ q)
   | none => false) &&
  t.elements.all canonicalElemB &&
  (match t.printSettings with
   | none => true
   | some ps => ps.quantity = some 1)

/-- Text element of the concrete example of the spec: content `Hello`,
10pt helvetica, x = 25.3mm, y = 35.5mm (253 and 355 tenths of a
millimetre). -/
def helloText : TextElement :=
  { id := toChars "el1"
    x := some 253
    y := some 355
    rotation := some 0
    content := some (toChars "Hello")
    fontFamily := toChars "helvetica"
    fontSizePt := some 10
    fontWeight := some (toChars "normal")
    fontStyle := some (toChars "normal")
    width := some 1
    height := some 1 }

/-- Concrete 100mm x 150mm template with the single `Hello` text element. -/
def helloTemplate : LabelTemplate :=
  { name := toChars "test"
    width := some 100
    height := some 150
    elements := [.text helloText]
    printSettings := some { quantity := some 1 } }

/-- Text element with rotation input 7 and otherwise neutral fields. -/
def rot7Text : TextElement :=
  { id := toChars "el1"
    x := some 0
    y := some 0
    rotation := some 7
    content := some (toChars "A")
    fontFamily := toChars "helvetica"
    fontSizePt := some 6
    fontWeight := some (toChars "normal")
    fontStyle := some (toChars "normal")
    width := some 1
    height := some 1 }

/-- Template containing only the rotation-7 text element. -/
def rot7Template : LabelTemplate :=
  { name := toChars "t"
    width := some 100
    height := some 150
    elements := [.text rot7Text]
    printSettings := none }

/-- Template containing one QR element with size input 25. -/
def qr25Template : LabelTemplate :=
  { name := toChars "t"
    width := some 100
    height := some 150
    elements := [.qrcode
      { id := toChars "q1"
        x := some 0
        y := some 0
        rotation := some 0
        content := some (toChars "X")
        size := some 25
        errorCorrection := some (toChars "H") }]
    printSettings := none }

/-- Template containing one barcode element with rotation input 7. -/
def bar7Template : LabelTemplate :=
  { name := toChars "t"
    width := some 100
    height := some 150
    elements := [.barcode
      { id := toChars "b1"
        x := some 0
        y := some 0
        rotation := some 7
        content := some (toChars "123")
        barcodeType := toChars "code128"
        height := some 100
        width := some 2
        showText := none }]
    printSettings := none }

/-- Template containing one text element with magnification input 150. -/
def mag150Template : LabelTemplate :=
  { name := toChars "t"
    width := some 100
    height := some 150
    elements := [.text
      { id := toChars "el1"
        x := some 0
        y := some 0
        rotation := some 0
        content := some (toChars "A")
        fontFamily := toChars "helvetica"
        fontSizePt := some 6
        fontWeight := some (toChars "normal")
        fontStyle := some (toChars "normal")
        width := some 150
        height := some 150 }]
    printSettings := none }

/-- Canonical template with print quantity 2 and no elements. -/
def qty2Template : LabelTemplate :=
  { name := toChars "t"
    width := some 100
    height := some 150
    elements := []
    printSettings := some { quantity := some 2 } }

/-- Template obtained by re-parsing the encoding of `qty2Template`: the
print settings are gone. -/
def qty2Reparsed : LabelTemplate :=
  { name := toChars "Imported Label"
    width := some (Rat.divInt 1000 10)
    height := some (Rat.divInt 1500 10)
    elements := []
    printSettings := none }

/-- Canonical template exercising every element kind, used as the witness
input of the amended idempotent-re-encode claim. -/
def richTemplate : LabelTemplate :=
  { name := toChars "rich"
    width := some 100
    height := some 150
    elements :=
      [ .text helloText
      , .barcode
          { id := toChars "e2"
            x := some 10
            y := some 20
            rotation := some 1
            content := some (toChars "12345")
            barcodeType := toChars "code128"
            height := some 100
            width := some 2
            showText := none }
      , .qrcode
          { id := toChars "e3"
            x := some 30
            y := some 40
            rotation := some 2
            content := some (toChars "QQ")
            size := some 5
            errorCorrection := some (toChars "M") }
      , .line
          { id := toChars "e4"
            x := some 0
            y := some 0
            rotation := some 0
            x2 := some 50
            y2 := some 60
            thickness := some 2 }
      , .rectangle
          { id := toChars "e5"
            x := some 5
            y := some 6
            rotation := some 0
            width := some 70
            height := some 80
            thickness := some 3 } ]
    printSettings := some { quantity := some 1 } }

/-- TPCL payload with a single line-draw command, used to exhibit the
random element ids produced by parse. -/
def lcPayload : JStr := toChars "\x7bLC;0000,0000,0010,0010,0,2|\x7d"

/-- TPCL payload whose text definition carries the unknown font code `Z`. -/
def unknownFontPayload : JStr :=
  toChars "\x7bPC000;0100,0200,10,10,Z,00,B|\x7d\x7bRC000;hi|\x7d"

/-- Well-formedness of one generated command line: an opening brace, a
nonempty brace-free body, a closing brace. -/
def lineOk (l : JStr) : Prop := ∃ mid, l = '{' :: mid ++ ['}'] ∧ mid ≠ [] ∧ '}' ∉ mid

/-! ## Parsed-value descriptions used by the round-trip proof -/

/-- Derived text-definition key of element index `i`. -/
def pcKeyOf (i : ℕ) : JStr := toChars "PC" ++ padStartCh (natToChars i) 3 '0'

/-- Derived barcode-definition key of element index `i`. -/
def xbKeyOf (i : ℕ) : JStr := toChars "XB" ++ padStartCh (natToChars i) 2 '0'

/-- Text definition recorded by parse for the text element at index `i`. -/
def parsedTextDef (i : ℕ) (el : TextElement) : TextDef :=
  { x := el.x
    y := el.y
    height := some (normalizeMag el.height)
    width := some (normalizeMag el.width)
    font := some (getTpclFontId el)
    rotation := some (jsOrZero el.rotation)
    id := pcKeyOf i }

/-- Text element produced by parse for the text element at index `i`. -/
def parsedTextElem (i : ℕ) (el : TextElement) : TextElement :=
  let typ := (assocFind (getTpclFontId el) TPCL_FONT_PRESETS).getD tpclPresetG
  { id := pcKeyOf i
    x := el.x
    y := el.y
    rotation := some (jsOrZero el.rotation)
    fontFamily := typ.fontFamily
    fontSizePt := some typ.fontSizePt
    fontWeight := some typ.fontWeight
    fontStyle := some typ.fontStyle
    width := some (intToQ (normalizeMag el.width))
    height := some (intToQ (normalizeMag el.height))
    content := some (el.content.getD []) }

/-- Barcode element produced by parse for the barcode element at index `i`. -/
def parsedBarcodeElem (i : ℕ) (el : BarcodeElement) : BarcodeElement :=
  { id := xbKeyOf i
    x := el.x
    y := el.y
    rotation := some (max 0 (min 3 (jsOrZero el.rotation)))
    barcodeType := ((assocFind ((assocFind el.barcodeType BARCODE_MAP).getD (toChars "9"))
      REVERSE_BARCODE_MAP).getD (toChars "code128"))
    width := el.width
    height := el.height
    content := some (el.content.getD [])
    showText := none }

/-- QR element produced by parse for the QR element at index `i`. -/
def parsedQrElem (i : ℕ) (el : QRCodeElement) : QRCodeElement :=
  { id := xbKeyOf i
    x := el.x
    y := el.y
    rotation := some (max 0 (min 3 (jsOrZero el.rotation)))
    size := el.size.map (fun s => max 1 (min 20 s))
    content := some (el.content.getD [])
    errorCorrection := some (jsOrStr el.errorCorrection (toChars "H")) }

/-- Line element produced by parse for a generated line command. -/
def parsedLineElem (id : JStr) (el : LineElement) : LineElement :=
  { id := id
    x := el.x
    y := el.y
    rotation := some 0
    x2 := el.x2
    y2 := el.y2
    thickness := el.thickness }

/-- Rectangle element produced by parse for a generated rectangle command. -/
def parsedRectElem (id : JStr) (el : RectangleElement) : RectangleElement :=
  { id := id
    x := el.x
    y := el.y
    rotation := some 0
    width := el.width
    height := el.height
    thickness := some 3 }

def xbStoredParams (el : BarcodeElement) : List JStr :=
  [padStartCh (jsNumToChars el.x) 4 '0', padStartCh (jsNumToChars el.y) 4 '0',
   barcodeTypeCode el, ['3'], padStartCh (jsNumToChars el.width) 2 '0',
   intToChars (max 0 (min 3 (jsOrZero el.rotation))),
   padStartCh (jsNumToChars el.height) 4 '0',
   toChars "+0000000000", toChars "000", toChars "0", toChars "00"]

def qrStoredParams (el : QRCodeElement) : List JStr :=
  [padStartCh (jsNumToChars el.x) 4 '0', padStartCh (jsNumToChars el.y) 4 '0',
   ['T'], jsOrStr el.errorCorrection (toChars "H"),
   padStartCh (jsNumToChars (el.size.map (fun s => max 1 (min 20 s)))) 2 '0',
   ['A'], intToChars (max 0 (min 3 (jsOrZero el.rotation)))]

def pcTokens : ℕ → List LabelElement → List JStr
  | _, [] => []
  | i, .text el :: rest => pcLineOf i el :: pcTokens (i + 1) rest
  | i, .barcode _ :: rest => pcTokens (i + 1) rest
  | i, .qrcode _ :: rest => pcTokens (i + 1) rest
  | i, .line _ :: rest => pcTokens (i + 1) rest
  | i, .rectangle _ :: rest => pcTokens (i + 1) rest

def xbTokens : ℕ → List LabelElement → List JStr
  | _, [] => []
  | i, .text _ :: rest => xbTokens (i + 1) rest
  | i, .barcode el :: rest => xbLineOf i el :: rbLineOf i el :: xbTokens (i + 1) rest
  | i, .qrcode el :: rest => qrXbLineOf i el :: qrRbLineOf i el :: xbTokens (i + 1) rest
  | i, .line _ :: rest => xbTokens (i + 1) rest
  | i, .rectangle _ :: rest => xbTokens (i + 1) rest

def rcTokens : ℕ → List LabelElement → List JStr
  | _, [] => []
  | i, .text el :: rest =>
    (match el.content with
     | some _ => [rcLineOf i el]
     | none => []) ++ rcTokens (i + 1) rest
  | i, .barcode _ :: rest => rcTokens (i + 1) rest
  | i, .qrcode _ :: rest => rcTokens (i + 1) rest
  | i, .line _ :: rest => rcTokens (i + 1) rest
  | i, .rectangle _ :: rest => rcTokens (i + 1) rest

def gfxTokens : List LabelElement → List JStr
  | [] => []
  | .text _ :: rest => gfxTokens rest
  | .barcode _ :: rest => gfxTokens rest
  | .qrcode _ :: rest => gfxTokens rest
  | .line el :: rest => lcLineOf el :: gfxTokens rest
  | .rectangle el :: rest => xrLineOf el :: gfxTokens rest

def pcEntries : ℕ → List LabelElement → List (JStr × TextDef)
  | _, [] => []
  | i, .text el :: rest => (pcKeyOf i, parsedTextDef i el) :: pcEntries (i + 1) rest
  | i, .barcode _ :: rest => pcEntries (i + 1) rest
  | i, .qrcode _ :: rest => pcEntries (i + 1) rest
  | i, .line _ :: rest => pcEntries (i + 1) rest
  | i, .rectangle _ :: rest => pcEntries (i + 1) rest

def xbEntries : ℕ → List LabelElement → List (JStr × List JStr)
  | _, [] => []
  | i, .text _ :: rest => xbEntries (i + 1) rest
  | i, .barcode el :: rest => (xbKeyOf i, xbStoredParams el) :: xbEntries (i + 1) rest
  | i, .qrcode el :: rest => (xbKeyOf i, qrStoredParams el) :: xbEntries (i + 1) rest
  | i, .line _ :: rest => xbEntries (i + 1) rest
  | i, .rectangle _ :: rest => xbEntries (i + 1) rest

def barElems : ℕ → List LabelElement → List LabelElement
  | _, [] => []
  | i, .text _ :: rest => barElems (i + 1) rest
  | i, .barcode el :: rest => .barcode (parsedBarcodeElem i el) :: barElems (i + 1) rest
  | i, .qrcode el :: rest => .qrcode (parsedQrElem i el) :: barElems (i + 1) rest
  | i, .line _ :: rest => barElems (i + 1) rest
  | i, .rectangle _ :: rest => barElems (i + 1) rest

def textElems : ℕ → List LabelElement → List LabelElement
  | _, [] => []
  | i, .text el :: rest =>
    (match el.content with
     | some _ => [LabelElement.text (parsedTextElem i el)]
     | none => []) ++ textElems (i + 1) rest
  | i, .barcode _ :: rest => textElems (i + 1) rest
  | i, .qrcode _ :: rest => textElems (i + 1) rest
  | i, .line _ :: rest => textElems (i + 1) rest
  | i, .rectangle _ :: rest => textElems (i + 1) rest

def gfxElems (g : ℕ → JStr) : ℕ → List LabelElement → List LabelElement
  | _, [] => []
  | c, .text _ :: rest => gfxElems g c rest
  | c, .barcode _ :: rest => gfxElems g c rest
  | c, .qrcode _ :: rest => gfxElems g c rest
  | c, .line el :: rest => .line (parsedLineElem (g c) el) :: gfxElems g (c + 1) rest
  | c, .rectangle el :: rest => .rectangle (parsedRectElem (g c) el) :: gfxElems g (c + 1) rest

def gfxCount : List LabelElement → ℕ
  | [] => 0
  | .text _ :: rest => gfxCount rest
  | .barcode _ :: rest => gfxCount rest
  | .qrcode _ :: rest => gfxCount rest
  | .line _ :: rest => gfxCount rest + 1
  | .rectangle _ :: rest => gfxCount rest + 1

def parsedDim (v : Option ℚ) : Option ℚ :=
  v.map (fun q => Rat.divInt (jsRound (qmul q COORDS_PER_MM)) 10)

def tpclReparsed (g : ℕ → JStr) (t : LabelTemplate) : LabelTemplate :=
  { name := toChars "Imported Label"
    width := parsedDim t.width
    height := parsedDim t.height
    elements := barElems 0 t.elements ++ textElems 0 t.elements ++ gfxElems g 0 t.elements
    printSettings := none }

def cexGid : ℕ → JStr := fun _ => toChars "rid"

instance exceptDecEq {ε α : Type} [DecidableEq ε] [DecidableEq α] :
    DecidableEq (Except ε α)
  | .ok x, .ok y =>
    if h : x = y then .isTrue (by rw [h]) else .isFalse (fun hc => h (Except.ok.inj hc))
  | .ok _, .error _ => .isFalse (fun hc => Except.noConfusion hc)
  | .error _, .ok _ => .isFalse (fun hc => Except.noConfusion hc)
  | .error e, .error f =>
    if h : e = f then .isTrue (by rw [h]) else .isFalse (fun hc => h (Except.error.inj hc))

def c3Barcode : BarcodeElement :=
  { id := toChars "e2"
    x := some 10
    y := some 20
    rotation := some 1
    content := some (toChars "12345")
    barcodeType := toChars "code128"
    height := some 100
    width := some 2
    showText := none }

def btTemplate : LabelTemplate :=
  { name := toChars "bt"
    width := some 100
    height := some 150
    elements := [.barcode c3Barcode, .text helloText]
    printSettings := none }

def tbTemplate : LabelTemplate :=
  { name := toChars "tb"
    width := some 100
    height := some 150
    elements := [.text helloText, .barcode c3Barcode]
    printSettings := none }

def textOnlyTemplate (el : TextElement) : LabelTemplate :=
  { name := []
    width := some 100
    height := some 150
    elements := [.text el]
    printSettings := none }

def pstateIdErased (st : PState) : PState :=
  { st with elements := st.elements.map eraseElemId }

def unknownFontCmds (c : JStr) : JStr :=
  joinSep crlf
    [tpclCmd (toChars "PC000" ++ ';' :: (toChars "0000,0000,10,10," ++ (c ++ toChars ",00,B"))),
     tpclCmd (toChars "RC000" ++ ';' :: toChars "Hi")]
    ++ crlf

def unknownFontDef (c : JStr) : TextDef :=
  { x := some 0
    y := some 0
    height := some 10
    width := some 10
    font := some c
    rotation := some 0
    id := toChars "PC000" }

def unknownFontElem : TextElement :=
  { id := toChars "PC000"
    x := some 0
    y := some 0
    rotation := some 0
    fontFamily := toChars "helvetica"
    fontSizePt := some 6
    fontWeight := some (toChars "normal")
    fontStyle := some (toChars "normal")
    width := some (intToQ 10)
    height := some (intToQ 10)
    content := some (toChars "Hi") }

def unknownFontResult : LabelTemplate :=
  { name := toChars "Imported Label"
    width := some 100
    height := some 150
    elements := [.text unknownFontElem]
    printSettings := none }

/-! ## Theorems -/

/-! ## Lemmas: decimal rendering and parsing -/

theorem natToCharsF_congr (n : ℕ) : ∀ f : ℕ, n < f → natToCharsF f n = natToChars n := by
  induction n using Nat.strong_induction_on with
  | _ n ih =>
    intro f hf
    match f with
    | f' + 1 =>
      by_cases h10 : n < 10
      · simp [natToCharsF, natToChars, h10]
      · have hdiv : n / 10 < n := Nat.div_lt_self (by omega) (by omega)
        rw [natToChars, natToCharsF, natToCharsF, if_neg h10, if_neg h10]
        rw [ih (n / 10) hdiv f' (by omega), ih (n / 10) hdiv n (by omega)]

theorem natToChars_unfold (n : ℕ) :
    natToChars n = if n < 10 then [Nat.digitChar n] else natToChars (n / 10) ++ [Nat.digitChar (n % 10)] := by
  by_cases h10 : n < 10
  · simp [natToChars, natToCharsF, h10]
  · have hdiv : n / 10 < n := Nat.div_lt_self (by omega) (by omega)
    rw [natToChars, natToCharsF, if_neg h10, if_neg h10, natToCharsF_congr (n / 10) n (by omega)]

theorem digitChar_isDigit {d : ℕ} (h : d < 10) : (Nat.digitChar d).isDigit = true := by
  interval_cases d <;> decide

theorem digitVal_digitChar {d : ℕ} (h : d < 10) : digitVal (Nat.digitChar d) = d := by
  interval_cases d <;> decide

theorem natToChars_all_digits (n : ℕ) : ∀ c ∈ natToChars n, c.isDigit = true := by
  induction n using Nat.strong_induction_on with
  | _ n ih =>
    rw [natToChars_unfold]
    by_cases h10 : n < 10
    · simp only [if_pos h10, List.mem_singleton]
      rintro c rfl
      exact digitChar_isDigit h10
    · have hdiv : n / 10 < n := Nat.div_lt_self (by omega) (by omega)
      simp only [if_neg h10, List.mem_append, List.mem_singleton]
      rintro c (hc | rfl)
      · exact ih (n / 10) hdiv c hc
      · exact digitChar_isDigit (Nat.mod_lt _ (by omega))

theorem natToChars_ne_nil (n : ℕ) : natToChars n ≠ [] := by
  rw [natToChars_unfold]
  by_cases h10 : n < 10 <;> simp [h10]

theorem digitsVal_append_one (l : JStr) (c : Char) :
    digitsVal (l ++ [c]) = 10 * digitsVal l + digitVal c := by
  simp [digitsVal, List.foldl_append]

theorem digitsVal_natToChars (n : ℕ) : digitsVal (natToChars n) = n := by
  induction n using Nat.strong_induction_on with
  | _ n ih =>
    rw [natToChars_unfold]
    by_cases h10 : n < 10
    · simp only [if_pos h10]
      show digitsVal ([] ++ [Nat.digitChar n]) = n
      rw [digitsVal_append_one]
      simp [digitsVal, digitVal_digitChar h10]
    · have hdiv : n / 10 < n := Nat.div_lt_self (by omega) (by omega)
      rw [if_neg h10, digitsVal_append_one, ih (n / 10) hdiv,
        digitVal_digitChar (Nat.mod_lt _ (by omega))]
      omega

theorem digitsVal_replicate_zero (k : ℕ) (l : JStr) :
    digitsVal (List.replicate k '0' ++ l) = digitsVal l := by
  induction k with
  | zero => simp
  | succ k ih =>
    have : List.replicate (k + 1) '0' ++ l = '0' :: (List.replicate k '0' ++ l) := by
      simp [List.replicate_succ]
    rw [this]
    show List.foldl _ (10 * 0 + digitVal '0') _ = _
    have : 10 * 0 + digitVal '0' = 0 := by decide
    rw [this]
    exact ih

theorem parseDigits_all_digits {l : JStr} (hne : l ≠ []) (hd : ∀ c ∈ l, c.isDigit = true) :
    parseDigits l = some (digitsVal l : ℤ) := by
  have : l.takeWhile Char.isDigit = l := List.takeWhile_eq_self_iff.mpr hd
  rw [parseDigits, this]
  match l, hne with
  | c :: t, _ => rfl

theorem padStartCh_all_digits {l : JStr} (hd : ∀ c ∈ l, c.isDigit = true) (k : ℕ) :
    ∀ c ∈ padStartCh l k '0', c.isDigit = true := by
  rw [padStartCh]
  by_cases h : k ≤ l.length
  · simpa [h] using hd
  · simp only [if_neg h, List.mem_append, List.mem_replicate]
    rintro c (⟨-, rfl⟩ | hc)
    · decide
    · exact hd c hc

theorem padStartCh_ne_nil {l : JStr} (hne : l ≠ []) (k : ℕ) (c : Char) :
    padStartCh l k c ≠ [] := by
  rw [padStartCh]
  by_cases h : k ≤ l.length
  · simpa [h]
  · simp only [if_neg h]
    intro habs
    rcases List.append_eq_nil.mp habs with ⟨-, h2⟩
    exact hne h2

theorem digitsVal_padStartCh (l : JStr) (k : ℕ) :
    digitsVal (padStartCh l k '0') = digitsVal l := by
  rw [padStartCh]
  by_cases h : k ≤ l.length
  · simp [h]
  · simp only [if_neg h]
    exact digitsVal_replicate_zero _ _

theorem parseIntCh_of_digits {l : JStr} (hne : l ≠ []) (hd : ∀ c ∈ l, c.isDigit = true) :
    parseIntCh l = some (digitsVal l : ℤ) := by
  match l, hne with
  | c :: t, _ =>
    have hc : c.isDigit = true := hd c (List.mem_cons_self c t)
    have hminus : c ≠ '-' := by rintro rfl; simp at hc
    have hplus : c ≠ '+' := by rintro rfl; simp at hc
    rw [parseIntCh.eq_def]
    split
    · next rest heq => exact absurd (List.head_eq_of_cons_eq heq.symm).symm hminus
    · next rest heq => exact absurd (List.head_eq_of_cons_eq heq.symm).symm hplus
    · next => exact parseDigits_all_digits (by simp) hd

theorem parseIntCh_padNat (n : ℕ) (k : ℕ) :
    parseIntCh (padStartCh (natToChars n) k '0') = some (n : ℤ) := by
  rw [parseIntCh_of_digits (padStartCh_ne_nil (natToChars_ne_nil n) k '0')
    (padStartCh_all_digits (natToChars_all_digits n) k),
    digitsVal_padStartCh, digitsVal_natToChars]

theorem parseIntCh_natToChars (n : ℕ) : parseIntCh (natToChars n) = some (n : ℤ) := by
  rw [parseIntCh_of_digits (natToChars_ne_nil n) (natToChars_all_digits n),
    digitsVal_natToChars]

theorem parseIntCh_intToChars (z : ℤ) : parseIntCh (intToChars z) = some z := by
  rw [intToChars]
  by_cases hz : z < 0
  · simp only [if_pos hz]
    show (parseDigits (natToChars z.natAbs)).map (fun n => -n) = some z
    rw [parseDigits_all_digits (natToChars_ne_nil _) (natToChars_all_digits _),
      digitsVal_natToChars]
    show some (-(z.natAbs : ℤ)) = some z
    congr 1
    omega
  · simp only [if_neg hz]
    rw [parseIntCh_natToChars]
    congr 1
    omega

theorem parseIntCh_padInt_nonneg {z : ℤ} (hz : 0 ≤ z) (k : ℕ) :
    parseIntCh (padStartCh (intToChars z) k '0') = some z := by
  rw [intToChars, if_neg (by omega), parseIntCh_padNat]
  congr 1
  omega

theorem intToChars_neg_length {z : ℤ} (hz : z < 0) : 2 ≤ (intToChars z).length := by
  rw [intToChars, if_pos hz]
  have := natToChars_ne_nil z.natAbs
  match h : natToChars z.natAbs with
  | [] => exact absurd h this
  | c :: t => simp

theorem padStartCh_of_le {l : JStr} {k : ℕ} (h : k ≤ l.length) (c : Char) :
    padStartCh l k c = l := by
  rw [padStartCh, if_pos h]

theorem parseIntCh_pad2Int (z : ℤ) :
    parseIntCh (padStartCh (intToChars z) 2 '0') = some z := by
  by_cases hz : 0 ≤ z
  · exact parseIntCh_padInt_nonneg hz 2
  · rw [padStartCh_of_le (intToChars_neg_length (by omega)) '0', parseIntCh_intToChars]

theorem parseIntCh_jsNum (v : Option ℤ) : parseIntCh (jsNumToChars v) = v := by
  match v with
  | none => decide
  | some z => exact parseIntCh_intToChars z

theorem padNat_inj {i j k : ℕ} (h : padStartCh (natToChars i) k '0' = padStartCh (natToChars j) k '0') :
    i = j := by
  have hi := parseIntCh_padNat i k
  have hj := parseIntCh_padNat j k
  rw [h, hj] at hi
  have : (j : ℤ) = (i : ℤ) := Option.some.inj hi
  omega

/-! ## Lemmas: split, startsWith, tokenizer -/

theorem splitCh_not_mem {c : Char} {l : JStr} (h : c ∉ l) : splitCh c l = [l] := by
  induction l with
  | nil => rfl
  | cons a t ih =>
    have ha : a ≠ c := by rintro rfl; exact h (List.mem_cons_self a t)
    have ht : c ∉ t := fun hm => h (List.mem_cons_of_mem a hm)
    rw [splitCh, if_neg ha, ih ht]

theorem splitCh_append {c : Char} {a : JStr} (b : JStr) (h : c ∉ a) :
    splitCh c (a ++ c :: b) = a :: splitCh c b := by
  induction a with
  | nil => simp [splitCh]
  | cons x t ih =>
    have hx : x ≠ c := by rintro rfl; exact h (List.mem_cons_self x t)
    have ht : c ∉ t := fun hm => h (List.mem_cons_of_mem x hm)
    rw [List.cons_append, splitCh, if_neg hx, ih ht]

theorem splitCh_ne_nil (c : Char) (l : JStr) : splitCh c l ≠ [] := by
  induction l with
  | nil => simp [splitCh]
  | cons a t ih =>
    rw [splitCh]
    by_cases ha : a = c
    · simp [ha]
    · rw [if_neg ha]
      match h : splitCh c t with
      | [] => simp
      | x :: xs => simp

theorem hasPre_self_append (p rest : JStr) : hasPre p (p ++ rest) = true := by
  induction p with
  | nil => rfl
  | cons a t ih => simp [hasPre, ih]

theorem hasPre_iff_append (p s : JStr) : hasPre p s = true ↔ ∃ r, s = p ++ r := by
  constructor
  · intro h
    induction p generalizing s with
    | nil => exact ⟨s, rfl⟩
    | cons a t ih =>
      match s with
      | [] => simp [hasPre] at h
      | b :: bs =>
        rw [hasPre, Bool.and_eq_true] at h
        obtain ⟨r, hr⟩ := ih bs h.2
        refine ⟨r, ?_⟩
        have : a = b := by simpa using h.1
        rw [this, hr]
        rfl
  · rintro ⟨r, rfl⟩
    exact hasPre_self_append p r

/-- Scanning inside a token consumes brace-free characters into the
accumulator. -/
theorem tokenizeAux_inside {mid : JStr} (h : '}' ∉ mid) (rest : JStr) (acc : JStr) :
    tokenizeAux (mid ++ rest) (some acc) = tokenizeAux rest (some (acc ++ mid)) := by
  induction mid generalizing acc with
  | nil => simp
  | cons a t ih =>
    have ha : a ≠ '}' := fun heq => h (heq ▸ List.mem_cons_self a t)
    have ht : '}' ∉ t := fun hm => h (List.mem_cons_of_mem a hm)
    rw [List.cons_append, tokenizeAux, if_neg ha, ih ht]
    simp

theorem tokenize_enter (rest : JStr) :
    tokenizeAux ('{' :: rest) none = tokenizeAux rest (some []) := by
  rw [tokenizeAux]
  simp

theorem tokenize_close (rest : JStr) (acc : JStr) :
    tokenizeAux ('}' :: rest) (some acc) =
      if acc.isEmpty then tokenizeAux rest none
      else ('{' :: acc ++ ['}']) :: tokenizeAux rest none := by
  rw [tokenizeAux]
  simp

/-- A well-formed command at the head of the input produces exactly itself
as the next token. -/
theorem tokenize_cmd {mid : JStr} (hne : mid ≠ []) (hnb : '}' ∉ mid) (rest : JStr) :
    tokenizeAux ('{' :: mid ++ '}' :: rest) none =
      ('{' :: mid ++ ['}']) :: tokenizeAux rest none := by
  show tokenizeAux ('{' :: (mid ++ '}' :: rest)) none = _
  rw [tokenize_enter, tokenizeAux_inside hnb ('}' :: rest) [], tokenize_close]
  rw [List.nil_append, if_neg (by simpa using hne)]

/-- Characters outside of any brace pair are skipped. -/
theorem tokenize_skip {junk : JStr} (h : '{' ∉ junk) (rest : JStr) :
    tokenizeAux (junk ++ rest) none = tokenizeAux rest none := by
  induction junk with
  | nil => rfl
  | cons a t ih =>
    have ha : a ≠ '{' := fun heq => h (heq ▸ List.mem_cons_self a t)
    have ht : '{' ∉ t := fun hm => h (List.mem_cons_of_mem a hm)
    rw [List.cons_append, tokenizeAux, if_neg ha, ih ht]

/-- The tokenizer recovers exactly the command lines from the CRLF-joined
payload produced by generate. -/
theorem tokenize_join (lines : List JStr) (h : ∀ l ∈ lines, lineOk l) :
    tokenize (joinSep crlf lines ++ crlf) = lines := by
  induction lines with
  | nil => decide
  | cons l ls ih =>
    obtain ⟨mid, rfl, hne, hnb⟩ := h l (List.mem_cons_self l ls)
    have hls : ∀ l' ∈ ls, lineOk l' := fun l' hl' => h l' (List.mem_cons_of_mem _ hl')
    match ls with
    | [] =>
      show tokenizeAux ((('{' :: mid ++ ['}']) ++ crlf)) none = _
      have heq : ('{' :: mid ++ ['}']) ++ crlf = '{' :: mid ++ '}' :: crlf := by simp
      rw [heq, tokenize_cmd hne hnb, show tokenizeAux crlf none = [] from by decide]
    | l2 :: t =>
      have hj : joinSep crlf (('{' :: mid ++ ['}']) :: l2 :: t) =
          ('{' :: mid ++ ['}']) ++ crlf ++ joinSep crlf (l2 :: t) := rfl
      have hstep : joinSep crlf (('{' :: mid ++ ['}']) :: l2 :: t) ++ crlf =
          '{' :: mid ++ '}' :: (crlf ++ (joinSep crlf (l2 :: t) ++ crlf)) := by
        rw [hj]
        simp
      show tokenizeAux _ none = _
      rw [hstep, tokenize_cmd hne hnb, tokenize_skip (by decide)]
      exact congrArg _ (ih hls)

/-! ## Lemmas: rational arithmetic bridges -/

theorem intToQ_eq (z : ℤ) : intToQ z = (z : ℚ) := Rat.divInt_one z

theorem qmul_eq (a b : ℚ) : qmul a b = a * b := by
  rw [qmul, Rat.divInt_eq_div]
  have h1 : ((a.den : ℚ)) ≠ 0 := by positivity
  have h2 : ((b.den : ℚ)) ≠ 0 := by positivity
  push_cast
  conv_rhs => rw [← Rat.num_div_den a, ← Rat.num_div_den b]
  rw [div_mul_div_comm]

theorem qsub_eq (a b : ℚ) : qsub a b = a - b := by
  rw [qsub, Rat.divInt_eq_div]
  have h1 : ((a.den : ℚ)) ≠ 0 := by positivity
  have h2 : ((b.den : ℚ)) ≠ 0 := by positivity
  push_cast
  conv_rhs => rw [← Rat.num_div_den a, ← Rat.num_div_den b]
  rw [div_sub_div _ _ h1 h2]
  ring_nf

theorem qdiv_eq (a : ℚ) {b : ℚ} (hb : b ≠ 0) : qdiv a b = a / b := by
  have hnum : (b.num : ℚ) ≠ 0 := by
    simpa using Rat.num_ne_zero.mpr hb
  have h1 : ((a.den : ℚ)) ≠ 0 := by positivity
  have h2 : ((b.den : ℚ)) ≠ 0 := by positivity
  rw [qdiv, Rat.divInt_eq_div]
  push_cast
  conv_rhs => rw [← Rat.num_div_den a, ← Rat.num_div_den b]
  field_simp

theorem jsRound_eq (q : ℚ) : jsRound q = ⌊q + 1 / 2⌋ := by
  have hden : ((q.den : ℚ)) ≠ 0 := by positivity
  have hqd : q = ((q.num : ℚ)) / ((q.den : ℚ)) := (Rat.num_div_den q).symm
  have hq : q + 1 / 2 = ((2 * q.num + (q.den : ℤ) : ℤ) : ℚ) / ((2 * q.den : ℕ) : ℚ) := by
    conv_lhs => rw [hqd]
    push_cast
    field_simp
    ring
  rw [jsRound, Int.fdiv_eq_ediv _ (by positivity), hq, Rat.floor_intCast_div_natCast]
  congr 1

theorem jsRound_intCast (z : ℤ) : jsRound ((z : ℚ)) = z := by
  rw [jsRound_eq]
  have h1 : ((z : ℚ)) ≤ (z : ℚ) + 1 / 2 := by norm_num
  have h2 : (z : ℚ) + 1 / 2 < (z : ℚ) + 1 := by norm_num
  exact Int.floor_eq_iff.mpr ⟨by exact_mod_cast h1, by exact_mod_cast h2⟩

theorem jsRound_intToQ (z : ℤ) : jsRound (intToQ z) = z := by
  rw [intToQ_eq, jsRound_intCast]

theorem jsRound_nonneg {q : ℚ} (h : 0 ≤ q) : 0 ≤ jsRound q := by
  rw [jsRound_eq]
  positivity

theorem roundMul10_divInt (n : ℤ) : jsRound (qmul (Rat.divInt n 10) COORDS_PER_MM) = n := by
  rw [qmul_eq, Rat.divInt_eq_div, COORDS_PER_MM]
  have hc : ((10 : ℤ) : ℚ) = (10 : ℚ) := by norm_num
  rw [hc, div_mul_cancel₀ _ (by norm_num : (10 : ℚ) ≠ 0), jsRound_intCast]

theorem roundSub3Mul10 (h : ℚ) :
    jsRound (qmul (qsub h 3) COORDS_PER_MM) = jsRound (qmul h COORDS_PER_MM) - 30 := by
  rw [qmul_eq, qsub_eq, qmul_eq, jsRound_eq, jsRound_eq, COORDS_PER_MM]
  rw [show (h - 3) * 10 + 1 / 2 = (h * 10 + 1 / 2) + (-30 : ℤ) from by push_cast; ring]
  rw [Int.floor_add_int]
  ring

theorem effLen_divInt (n : ℤ) :
    jsRound (qmul (qsub (Rat.divInt n 10) 3) COORDS_PER_MM) = n - 30 := by
  rw [roundSub3Mul10, roundMul10_divInt]

/-! ## Lemmas: character classes of rendered segments -/

theorem isDigit_ne_special {c : Char} (h : c.isDigit = true) :
    c ≠ '}' ∧ c ≠ '{' ∧ c ≠ ',' ∧ c ≠ ';' ∧ c ≠ '|' := by
  refine ⟨?_, ?_, ?_, ?_, ?_⟩ <;> (rintro rfl; simp [Char.isDigit] at h)

theorem mem_padStartCh {c : Char} {l : JStr} {k : ℕ} {p : Char}
    (h : c ∈ padStartCh l k p) : c = p ∨ c ∈ l := by
  rw [padStartCh] at h
  by_cases hk : k ≤ l.length
  · rw [if_pos hk] at h
    exact Or.inr h
  · rw [if_neg hk] at h
    rcases List.mem_append.mp h with hrep | hl
    · exact Or.inl (List.eq_of_mem_replicate hrep)
    · exact Or.inr hl

theorem mem_intToChars {c : Char} {z : ℤ} (h : c ∈ intToChars z) :
    c = '-' ∨ c.isDigit = true := by
  rw [intToChars] at h
  by_cases hz : z < 0
  · rw [if_pos hz] at h
    rcases List.mem_cons.mp h with rfl | hm
    · exact Or.inl rfl
    · exact Or.inr (natToChars_all_digits _ c hm)
  · rw [if_neg hz] at h
    exact Or.inr (natToChars_all_digits _ c h)

theorem mem_jsNumToChars {c : Char} {v : Option ℤ} (h : c ∈ jsNumToChars v) :
    c = '-' ∨ c.isDigit = true ∨ c ∈ toChars "NaN" := by
  match v with
  | none => exact Or.inr (Or.inr h)
  | some z =>
    rcases mem_intToChars h with h' | h'
    · exact Or.inl h'
    · exact Or.inr (Or.inl h')

/-- Characters of a padded numeric field are never TPCL metacharacters. -/
theorem padNum_no_special {c : Char} {v : Option ℤ} {k : ℕ}
    (h : c ∈ padStartCh (jsNumToChars v) k '0') :
    c ≠ '}' ∧ c ≠ '{' ∧ c ≠ ',' ∧ c ≠ ';' := by
  rcases mem_padStartCh h with rfl | hm
  · refine ⟨by decide, by decide, by decide, by decide⟩
  · rcases mem_jsNumToChars hm with rfl | hd | hn
    · refine ⟨by decide, by decide, by decide, by decide⟩
    · have := isDigit_ne_special hd
      exact ⟨this.1, this.2.1, this.2.2.1, this.2.2.2.1⟩
    · have hn' : c ∈ ['N', 'a', 'N'] := hn
      rcases List.mem_cons.mp hn' with rfl | hn2
      · refine ⟨by decide, by decide, by decide, by decide⟩
      rcases List.mem_cons.mp hn2 with rfl | hn3
      · refine ⟨by decide, by decide, by decide, by decide⟩
      rcases List.mem_cons.mp hn3 with rfl | hn4
      · refine ⟨by decide, by decide, by decide, by decide⟩
      · simp at hn4

/-- Characters of a rendered integer are never TPCL metacharacters. -/
theorem intChars_no_special {c : Char} {z : ℤ} (h : c ∈ intToChars z) :
    c ≠ '}' ∧ c ≠ '{' ∧ c ≠ ',' ∧ c ≠ ';' := by
  rcases mem_intToChars h with rfl | hd
  · refine ⟨by decide, by decide, by decide, by decide⟩
  · have := isDigit_ne_special hd
    exact ⟨this.1, this.2.1, this.2.2.1, this.2.2.2.1⟩

/-! ## Lemmas: command framing and association lists -/

theorem cleanOf_tpclCmd (body : JStr) : cleanOf (tpclCmd body) = body := by
  rw [tpclCmd, cleanOf]
  have hpre : hasPre (toChars "\x7b") ('{' :: body ++ toChars "|\x7d") = true := by
    simp [hasPre, toChars]
  rw [if_pos hpre]
  have hdrop : ('{' :: body ++ toChars "|\x7d").drop 1 = (body ++ ['|']) ++ ['}'] := by
    simp [toChars]
  rw [hdrop]
  rw [List.getLast?_concat]
  simp only []
  rw [List.dropLast_concat, List.getLast?_concat, List.dropLast_concat]
  rfl

theorem lineOk_tpclCmd {body : JStr} (hne : body ≠ []) (hnb : '}' ∉ body) :
    lineOk (tpclCmd body) := by
  refine ⟨body ++ ['|'], ?_, by simp, ?_⟩
  · rw [tpclCmd]
    simp [toChars]
  · intro hm
    rcases List.mem_append.mp hm with h | h
    · exact hnb h
    · simp at h

theorem assocFind_cons_self {α : Type} (k : JStr) (v : α) (t : List (JStr × α)) :
    assocFind k ((k, v) :: t) = some v := by
  rw [assocFind, if_pos rfl]

theorem assocFind_cons_ne {α : Type} {k k' : JStr} (v : α) (t : List (JStr × α))
    (h : k' ≠ k) : assocFind k ((k', v) :: t) = assocFind k t := by
  rw [assocFind, if_neg h]

theorem assocFind_append_right {α : Type} {k : JStr} {l₁ : List (JStr × α)}
    (l₂ : List (JStr × α)) (h : ∀ p ∈ l₁, p.1 ≠ k) :
    assocFind k (l₁ ++ l₂) = assocFind k l₂ := by
  induction l₁ with
  | nil => rfl
  | cons p t ih =>
    match p with
    | (k', v) =>
      rw [List.cons_append, assocFind_cons_ne v _ (h (k', v) (List.mem_cons_self _ _))]
      exact ih (fun p hp => h p (List.mem_cons_of_mem _ hp))

theorem assocFind_of_mem_pairwise {α : Type} {k : JStr} {v : α} {l : List (JStr × α)}
    (hp : l.Pairwise (fun a b => a.1 ≠ b.1)) (hm : (k, v) ∈ l) :
    assocFind k l = some v := by
  induction l with
  | nil => simp at hm
  | cons p t ih =>
    rcases List.mem_cons.mp hm with rfl | hm'
    · exact assocFind_cons_self k v t
    · have hne : p.1 ≠ k := by
        have := (List.pairwise_cons.mp hp).1 (k, v) hm'
        simpa using this
      match p with
      | (k', v') =>
        rw [assocFind_cons_ne v' t hne]
        exact ih (List.pairwise_cons.mp hp).2 hm'

/-! ## Lemmas: single-token parse steps -/

theorem tpclStep_headerC (g : ℕ → JStr) (st : PState) :
    tpclStep g st (tpclCmd (toChars "C")) = .ok st := rfl

theorem tpclStep_headerAX (g : ℕ → JStr) (st : PState) :
    tpclStep g st (tpclCmd (toChars "AX;+000,+000,+00")) = .ok st := rfl

theorem tpclStep_headerAY (g : ℕ → JStr) (st : PState) :
    tpclStep g st (tpclCmd (toChars "AY;+10,0")) = .ok st := rfl

theorem tpclStep_xs (g : ℕ → JStr) (st : PState) (ps : Option PrintSettings) :
    tpclStep g st (tpclXsLine ps) = .ok st := by
  match ps with
  | none => rfl
  | some s =>
    have hb : toChars "XS;I," ++ padStartCh (jsNumToChars s.quantity) 4 '0' ++ toChars ",0002C52200" =
        'X' :: 'S' :: ';' :: (toChars "I," ++ padStartCh (jsNumToChars s.quantity) 4 '0' ++
          toChars ",0002C52200") := rfl
    simp [tpclXsLine, tpclStep, cleanOf_tpclCmd, hb, splitCh, hasPre, toChars]

theorem padNum_no_comma (v : Option ℤ) (k : ℕ) : ',' ∉ padStartCh (jsNumToChars v) k '0' :=
  fun hm => (padNum_no_special hm).2.2.1 rfl

theorem padNum_no_semi (v : Option ℤ) (k : ℕ) : ';' ∉ padStartCh (jsNumToChars v) k '0' :=
  fun hm => (padNum_no_special hm).2.2.2 rfl

theorem padNum_no_brace (v : Option ℤ) (k : ℕ) : '}' ∉ padStartCh (jsNumToChars v) k '0' :=
  fun hm => (padNum_no_special hm).1 rfl

theorem intChars_no_comma (z : ℤ) : ',' ∉ intToChars z :=
  fun hm => (intChars_no_special hm).2.2.1 rfl

theorem intChars_no_semi (z : ℤ) : ';' ∉ intToChars z :=
  fun hm => (intChars_no_special hm).2.2.2 rfl

theorem intChars_no_brace (z : ℤ) : '}' ∉ intToChars z :=
  fun hm => (intChars_no_special hm).1 rfl

theorem padInt_no_semi (z : ℤ) (k : ℕ) : ';' ∉ padStartCh (intToChars z) k '0' := by
  intro hm
  rcases mem_padStartCh hm with h | h
  · exact absurd h (by decide)
  · exact intChars_no_semi _ h

theorem padInt_no_comma (z : ℤ) (k : ℕ) : ',' ∉ padStartCh (intToChars z) k '0' := by
  intro hm
  rcases mem_padStartCh hm with h | h
  · exact absurd h (by decide)
  · exact intChars_no_comma _ h

theorem padInt_no_brace (z : ℤ) (k : ℕ) : '}' ∉ padStartCh (intToChars z) k '0' := by
  intro hm
  rcases mem_padStartCh hm with h | h
  · exact absurd h (by decide)
  · exact intChars_no_brace _ h

theorem tpclStep_sizeLine (g : ℕ → JStr) (st : PState) {w h : ℚ} (t : LabelTemplate)
    (hW : t.width = some w) (hH : t.height = some h) (hw : 0 ≤ w) (hh : 0 ≤ h) :
    tpclStep g st (tpclSizeLine t) = .ok { st with
      height := some (Rat.divInt (jsRound (qmul h COORDS_PER_MM)) 10)
      width := some (Rat.divInt (jsRound (qmul w COORDS_PER_MM)) 10) } := by
  have hn : 0 ≤ jsRound (qmul h COORDS_PER_MM) := by
    refine jsRound_nonneg ?_
    rw [qmul_eq, COORDS_PER_MM]
    positivity
  have hm : 0 ≤ jsRound (qmul w COORDS_PER_MM) := by
    refine jsRound_nonneg ?_
    rw [qmul_eq, COORDS_PER_MM]
    positivity
  have hline : tpclSizeLine t = tpclCmd ('D' ::
      (padStartCh (intToChars (jsRound (qmul h COORDS_PER_MM))) 4 '0' ++
      ',' :: (padStartCh (intToChars (jsRound (qmul w COORDS_PER_MM))) 4 '0' ++
      ',' :: padStartCh (intToChars (jsRound (qmul (qsub h 3) COORDS_PER_MM))) 4 '0'))) := by
    simp [tpclSizeLine, hW, hH, mmTimes10Chars]
  have hsemi : ';' ∉ ('D' ::
      (padStartCh (intToChars (jsRound (qmul h COORDS_PER_MM))) 4 '0' ++
      ',' :: (padStartCh (intToChars (jsRound (qmul w COORDS_PER_MM))) 4 '0' ++
      ',' :: padStartCh (intToChars (jsRound (qmul (qsub h 3) COORDS_PER_MM))) 4 '0'))) := by
    intro hmem
    simp only [List.mem_cons, List.mem_append] at hmem
    rcases hmem with h1 | h1 | h1 | h1 | h1 | h1
    · exact absurd h1 (by decide)
    · exact padInt_no_semi _ _ h1
    · exact absurd h1 (by decide)
    · exact padInt_no_semi _ _ h1
    · exact absurd h1 (by decide)
    · exact padInt_no_semi _ _ h1
  rw [hline]
  simp only [tpclStep, cleanOf_tpclCmd]
  rw [splitCh_not_mem hsemi]
  rw [if_pos (show (hasPre (toChars "D") ('D' ::
      (padStartCh (intToChars (jsRound (qmul h COORDS_PER_MM))) 4 '0' ++
      ',' :: (padStartCh (intToChars (jsRound (qmul w COORDS_PER_MM))) 4 '0' ++
      ',' :: padStartCh (intToChars (jsRound (qmul (qsub h 3) COORDS_PER_MM))) 4 '0'))) &&
      decide (([('D' ::
      (padStartCh (intToChars (jsRound (qmul h COORDS_PER_MM))) 4 '0' ++
      ',' :: (padStartCh (intToChars (jsRound (qmul w COORDS_PER_MM))) 4 '0' ++
      ',' :: padStartCh (intToChars (jsRound (qmul (qsub h 3) COORDS_PER_MM))) 4 '0')))] : List JStr).length = 1)) = true
    from by simp [hasPre, toChars])]
  rw [show List.drop 1 ('D' ::
      (padStartCh (intToChars (jsRound (qmul h COORDS_PER_MM))) 4 '0' ++
      ',' :: (padStartCh (intToChars (jsRound (qmul w COORDS_PER_MM))) 4 '0' ++
      ',' :: padStartCh (intToChars (jsRound (qmul (qsub h 3) COORDS_PER_MM))) 4 '0'))) =
      (padStartCh (intToChars (jsRound (qmul h COORDS_PER_MM))) 4 '0' ++
      ',' :: (padStartCh (intToChars (jsRound (qmul w COORDS_PER_MM))) 4 '0' ++
      ',' :: padStartCh (intToChars (jsRound (qmul (qsub h 3) COORDS_PER_MM))) 4 '0')) from rfl]
  rw [splitCh_append _ (padInt_no_comma _ _), splitCh_append _ (padInt_no_comma _ _),
    splitCh_not_mem (padInt_no_comma _ _)]
  rw [if_pos (by simp)]
  simp only [List.getElem?_cons_zero, List.getElem?_cons_succ, jsParseIntOpt, Option.some_bind]
  rw [parseIntCh_padInt_nonneg hn, parseIntCh_padInt_nonneg hm]
  rfl

/-! ## Lemmas: derived field ids and table codes -/

theorem idHasTag_key (tag : String) (pad : ℕ) (i : ℕ) :
    idHasTag (toChars tag) (toChars tag ++ padStartCh (natToChars i) pad '0') = true := by
  rw [idHasTag, hasPre_self_append, Bool.true_and]
  rw [List.drop_left]
  show (!(padStartCh (natToChars i) pad '0').isEmpty &&
    (padStartCh (natToChars i) pad '0').all Char.isDigit) = true
  rw [Bool.and_eq_true]
  constructor
  · simpa [List.isEmpty_iff] using padStartCh_ne_nil (natToChars_ne_nil i) pad '0'
  · exact List.all_eq_true.mpr (padStartCh_all_digits (natToChars_all_digits i) pad)

theorem pcIdOf_untagged {id : JStr} (h : idHasTag (toChars "PC") id = false) (i : ℕ) :
    pcIdOf id i = pcKeyOf i := by
  rw [pcIdOf, if_neg (by simp [h]), pcKeyOf]

theorem xbIdOf_untagged {id : JStr} (h : idHasTag (toChars "XB") id = false) (i : ℕ) :
    xbIdOf id i = xbKeyOf i := by
  rw [xbIdOf, if_neg (by simp [h]), xbKeyOf]

theorem pcIdOf_key (i j : ℕ) : pcIdOf (pcKeyOf i) j = pcKeyOf i := by
  rw [pcIdOf, pcKeyOf, if_pos]
  exact idHasTag_key "PC" 3 i

theorem xbIdOf_key (i j : ℕ) : xbIdOf (xbKeyOf i) j = xbKeyOf i := by
  rw [xbIdOf, xbKeyOf, if_pos]
  exact idHasTag_key "XB" 2 i

theorem rcIdFrom_pcKey (i : ℕ) :
    rcIdFrom (pcKeyOf i) = toChars "RC" ++ padStartCh (natToChars i) 3 '0' := by
  rw [rcIdFrom, pcKeyOf, if_pos (hasPre_self_append _ _)]
  rfl

theorem rbIdFrom_xbKey (i : ℕ) :
    rbIdFrom (xbKeyOf i) = toChars "RB" ++ padStartCh (natToChars i) 2 '0' := by
  rw [rbIdFrom, xbKeyOf, if_pos (hasPre_self_append _ _)]
  rfl

theorem pcKeyOf_inj {i j : ℕ} (h : pcKeyOf i = pcKeyOf j) : i = j := by
  rw [pcKeyOf, pcKeyOf] at h
  exact padNat_inj (List.append_cancel_left h)

theorem xbKeyOf_inj {i j : ℕ} (h : xbKeyOf i = xbKeyOf j) : i = j := by
  rw [xbKeyOf, xbKeyOf] at h
  exact padNat_inj (List.append_cancel_left h)

theorem assocFind_mem {α : Type} {k : JStr} {v : α} {l : List (JStr × α)}
    (h : assocFind k l = some v) : v ∈ l.map Prod.snd := by
  induction l with
  | nil => simp [assocFind] at h
  | cons p t ih =>
    obtain ⟨k', v'⟩ := p
    by_cases hk : k' = k
    · subst hk
      rw [assocFind_cons_self] at h
      rw [List.map_cons]
      rw [Option.some.injEq] at h
      rw [h]
      exact List.mem_cons_self _ _
    · rw [assocFind_cons_ne _ _ hk] at h
      rw [List.map_cons]
      exact List.mem_cons_of_mem _ (ih h)

theorem getTpclFontId_shape (el : TextElement) :
    (',' ∉ getTpclFontId el ∧ ';' ∉ getTpclFontId el) ∧
      ('}' ∉ getTpclFontId el ∧ getTpclFontId el ≠ []) := by
  cases hf : TPCL_FONT_PRESETS.find? (fun p => p.2 = normalizeTypography el) with
  | none =>
    simp only [getTpclFontId, hf]
    refine ⟨⟨by decide, by decide⟩, by decide, by decide⟩
  | some p =>
    have hp : p ∈ TPCL_FONT_PRESETS := List.mem_of_find?_eq_some hf
    have hall : ∀ q ∈ TPCL_FONT_PRESETS, (',' ∉ q.1 ∧ ';' ∉ q.1) ∧ '}' ∉ q.1 ∧ q.1 ≠ [] := by
      decide
    simp only [getTpclFontId, hf]
    exact hall p hp

theorem barcodeTypeCode_shape (el : BarcodeElement) :
    (',' ∉ barcodeTypeCode el ∧ ';' ∉ barcodeTypeCode el) ∧
      ('}' ∉ barcodeTypeCode el ∧ barcodeTypeCode el ≠ []) := by
  rw [barcodeTypeCode]
  cases hf : assocFind el.barcodeType BARCODE_MAP with
  | none => refine ⟨⟨by decide, by decide⟩, by decide, by decide⟩
  | some v =>
    have hv : v ∈ BARCODE_MAP.map Prod.snd := assocFind_mem hf
    have hall : ∀ q ∈ BARCODE_MAP.map Prod.snd, (',' ∉ q ∧ ';' ∉ q) ∧ '}' ∉ q ∧ q ≠ [] := by
      decide
    simp only [Option.getD_some]
    exact hall v hv

theorem tpclStep_pcLine (g : ℕ → JStr) (st : PState) (i : ℕ) (el : TextElement)
    (hid : idHasTag (toChars "PC") el.id = false)
    {xv yv : ℤ} (hx : el.x = some xv) (hy : el.y = some yv) (hxnn : 0 ≤ xv) (hynn : 0 ≤ yv) :
    tpclStep g st (pcLineOf i el) =
      .ok { st with textDefs := (pcKeyOf i, parsedTextDef i el) :: st.textDefs } := by
  obtain ⟨⟨hfc, hfs⟩, hfb, hfne⟩ := getTpclFontId_shape el
  have hkey : pcIdOf el.id i = pcKeyOf i := pcIdOf_untagged hid i
  have hpck : pcKeyOf i = 'P' :: 'C' :: padStartCh (natToChars i) 3 '0' := rfl
  have hsemi2 : ';' ∉ (padStartCh (jsNumToChars el.x) 4 '0' ++
      ',' :: (padStartCh (jsNumToChars el.y) 4 '0' ++
      ',' :: (padStartCh (intToChars (normalizeMag el.height)) 2 '0' ++
      ',' :: (padStartCh (intToChars (normalizeMag el.width)) 2 '0' ++
      ',' :: (getTpclFontId el ++
      ',' :: (rotationChars el.rotation ++ toChars ",B")))))) := by
    intro hmem
    simp only [List.mem_cons, List.mem_append] at hmem
    rcases hmem with h1 | h1 | h1 | h1 | h1 | h1 | h1 | h1 | h1 | h1 | h1 | h1
    · exact padNum_no_semi _ _ h1
    · exact absurd h1 (by decide)
    · exact padNum_no_semi _ _ h1
    · exact absurd h1 (by decide)
    · exact padInt_no_semi _ _ h1
    · exact absurd h1 (by decide)
    · exact padInt_no_semi _ _ h1
    · exact absurd h1 (by decide)
    · exact hfs h1
    · exact absurd h1 (by decide)
    · exact padInt_no_semi _ _ h1
    · exact absurd h1 (by decide)
  have hsemik : ';' ∉ pcKeyOf i := by
    rw [hpck]
    intro hmem
    rcases List.mem_cons.mp hmem with h1 | hmem1
    · exact absurd h1 (by decide)
    rcases List.mem_cons.mp hmem1 with h1 | hmem2
    · exact absurd h1 (by decide)
    rcases mem_padStartCh hmem2 with h1 | h1
    · exact absurd h1 (by decide)
    · exact (isDigit_ne_special (natToChars_all_digits _ _ h1)).2.2.2.1 rfl
  rw [pcLineOf, hkey]
  simp only [tpclStep, cleanOf_tpclCmd]
  rw [splitCh_append _ hsemik, splitCh_not_mem hsemi2]
  have hD : hasPre (toChars "D") (pcKeyOf i ++ ';' :: (padStartCh (jsNumToChars el.x) 4 '0' ++
      ',' :: (padStartCh (jsNumToChars el.y) 4 '0' ++
      ',' :: (padStartCh (intToChars (normalizeMag el.height)) 2 '0' ++
      ',' :: (padStartCh (intToChars (normalizeMag el.width)) 2 '0' ++
      ',' :: (getTpclFontId el ++
      ',' :: (rotationChars el.rotation ++ toChars ",B"))))))) = false := by
    rw [hpck]
    rfl
  have hDl : toChars "D" = ['D'] := rfl
  have hLCl : toChars "LC" = ['L', 'C'] := rfl
  have hXRl : toChars "XR" = ['X', 'R'] := rfl
  rw [if_neg (by rw [hD]; simp)]
  rw [if_neg (by simp [hpck, hDl])]
  rw [if_neg (by simp [List.headD_cons, hpck, hLCl])]
  rw [if_neg (by simp [List.headD_cons, hpck, hXRl])]
  rw [if_pos (by rw [List.headD_cons, hpck]; simp [hasPre, toChars])]
  simp only [List.headD_cons, List.getElem?_cons_zero, List.getElem?_cons_succ]
  rw [splitCh_append _ (padNum_no_comma _ _)]
  rw [splitCh_append _ (padNum_no_comma _ _)]
  have hcb : toChars ",B" = ',' :: ['B'] := rfl
  rw [hcb]
  rw [splitCh_append _ (padInt_no_comma _ _)]
  rw [splitCh_append _ (padInt_no_comma _ _)]
  rw [splitCh_append _ hfc]
  rw [rotationChars, splitCh_append _ (padInt_no_comma _ _)]
  rw [splitCh_not_mem (by decide)]
  simp only [List.getElem?_cons_zero, List.getElem?_cons_succ]
  have ex : jsParseIntOpt (some (padStartCh (jsNumToChars el.x) 4 '0')) = el.x := by
    rw [hx]
    exact parseIntCh_padInt_nonneg hxnn 4
  have ey : jsParseIntOpt (some (padStartCh (jsNumToChars el.y) 4 '0')) = el.y := by
    rw [hy]
    exact parseIntCh_padInt_nonneg hynn 4
  have eh : jsParseIntOpt (some (padStartCh (intToChars (normalizeMag el.height)) 2 '0')) =
      some (normalizeMag el.height) := by
    exact parseIntCh_pad2Int _
  have ew : jsParseIntOpt (some (padStartCh (intToChars (normalizeMag el.width)) 2 '0')) =
      some (normalizeMag el.width) := by
    exact parseIntCh_pad2Int _
  have er : jsParseIntOpt (some (padStartCh (intToChars (jsOrZero el.rotation)) 2 '0')) =
      some (jsOrZero el.rotation) := by
    exact parseIntCh_pad2Int _
  rw [ex, ey, eh, ew, er, parsedTextDef]

theorem drop_after_key (a s : JStr) : (a ++ ';' :: s).drop (a.length + 1) = s := by
  have h : a ++ ';' :: s = (a ++ [';']) ++ s := by simp
  rw [h]
  apply List.drop_left'
  simp

theorem fontTable_self_lookup :
    ∀ p ∈ TPCL_FONT_PRESETS, assocFind p.1 TPCL_FONT_PRESETS = some p.2 := by decide

theorem fontTable_G_lookup : assocFind (toChars "G") TPCL_FONT_PRESETS = some tpclPresetG := by
  decide

theorem fontPresetIndex_getTpclFontId (el : TextElement) :
    fontPresetIndex (some (getTpclFontId el)) =
      some ((assocFind (getTpclFontId el) TPCL_FONT_PRESETS).getD tpclPresetG) := by
  cases hf : TPCL_FONT_PRESETS.find? (fun p => p.2 = normalizeTypography el) with
  | some pr =>
    have hid : getTpclFontId el = pr.1 := by
      rw [getTpclFontId, hf]
    have hlk : assocFind pr.1 TPCL_FONT_PRESETS = some pr.2 :=
      fontTable_self_lookup pr (List.mem_of_find?_eq_some hf)
    rw [hid]
    simp only [fontPresetIndex, hlk, Option.getD_some]
  | none =>
    have hid : getTpclFontId el = toChars "G" := by
      rw [getTpclFontId, hf]
    rw [hid]
    simp only [fontPresetIndex, fontTable_G_lookup, Option.getD_some]

theorem tpclStep_rcLine (g : ℕ → JStr) (st : PState) (i : ℕ) (el : TextElement)
    (hid : idHasTag (toChars "PC") el.id = false)
    (hfind : assocFind (pcKeyOf i) st.textDefs = some (parsedTextDef i el)) :
    tpclStep g st (rcLineOf i el) =
      .ok { st with elements := st.elements ++ [.text (parsedTextElem i el)] } := by
  have hrid : rcIdFrom (pcIdOf el.id i) = 'R' :: 'C' :: padStartCh (natToChars i) 3 '0' := by
    rw [pcIdOf_untagged hid, rcIdFrom_pcKey]
    rfl
  have hsemir : ';' ∉ ('R' :: 'C' :: padStartCh (natToChars i) 3 '0') := by
    intro hmem
    rcases List.mem_cons.mp hmem with h1 | hmem1
    · exact absurd h1 (by decide)
    rcases List.mem_cons.mp hmem1 with h1 | hmem2
    · exact absurd h1 (by decide)
    rcases mem_padStartCh hmem2 with h1 | h1
    · exact absurd h1 (by decide)
    · exact (isDigit_ne_special (natToChars_all_digits _ _ h1)).2.2.2.1 rfl
  rw [rcLineOf, hrid]
  simp only [tpclStep, cleanOf_tpclCmd]
  rw [splitCh_append _ hsemir]
  have hDl : toChars "D" = ['D'] := rfl
  have hLCl : toChars "LC" = ['L', 'C'] := rfl
  have hXRl : toChars "XR" = ['X', 'R'] := rfl
  have hPCl : toChars "PC" = ['P', 'C'] := rfl
  have hRCl : toChars "RC" = ['R', 'C'] := rfl
  rw [if_neg (by rw [show hasPre (toChars "D") (('R' :: 'C' :: padStartCh (natToChars i) 3 '0') ++
    ';' :: (el.content.getD [])) = false from rfl]; simp)]
  rw [if_neg (by simp [List.headD_cons, hDl])]
  rw [if_neg (by simp [List.headD_cons, hLCl])]
  rw [if_neg (by simp [List.headD_cons, hXRl])]
  rw [if_neg (by rw [List.headD_cons, show hasPre (toChars "PC")
    ('R' :: 'C' :: padStartCh (natToChars i) 3 '0') = false from rfl]; simp)]
  rw [if_pos (by rw [List.headD_cons, show hasPre (toChars "RC")
    ('R' :: 'C' :: padStartCh (natToChars i) 3 '0') = true from rfl])]
  rw [List.headD_cons]
  have hkeyeq : toChars "PC" ++ ('R' :: 'C' :: padStartCh (natToChars i) 3 '0').drop 2 =
      pcKeyOf i := rfl
  rw [hkeyeq, hfind]
  rw [drop_after_key]
  simp only [parsedTextDef, parsedTextElem]
  rw [fontPresetIndex_getTpclFontId]
  rfl

theorem tpclStep_xbLine (g : ℕ → JStr) (st : PState) (i : ℕ) (el : BarcodeElement)
    (hid : idHasTag (toChars "XB") el.id = false) :
    tpclStep g st (xbLineOf i el) =
      .ok { st with barcodeDefs := (xbKeyOf i, xbStoredParams el) :: st.barcodeDefs } := by
  obtain ⟨⟨hbc, hbs⟩, hbb, hbne⟩ := barcodeTypeCode_shape el
  have hkey : xbIdOf el.id i = xbKeyOf i := xbIdOf_untagged hid i
  have hxbk : xbKeyOf i = 'X' :: 'B' :: padStartCh (natToChars i) 2 '0' := rfl
  have hsemi2 : ';' ∉ (padStartCh (jsNumToChars el.x) 4 '0' ++
      ',' :: (padStartCh (jsNumToChars el.y) 4 '0' ++
      ',' :: (barcodeTypeCode el ++
      ',' :: ('3' :: ',' :: (padStartCh (jsNumToChars el.width) 2 '0' ++
      ',' :: (intToChars (max 0 (min 3 (jsOrZero el.rotation))) ++
      ',' :: (padStartCh (jsNumToChars el.height) 4 '0' ++
      toChars ",+0000000000,000,0,00"))))))) := by
    intro hmem
    simp only [List.mem_cons, List.mem_append] at hmem
    rcases hmem with h1 | h1 | h1 | h1 | h1 | h1 | h1 | h1 | h1 | h1 | h1 | h1 | h1 | h1
    · exact padNum_no_semi _ _ h1
    · exact absurd h1 (by decide)
    · exact padNum_no_semi _ _ h1
    · exact absurd h1 (by decide)
    · exact hbs h1
    · exact absurd h1 (by decide)
    · exact absurd h1 (by decide)
    · exact absurd h1 (by decide)
    · exact padNum_no_semi _ _ h1
    · exact absurd h1 (by decide)
    · exact intChars_no_semi _ h1
    · exact absurd h1 (by decide)
    · exact padNum_no_semi _ _ h1
    · exact absurd h1 (by decide)
  have hsemik : ';' ∉ xbKeyOf i := by
    rw [hxbk]
    intro hmem
    rcases List.mem_cons.mp hmem with h1 | hmem1
    · exact absurd h1 (by decide)
    rcases List.mem_cons.mp hmem1 with h1 | hmem2
    · exact absurd h1 (by decide)
    rcases mem_padStartCh hmem2 with h1 | h1
    · exact absurd h1 (by decide)
    · exact (isDigit_ne_special (natToChars_all_digits _ _ h1)).2.2.2.1 rfl
  rw [xbLineOf, hkey]
  simp only [tpclStep, cleanOf_tpclCmd]
  rw [splitCh_append _ hsemik, splitCh_not_mem hsemi2]
  have hDl : toChars "D" = ['D'] := rfl
  have hLCl : toChars "LC" = ['L', 'C'] := rfl
  have hXRl : toChars "XR" = ['X', 'R'] := rfl
  rw [if_neg (by rw [show hasPre (toChars "D") (xbKeyOf i ++
      ';' :: (padStartCh (jsNumToChars el.x) 4 '0' ++
      ',' :: (padStartCh (jsNumToChars el.y) 4 '0' ++
      ',' :: (barcodeTypeCode el ++
      ',' :: ('3' :: ',' :: (padStartCh (jsNumToChars el.width) 2 '0' ++
      ',' :: (intToChars (max 0 (min 3 (jsOrZero el.rotation))) ++
      ',' :: (padStartCh (jsNumToChars el.height) 4 '0' ++
      toChars ",+0000000000,000,0,00")))))))) = false from by rw [hxbk]; rfl]; simp)]
  rw [if_neg (by simp [List.headD_cons, hxbk, hDl])]
  rw [if_neg (by simp [List.headD_cons, hxbk, hLCl])]
  rw [if_neg (by simp [List.headD_cons, hxbk, hXRl])]
  rw [if_neg (by rw [List.headD_cons, show hasPre (toChars "PC") (xbKeyOf i) = false from by
    rw [hxbk]; rfl]; simp)]
  rw [if_neg (by rw [List.headD_cons, show hasPre (toChars "RC") (xbKeyOf i) = false from by
    rw [hxbk]; rfl]; simp)]
  rw [if_pos (by rw [List.headD_cons, show hasPre (toChars "XB") (xbKeyOf i) = true from by
    rw [hxbk]; rfl])]
  simp only [List.headD_cons, List.getElem?_cons_zero, List.getElem?_cons_succ]
  have hconst : toChars ",+0000000000,000,0,00" =
      ',' :: (toChars "+0000000000" ++ ',' :: (toChars "000" ++
        ',' :: (toChars "0" ++ ',' :: toChars "00"))) := rfl
  rw [hconst]
  have h3 : ('3' :: ',' :: (padStartCh (jsNumToChars el.width) 2 '0' ++
      ',' :: (intToChars (max 0 (min 3 (jsOrZero el.rotation))) ++
      ',' :: (padStartCh (jsNumToChars el.height) 4 '0' ++
      ',' :: (toChars "+0000000000" ++ ',' :: (toChars "000" ++
        ',' :: (toChars "0" ++ ',' :: toChars "00"))))))) =
      ['3'] ++ ',' :: (padStartCh (jsNumToChars el.width) 2 '0' ++
      ',' :: (intToChars (max 0 (min 3 (jsOrZero el.rotation))) ++
      ',' :: (padStartCh (jsNumToChars el.height) 4 '0' ++
      ',' :: (toChars "+0000000000" ++ ',' :: (toChars "000" ++
        ',' :: (toChars "0" ++ ',' :: toChars "00")))))) := rfl
  rw [splitCh_append _ (padNum_no_comma _ _)]
  rw [splitCh_append _ (padNum_no_comma _ _)]
  rw [splitCh_append _ hbc]
  rw [h3, splitCh_append _ (by decide)]
  rw [splitCh_append _ (padNum_no_comma _ _)]
  rw [splitCh_append _ (intChars_no_comma _)]
  rw [splitCh_append _ (padNum_no_comma _ _)]
  rw [splitCh_append _ (by decide)]
  rw [splitCh_append _ (by decide)]
  rw [splitCh_append _ (by decide)]
  rw [splitCh_not_mem (by decide)]
  rfl

theorem parseIntCh_pad2Num (v : Option ℤ) :
    parseIntCh (padStartCh (jsNumToChars v) 2 '0') = v := by
  match v with
  | none => decide
  | some z => exact parseIntCh_pad2Int z

theorem tpclStep_rbLine (g : ℕ → JStr) (st : PState) (i : ℕ) (el : BarcodeElement)
    (hid : idHasTag (toChars "XB") el.id = false)
    {xv yv hv : ℤ} (hx : el.x = some xv) (hy : el.y = some yv) (hh : el.height = some hv)
    (hxnn : 0 ≤ xv) (hynn : 0 ≤ yv) (hhnn : 0 ≤ hv)
    (hfind : assocFind (xbKeyOf i) st.barcodeDefs = some (xbStoredParams el)) :
    tpclStep g st (rbLineOf i el) =
      .ok { st with elements := st.elements ++ [.barcode (parsedBarcodeElem i el)] } := by
  have hrid : rbIdFrom (xbIdOf el.id i) = 'R' :: 'B' :: padStartCh (natToChars i) 2 '0' := by
    rw [xbIdOf_untagged hid, rbIdFrom_xbKey]
    rfl
  have hsemir : ';' ∉ ('R' :: 'B' :: padStartCh (natToChars i) 2 '0') := by
    intro hmem
    rcases List.mem_cons.mp hmem with h1 | hmem1
    · exact absurd h1 (by decide)
    rcases List.mem_cons.mp hmem1 with h1 | hmem2
    · exact absurd h1 (by decide)
    rcases mem_padStartCh hmem2 with h1 | h1
    · exact absurd h1 (by decide)
    · exact (isDigit_ne_special (natToChars_all_digits _ _ h1)).2.2.2.1 rfl
  rw [rbLineOf, hrid]
  simp only [tpclStep, cleanOf_tpclCmd]
  rw [splitCh_append _ hsemir]
  have hDl : toChars "D" = ['D'] := rfl
  have hLCl : toChars "LC" = ['L', 'C'] := rfl
  have hXRl : toChars "XR" = ['X', 'R'] := rfl
  rw [if_neg (by rw [show hasPre (toChars "D") (('R' :: 'B' :: padStartCh (natToChars i) 2 '0') ++
    ';' :: (el.content.getD [])) = false from rfl]; simp)]
  rw [if_neg (by simp [List.headD_cons, hDl])]
  rw [if_neg (by simp [List.headD_cons, hLCl])]
  rw [if_neg (by simp [List.headD_cons, hXRl])]
  rw [if_neg (by rw [List.headD_cons, show hasPre (toChars "PC")
    ('R' :: 'B' :: padStartCh (natToChars i) 2 '0') = false from rfl]; simp)]
  rw [if_neg (by rw [List.headD_cons, show hasPre (toChars "RC")
    ('R' :: 'B' :: padStartCh (natToChars i) 2 '0') = false from rfl]; simp)]
  rw [if_neg (by rw [List.headD_cons, show hasPre (toChars "XB")
    ('R' :: 'B' :: padStartCh (natToChars i) 2 '0') = false from rfl]; simp)]
  rw [if_pos (by rw [List.headD_cons, show hasPre (toChars "RB")
    ('R' :: 'B' :: padStartCh (natToChars i) 2 '0') = true from rfl])]
  rw [List.headD_cons]
  have hkeyeq : toChars "XB" ++ ('R' :: 'B' :: padStartCh (natToChars i) 2 '0').drop 2 =
      xbKeyOf i := rfl
  rw [hkeyeq]
  simp only [hfind]
  rw [drop_after_key]
  rw [if_neg (by simp [xbStoredParams])]
  have ex : jsParseIntOpt (xbStoredParams el)[0]? = el.x := by
    show jsParseIntOpt (some (padStartCh (jsNumToChars el.x) 4 '0')) = el.x
    rw [hx]
    exact parseIntCh_padInt_nonneg hxnn 4
  have ey : jsParseIntOpt (xbStoredParams el)[1]? = el.y := by
    show jsParseIntOpt (some (padStartCh (jsNumToChars el.y) 4 '0')) = el.y
    rw [hy]
    exact parseIntCh_padInt_nonneg hynn 4
  have ew : jsParseIntOpt (xbStoredParams el)[4]? = el.width := by
    show jsParseIntOpt (some (padStartCh (jsNumToChars el.width) 2 '0')) = el.width
    exact parseIntCh_pad2Num el.width
  have er : jsParseIntOpt (xbStoredParams el)[5]? =
      some (max 0 (min 3 (jsOrZero el.rotation))) := by
    show jsParseIntOpt (some (intToChars (max 0 (min 3 (jsOrZero el.rotation))))) = _
    exact parseIntCh_intToChars _
  have eh : jsParseIntOpt (xbStoredParams el)[6]? = el.height := by
    show jsParseIntOpt (some (padStartCh (jsNumToChars el.height) 4 '0')) = el.height
    rw [hh]
    exact parseIntCh_padInt_nonneg hhnn 4
  have ebt : ((xbStoredParams el)[2]?.bind
      (fun p => assocFind p REVERSE_BARCODE_MAP)).getD (toChars "code128") =
      ((assocFind ((assocFind el.barcodeType BARCODE_MAP).getD (toChars "9"))
        REVERSE_BARCODE_MAP).getD (toChars "code128")) := by
    show ((some (barcodeTypeCode el)).bind
      (fun p => assocFind p REVERSE_BARCODE_MAP)).getD (toChars "code128") = _
    rw [Option.some_bind, barcodeTypeCode]
  rw [ex, ey, ew, er, eh, ebt, parsedBarcodeElem]

theorem tpclStep_qrXbLine (g : ℕ → JStr) (st : PState) (i : ℕ) (el : QRCodeElement)
    (hid : idHasTag (toChars "XB") el.id = false)
    (hecs : ';' ∉ jsOrStr el.errorCorrection (toChars "H"))
    (hecc : ',' ∉ jsOrStr el.errorCorrection (toChars "H")) :
    tpclStep g st (qrXbLineOf i el) =
      .ok { st with barcodeDefs := (xbKeyOf i, qrStoredParams el) :: st.barcodeDefs } := by
  have hkey : xbIdOf el.id i = xbKeyOf i := xbIdOf_untagged hid i
  have hxbk : xbKeyOf i = 'X' :: 'B' :: padStartCh (natToChars i) 2 '0' := rfl
  have hsemi2 : ';' ∉ (padStartCh (jsNumToChars el.x) 4 '0' ++
      ',' :: (padStartCh (jsNumToChars el.y) 4 '0' ++
      ',' :: ('T' :: ',' :: (jsOrStr el.errorCorrection (toChars "H") ++
      ',' :: (padStartCh (jsNumToChars (el.size.map (fun s => max 1 (min 20 s)))) 2 '0' ++
      ',' :: ('A' :: ',' :: intToChars (max 0 (min 3 (jsOrZero el.rotation))))))))) := by
    intro hmem
    simp only [List.mem_cons, List.mem_append] at hmem
    rcases hmem with h1 | h1 | h1 | h1 | h1 | h1 | h1 | h1 | h1 | h1 | h1 | h1 | h1
    · exact padNum_no_semi _ _ h1
    · exact absurd h1 (by decide)
    · exact padNum_no_semi _ _ h1
    · exact absurd h1 (by decide)
    · exact absurd h1 (by decide)
    · exact absurd h1 (by decide)
    · exact hecs h1
    · exact absurd h1 (by decide)
    · exact padNum_no_semi _ _ h1
    · exact absurd h1 (by decide)
    · exact absurd h1 (by decide)
    · exact absurd h1 (by decide)
    · exact intChars_no_semi _ h1
  have hsemik : ';' ∉ xbKeyOf i := by
    rw [hxbk]
    intro hmem
    rcases List.mem_cons.mp hmem with h1 | hmem1
    · exact absurd h1 (by decide)
    rcases List.mem_cons.mp hmem1 with h1 | hmem2
    · exact absurd h1 (by decide)
    rcases mem_padStartCh hmem2 with h1 | h1
    · exact absurd h1 (by decide)
    · exact (isDigit_ne_special (natToChars_all_digits _ _ h1)).2.2.2.1 rfl
  rw [qrXbLineOf, hkey]
  simp only [tpclStep, cleanOf_tpclCmd]
  rw [splitCh_append _ hsemik, splitCh_not_mem hsemi2]
  have hDl : toChars "D" = ['D'] := rfl
  have hLCl : toChars "LC" = ['L', 'C'] := rfl
  have hXRl : toChars "XR" = ['X', 'R'] := rfl
  rw [if_neg (by rw [show hasPre (toChars "D") (xbKeyOf i ++
      ';' :: (padStartCh (jsNumToChars el.x) 4 '0' ++
      ',' :: (padStartCh (jsNumToChars el.y) 4 '0' ++
      ',' :: ('T' :: ',' :: (jsOrStr el.errorCorrection (toChars "H") ++
      ',' :: (padStartCh (jsNumToChars (el.size.map (fun s => max 1 (min 20 s)))) 2 '0' ++
      ',' :: ('A' :: ',' :: intToChars (max 0 (min 3 (jsOrZero el.rotation)))))))))) = false
      from by rw [hxbk]; rfl]; simp)]
  rw [if_neg (by simp [List.headD_cons, hxbk, hDl])]
  rw [if_neg (by simp [List.headD_cons, hxbk, hLCl])]
  rw [if_neg (by simp [List.headD_cons, hxbk, hXRl])]
  rw [if_neg (by rw [List.headD_cons, show hasPre (toChars "PC") (xbKeyOf i) = false from by
    rw [hxbk]; rfl]; simp)]
  rw [if_neg (by rw [List.headD_cons, show hasPre (toChars "RC") (xbKeyOf i) = false from by
    rw [hxbk]; rfl]; simp)]
  rw [if_pos (by rw [List.headD_cons, show hasPre (toChars "XB") (xbKeyOf i) = true from by
    rw [hxbk]; rfl])]
  simp only [List.headD_cons, List.getElem?_cons_zero, List.getElem?_cons_succ]
  have hT : ('T' :: ',' :: (jsOrStr el.errorCorrection (toChars "H") ++
      ',' :: (padStartCh (jsNumToChars (el.size.map (fun s => max 1 (min 20 s)))) 2 '0' ++
      ',' :: ('A' :: ',' :: intToChars (max 0 (min 3 (jsOrZero el.rotation))))))) =
      ['T'] ++ ',' :: (jsOrStr el.errorCorrection (toChars "H") ++
      ',' :: (padStartCh (jsNumToChars (el.size.map (fun s => max 1 (min 20 s)))) 2 '0' ++
      ',' :: ('A' :: ',' :: intToChars (max 0 (min 3 (jsOrZero el.rotation)))))) := rfl
  have hA : ('A' :: ',' :: intToChars (max 0 (min 3 (jsOrZero el.rotation)))) =
      ['A'] ++ ',' :: intToChars (max 0 (min 3 (jsOrZero el.rotation))) := rfl
  rw [splitCh_append _ (padNum_no_comma _ _)]
  rw [splitCh_append _ (padNum_no_comma _ _)]
  rw [hT, splitCh_append _ (by decide)]
  rw [splitCh_append _ hecc]
  rw [splitCh_append _ (padNum_no_comma _ _)]
  rw [hA, splitCh_append _ (by decide)]
  rw [splitCh_not_mem (intChars_no_comma _)]
  rfl

theorem tpclStep_qrRbLine (g : ℕ → JStr) (st : PState) (i : ℕ) (el : QRCodeElement)
    (hid : idHasTag (toChars "XB") el.id = false)
    {xv yv : ℤ} (hx : el.x = some xv) (hy : el.y = some yv)
    (hxnn : 0 ≤ xv) (hynn : 0 ≤ yv)
    (hfind : assocFind (xbKeyOf i) st.barcodeDefs = some (qrStoredParams el)) :
    tpclStep g st (qrRbLineOf i el) =
      .ok { st with elements := st.elements ++ [.qrcode (parsedQrElem i el)] } := by
  have hrid : rbIdFrom (xbIdOf el.id i) = 'R' :: 'B' :: padStartCh (natToChars i) 2 '0' := by
    rw [xbIdOf_untagged hid, rbIdFrom_xbKey]
    rfl
  have hsemir : ';' ∉ ('R' :: 'B' :: padStartCh (natToChars i) 2 '0') := by
    intro hmem
    rcases List.mem_cons.mp hmem with h1 | hmem1
    · exact absurd h1 (by decide)
    rcases List.mem_cons.mp hmem1 with h1 | hmem2
    · exact absurd h1 (by decide)
    rcases mem_padStartCh hmem2 with h1 | h1
    · exact absurd h1 (by decide)
    · exact (isDigit_ne_special (natToChars_all_digits _ _ h1)).2.2.2.1 rfl
  rw [qrRbLineOf, hrid]
  simp only [tpclStep, cleanOf_tpclCmd]
  rw [splitCh_append _ hsemir]
  have hDl : toChars "D" = ['D'] := rfl
  have hLCl : toChars "LC" = ['L', 'C'] := rfl
  have hXRl : toChars "XR" = ['X', 'R'] := rfl
  rw [if_neg (by rw [show hasPre (toChars "D") (('R' :: 'B' :: padStartCh (natToChars i) 2 '0') ++
    ';' :: (el.content.getD [])) = false from rfl]; simp)]
  rw [if_neg (by simp [List.headD_cons, hDl])]
  rw [if_neg (by simp [List.headD_cons, hLCl])]
  rw [if_neg (by simp [List.headD_cons, hXRl])]
  rw [if_neg (by rw [List.headD_cons, show hasPre (toChars "PC")
    ('R' :: 'B' :: padStartCh (natToChars i) 2 '0') = false from rfl]; simp)]
  rw [if_neg (by rw [List.headD_cons, show hasPre (toChars "RC")
    ('R' :: 'B' :: padStartCh (natToChars i) 2 '0') = false from rfl]; simp)]
  rw [if_neg (by rw [List.headD_cons, show hasPre (toChars "XB")
    ('R' :: 'B' :: padStartCh (natToChars i) 2 '0') = false from rfl]; simp)]
  rw [if_pos (by rw [List.headD_cons, show hasPre (toChars "RB")
    ('R' :: 'B' :: padStartCh (natToChars i) 2 '0') = true from rfl])]
  rw [List.headD_cons]
  have hkeyeq : toChars "XB" ++ ('R' :: 'B' :: padStartCh (natToChars i) 2 '0').drop 2 =
      xbKeyOf i := rfl
  rw [hkeyeq]
  simp only [hfind]
  rw [drop_after_key]
  rw [if_pos (by rfl)]
  have ex : jsParseIntOpt (qrStoredParams el)[0]? = el.x := by
    show jsParseIntOpt (some (padStartCh (jsNumToChars el.x) 4 '0')) = el.x
    rw [hx]
    exact parseIntCh_padInt_nonneg hxnn 4
  have ey : jsParseIntOpt (qrStoredParams el)[1]? = el.y := by
    show jsParseIntOpt (some (padStartCh (jsNumToChars el.y) 4 '0')) = el.y
    rw [hy]
    exact parseIntCh_padInt_nonneg hynn 4
  have er : jsParseIntOpt (qrStoredParams el)[6]? =
      some (max 0 (min 3 (jsOrZero el.rotation))) := by
    show jsParseIntOpt (some (intToChars (max 0 (min 3 (jsOrZero el.rotation))))) = _
    exact parseIntCh_intToChars _
  have es : jsParseIntOpt (qrStoredParams el)[4]? = el.size.map (fun s => max 1 (min 20 s)) := by
    show jsParseIntOpt (some (padStartCh
      (jsNumToChars (el.size.map (fun s => max 1 (min 20 s)))) 2 '0')) = _
    exact parseIntCh_pad2Num _
  have eec : (qrStoredParams el)[3]? = some (jsOrStr el.errorCorrection (toChars "H")) := rfl
  rw [ex, ey, er, es, eec, parsedQrElem]

theorem jsNum_no_semi (v : Option ℤ) : ';' ∉ jsNumToChars v := by
  intro hm
  rcases mem_jsNumToChars hm with h | h | h
  · exact absurd h (by decide)
  · exact (isDigit_ne_special h).2.2.2.1 rfl
  · exact absurd h (by decide)

theorem jsNum_no_comma (v : Option ℤ) : ',' ∉ jsNumToChars v := by
  intro hm
  rcases mem_jsNumToChars hm with h | h | h
  · exact absurd h (by decide)
  · exact (isDigit_ne_special h).2.2.1 rfl
  · exact absurd h (by decide)

theorem tpclStep_lcLine (g : ℕ → JStr) (st : PState) (el : LineElement)
    {xv yv x2v y2v : ℤ} (hx : el.x = some xv) (hy : el.y = some yv)
    (hx2 : el.x2 = some x2v) (hy2 : el.y2 = some y2v)
    (hxnn : 0 ≤ xv) (hynn : 0 ≤ yv) (hx2nn : 0 ≤ x2v) (hy2nn : 0 ≤ y2v) :
    tpclStep g st (lcLineOf el) =
      .ok { st with elements := st.elements ++ [.line (parsedLineElem (g st.ctr) el)]
                    ctr := st.ctr + 1 } := by
  have hsemi2 : ';' ∉ (padStartCh (jsNumToChars el.x) 4 '0' ++
      ',' :: (padStartCh (jsNumToChars el.y) 4 '0' ++
      ',' :: (padStartCh (jsNumToChars el.x2) 4 '0' ++
      ',' :: (padStartCh (jsNumToChars el.y2) 4 '0' ++
      ',' :: ('0' :: ',' :: jsNumToChars el.thickness))))) := by
    intro hmem
    simp only [List.mem_cons, List.mem_append] at hmem
    rcases hmem with h1 | h1 | h1 | h1 | h1 | h1 | h1 | h1 | h1 | h1 | h1
    · exact padNum_no_semi _ _ h1
    · exact absurd h1 (by decide)
    · exact padNum_no_semi _ _ h1
    · exact absurd h1 (by decide)
    · exact padNum_no_semi _ _ h1
    · exact absurd h1 (by decide)
    · exact padNum_no_semi _ _ h1
    · exact absurd h1 (by decide)
    · exact absurd h1 (by decide)
    · exact absurd h1 (by decide)
    · exact jsNum_no_semi _ h1
  rw [lcLineOf]
  simp only [tpclStep, cleanOf_tpclCmd]
  rw [show ('L' :: 'C' :: ';' :: (padStartCh (jsNumToChars el.x) 4 '0' ++
      ',' :: (padStartCh (jsNumToChars el.y) 4 '0' ++
      ',' :: (padStartCh (jsNumToChars el.x2) 4 '0' ++
      ',' :: (padStartCh (jsNumToChars el.y2) 4 '0' ++
      ',' :: ('0' :: ',' :: jsNumToChars el.thickness)))))) =
    ['L', 'C'] ++ ';' :: (padStartCh (jsNumToChars el.x) 4 '0' ++
      ',' :: (padStartCh (jsNumToChars el.y) 4 '0' ++
      ',' :: (padStartCh (jsNumToChars el.x2) 4 '0' ++
      ',' :: (padStartCh (jsNumToChars el.y2) 4 '0' ++
      ',' :: ('0' :: ',' :: jsNumToChars el.thickness))))) from rfl]
  rw [splitCh_append _ (by decide), splitCh_not_mem hsemi2]
  rw [if_neg (by simp [hasPre])]
  rw [if_neg (by simp [List.headD_cons]; decide)]
  rw [if_pos (by rw [List.headD_cons]; rfl)]
  simp only [List.headD_cons, List.getElem?_cons_zero, List.getElem?_cons_succ]
  have h0 : ('0' :: ',' :: jsNumToChars el.thickness) =
      ['0'] ++ ',' :: jsNumToChars el.thickness := rfl
  rw [splitCh_append _ (padNum_no_comma _ _)]
  rw [splitCh_append _ (padNum_no_comma _ _)]
  rw [splitCh_append _ (padNum_no_comma _ _)]
  rw [splitCh_append _ (padNum_no_comma _ _)]
  rw [h0, splitCh_append _ (by decide)]
  rw [splitCh_not_mem (jsNum_no_comma _)]
  simp only [List.getElem?_cons_zero, List.getElem?_cons_succ]
  rw [if_pos (by rfl)]
  have ex : jsParseIntOpt (some (padStartCh (jsNumToChars el.x) 4 '0')) = el.x := by
    rw [hx]
    exact parseIntCh_padInt_nonneg hxnn 4
  have ey : jsParseIntOpt (some (padStartCh (jsNumToChars el.y) 4 '0')) = el.y := by
    rw [hy]
    exact parseIntCh_padInt_nonneg hynn 4
  have ex2 : jsParseIntOpt (some (padStartCh (jsNumToChars el.x2) 4 '0')) = el.x2 := by
    rw [hx2]
    exact parseIntCh_padInt_nonneg hx2nn 4
  have ey2 : jsParseIntOpt (some (padStartCh (jsNumToChars el.y2) 4 '0')) = el.y2 := by
    rw [hy2]
    exact parseIntCh_padInt_nonneg hy2nn 4
  have et : jsParseIntOpt (some (jsNumToChars el.thickness)) = el.thickness := by
    show ((some (jsNumToChars el.thickness)).bind parseIntCh) = el.thickness
    rw [Option.some_bind, parseIntCh_jsNum]
  rw [ex, ey, ex2, ey2, et, parsedLineElem]

theorem tpclStep_xrLine (g : ℕ → JStr) (st : PState) (el : RectangleElement)
    {xv yv wv hv : ℤ} (hx : el.x = some xv) (hy : el.y = some yv)
    (hw : el.width = some wv) (hh : el.height = some hv)
    (hxnn : 0 ≤ xv) (hynn : 0 ≤ yv) (hxw : 0 ≤ xv + wv) (hyh : 0 ≤ yv + hv) :
    tpclStep g st (xrLineOf el) =
      .ok { st with elements := st.elements ++ [.rectangle (parsedRectElem (g st.ctr) el)]
                    ctr := st.ctr + 1 } := by
  have hsemi2 : ';' ∉ (padStartCh (jsNumToChars el.x) 4 '0' ++
      ',' :: (padStartCh (jsNumToChars el.y) 4 '0' ++
      ',' :: (padStartCh (jsNumToChars (el.x.bind (fun a => el.width.map (fun b => a + b)))) 4 '0' ++
      ',' :: (padStartCh (jsNumToChars (el.y.bind (fun a => el.height.map (fun b => a + b)))) 4 '0' ++
      toChars ",B")))) := by
    intro hmem
    simp only [List.mem_cons, List.mem_append] at hmem
    rcases hmem with h1 | h1 | h1 | h1 | h1 | h1 | h1 | h1
    · exact padNum_no_semi _ _ h1
    · exact absurd h1 (by decide)
    · exact padNum_no_semi _ _ h1
    · exact absurd h1 (by decide)
    · exact padNum_no_semi _ _ h1
    · exact absurd h1 (by decide)
    · exact padNum_no_semi _ _ h1
    · exact absurd h1 (by decide)
  rw [xrLineOf]
  simp only [tpclStep, cleanOf_tpclCmd]
  rw [show ('X' :: 'R' :: ';' :: (padStartCh (jsNumToChars el.x) 4 '0' ++
      ',' :: (padStartCh (jsNumToChars el.y) 4 '0' ++
      ',' :: (padStartCh (jsNumToChars (el.x.bind (fun a => el.width.map (fun b => a + b)))) 4 '0' ++
      ',' :: (padStartCh (jsNumToChars (el.y.bind (fun a => el.height.map (fun b => a + b)))) 4 '0' ++
      toChars ",B"))))) =
    ['X', 'R'] ++ ';' :: (padStartCh (jsNumToChars el.x) 4 '0' ++
      ',' :: (padStartCh (jsNumToChars el.y) 4 '0' ++
      ',' :: (padStartCh (jsNumToChars (el.x.bind (fun a => el.width.map (fun b => a + b)))) 4 '0' ++
      ',' :: (padStartCh (jsNumToChars (el.y.bind (fun a => el.height.map (fun b => a + b)))) 4 '0' ++
      toChars ",B")))) from rfl]
  rw [splitCh_append _ (by decide), splitCh_not_mem hsemi2]
  rw [if_neg (by simp [hasPre])]
  rw [if_neg (by simp [List.headD_cons]; decide)]
  rw [if_neg (by simp [List.headD_cons]; decide)]
  rw [if_pos (by rw [List.headD_cons]; rfl)]
  simp only [List.headD_cons, List.getElem?_cons_zero, List.getElem?_cons_succ]
  have hcb : toChars ",B" = ',' :: ['B'] := rfl
  rw [hcb]
  rw [splitCh_append _ (padNum_no_comma _ _)]
  rw [splitCh_append _ (padNum_no_comma _ _)]
  rw [splitCh_append _ (padNum_no_comma _ _)]
  rw [splitCh_append _ (padNum_no_comma _ _)]
  rw [splitCh_not_mem (by decide)]
  simp only [List.getElem?_cons_zero, List.getElem?_cons_succ]
  rw [if_pos (by rfl)]
  have ex : jsParseIntOpt (some (padStartCh (jsNumToChars el.x) 4 '0')) = some xv := by
    rw [hx]
    exact parseIntCh_padInt_nonneg hxnn 4
  have ey : jsParseIntOpt (some (padStartCh (jsNumToChars el.y) 4 '0')) = some yv := by
    rw [hy]
    exact parseIntCh_padInt_nonneg hynn 4
  have ex2 : jsParseIntOpt (some (padStartCh
      (jsNumToChars (el.x.bind (fun a => el.width.map (fun b => a + b)))) 4 '0')) =
      some (xv + wv) := by
    rw [hx, hw]
    show jsParseIntOpt (some (padStartCh (jsNumToChars (some (xv + wv))) 4 '0')) = _
    exact parseIntCh_padInt_nonneg hxw 4
  have ey2 : jsParseIntOpt (some (padStartCh
      (jsNumToChars (el.y.bind (fun a => el.height.map (fun b => a + b)))) 4 '0')) =
      some (yv + hv) := by
    rw [hy, hh]
    show jsParseIntOpt (some (padStartCh (jsNumToChars (some (yv + hv))) 4 '0')) = _
    exact parseIntCh_padInt_nonneg hyh 4
  rw [ex, ey, ex2, ey2, parsedRectElem]
  have ewd : jintSub (some (xv + wv)) (some xv) = el.width := by
    rw [hw]
    show some (xv + wv - xv) = some wv
    congr 1
    omega
  have ehd : jintSub (some (yv + hv)) (some yv) = el.height := by
    rw [hh]
    show some (yv + hv - yv) = some hv
    congr 1
    omega
  rw [ewd, ehd, hx, hy]

theorem den_one_intToQ {q : ℚ} (h : q.den = 1) : q = intToQ q.num := by
  rw [intToQ]
  conv_lhs => rw [show q = Rat.divInt q.num q.den from (Rat.num_divInt_den q).symm]
  rw [h]
  norm_num

theorem normalizeMag_intToQ_range (z : ℤ) :
    10 ≤ normalizeMag (some (intToQ z)) ∧ normalizeMag (some (intToQ z)) ≤ 99 := by
  rw [normalizeMag]
  by_cases hz : z ≤ 0
  · rw [if_pos (by rw [intToQ_eq]; exact_mod_cast hz)]
    omega
  · rw [if_neg (by rw [intToQ_eq]; exact_mod_cast hz)]
    by_cases hz10 : z < 10
    · rw [if_pos (by rw [intToQ_eq]; exact_mod_cast hz10)]
      have hq : qmul (intToQ z) 10 = ((10 * z : ℤ) : ℚ) := by
        rw [qmul_eq, intToQ_eq]
        push_cast
        ring
      rw [hq, jsRound_intCast]
      constructor
      · show (10 : ℤ) ≤ max 0 (min 99 (10 * z))
        omega
      · show max 0 (min 99 (10 * z)) ≤ 99
        omega
    · rw [if_neg (by rw [intToQ_eq]; exact_mod_cast hz10)]
      rw [jsRound_intToQ]
      constructor
      · show (10 : ℤ) ≤ max 0 (min 99 z)
        omega
      · show max 0 (min 99 z) ≤ 99
        omega

theorem normalizeMag_none_range :
    10 ≤ normalizeMag none ∧ normalizeMag none ≤ 99 := by
  constructor <;> decide

theorem normalizeMag_fix {n : ℤ} (h1 : 10 ≤ n) (h2 : n ≤ 99) :
    normalizeMag (some (intToQ n)) = n := by
  rw [normalizeMag]
  rw [if_neg (by rw [intToQ_eq]; exact_mod_cast (show ¬ (n ≤ 0) from by omega))]
  rw [if_neg (by rw [intToQ_eq]; exact_mod_cast (show ¬ (n < 10) from by omega))]
  rw [jsRound_intToQ]
  show max 0 (min 99 n) = n
  omega

theorem normalizeMag_regen_of_den_one {v : Option ℚ}
    (h : match v with | none => True | some q => q.den = 1) :
    normalizeMag (some (intToQ (normalizeMag v))) = normalizeMag v := by
  match v with
  | none => exact normalizeMag_fix normalizeMag_none_range.1 normalizeMag_none_range.2
  | some q =>
    have hq : q = intToQ q.num := den_one_intToQ h
    rw [hq]
    exact normalizeMag_fix (normalizeMag_intToQ_range q.num).1 (normalizeMag_intToQ_range q.num).2

theorem assocFind_append_left {α : Type} {k : JStr} {v : α} {l₁ : List (JStr × α)}
    (l₂ : List (JStr × α)) (h : assocFind k l₁ = some v) :
    assocFind k (l₁ ++ l₂) = some v := by
  induction l₁ with
  | nil => simp [assocFind] at h
  | cons p t ih =>
    obtain ⟨k', v'⟩ := p
    by_cases hk : k' = k
    · subst hk
      rw [assocFind_cons_self] at h
      rw [List.cons_append, assocFind_cons_self]
      exact h
    · rw [assocFind_cons_ne _ _ hk] at h
      rw [List.cons_append, assocFind_cons_ne _ _ hk]
      exact ih h

theorem fontTable_norm_props :
    ∀ p ∈ TPCL_FONT_PRESETS, p.2.fontFamily ≠ [] ∧ 0 < p.2.fontSizePt ∧
      (p.2.fontWeight = toChars "bold" ∨ p.2.fontWeight = toChars "normal") ∧
      (p.2.fontStyle = toChars "italic" ∨ p.2.fontStyle = toChars "normal") := by decide

theorem presetG_norm_props :
    tpclPresetG.fontFamily ≠ [] ∧ 0 < tpclPresetG.fontSizePt ∧
      (tpclPresetG.fontWeight = toChars "bold" ∨ tpclPresetG.fontWeight = toChars "normal") ∧
      (tpclPresetG.fontStyle = toChars "italic" ∨ tpclPresetG.fontStyle = toChars "normal") := by
  decide

theorem fontTable_G_find :
    TPCL_FONT_PRESETS.find? (fun p => p.2 = tpclPresetG) = some (toChars "G", tpclPresetG) := by
  decide

theorem normalizeTypography_of_typ (e' : TextElement) (typ : Typography)
    (hprops : typ.fontFamily ≠ [] ∧ 0 < typ.fontSizePt ∧
      (typ.fontWeight = toChars "bold" ∨ typ.fontWeight = toChars "normal") ∧
      (typ.fontStyle = toChars "italic" ∨ typ.fontStyle = toChars "normal"))
    (hf : e'.fontFamily = typ.fontFamily)
    (hs : e'.fontSizePt = some typ.fontSizePt)
    (hw : e'.fontWeight = some typ.fontWeight)
    (hst : e'.fontStyle = some typ.fontStyle) :
    normalizeTypography e' = typ := by
  obtain ⟨h1, h2, h3, h4⟩ := hprops
  rw [normalizeTypography, hf, hs, hw, hst]
  have hfam : (if typ.fontFamily ≠ [] then typ.fontFamily else toChars "helvetica") =
      typ.fontFamily := if_pos h1
  have hsz : (match some typ.fontSizePt with
      | some p => if 0 < p then p else 10
      | none => (10 : ℚ)) = typ.fontSizePt := by
    show (if 0 < typ.fontSizePt then typ.fontSizePt else 10) = typ.fontSizePt
    exact if_pos h2
  have hwt : (if (some typ.fontWeight = some (toChars "bold")) then toChars "bold"
      else toChars "normal") = typ.fontWeight := by
    rcases h3 with h | h
    · rw [if_pos (by rw [h]), h]
    · rw [if_neg (by rw [h]; intro hc; exact absurd (Option.some.inj hc) (by decide)), h]
  have hsty : (if (some typ.fontStyle = some (toChars "italic")) then toChars "italic"
      else toChars "normal") = typ.fontStyle := by
    rcases h4 with h | h
    · rw [if_pos (by rw [h]), h]
    · rw [if_neg (by rw [h]; intro hc; exact absurd (Option.some.inj hc) (by decide)), h]
  rw [hfam, hsz, hwt, hsty]

theorem getTpclFontId_roundtrip (el e' : TextElement)
    (hf : e'.fontFamily =
      ((assocFind (getTpclFontId el) TPCL_FONT_PRESETS).getD tpclPresetG).fontFamily)
    (hs : e'.fontSizePt =
      some ((assocFind (getTpclFontId el) TPCL_FONT_PRESETS).getD tpclPresetG).fontSizePt)
    (hw : e'.fontWeight =
      some ((assocFind (getTpclFontId el) TPCL_FONT_PRESETS).getD tpclPresetG).fontWeight)
    (hst : e'.fontStyle =
      some ((assocFind (getTpclFontId el) TPCL_FONT_PRESETS).getD tpclPresetG).fontStyle) :
    getTpclFontId e' = getTpclFontId el := by
  cases hff : TPCL_FONT_PRESETS.find? (fun p => p.2 = normalizeTypography el) with
  | some pr =>
    have hid : getTpclFontId el = pr.1 := by
      rw [getTpclFontId, hff]
    have hpr2 : pr.2 = normalizeTypography el := by
      have := List.find?_some hff
      exact of_decide_eq_true this
    have hmem : pr ∈ TPCL_FONT_PRESETS := List.mem_of_find?_eq_some hff
    have hlk : assocFind pr.1 TPCL_FONT_PRESETS = some pr.2 :=
      fontTable_self_lookup pr hmem
    have htyp : ((assocFind (getTpclFontId el) TPCL_FONT_PRESETS).getD tpclPresetG) = pr.2 := by
      rw [hid, hlk]
      rfl
    rw [htyp] at hf hs hw hst
    have hnorm : normalizeTypography e' = pr.2 :=
      normalizeTypography_of_typ e' pr.2 (fontTable_norm_props pr hmem) hf hs hw hst
    rw [hid, getTpclFontId, hnorm, hpr2, hff]
  | none =>
    have hid : getTpclFontId el = toChars "G" := by
      rw [getTpclFontId, hff]
    have htyp : ((assocFind (getTpclFontId el) TPCL_FONT_PRESETS).getD tpclPresetG) =
        tpclPresetG := by
      rw [hid, fontTable_G_lookup]
      rfl
    rw [htyp] at hf hs hw hst
    have hnorm : normalizeTypography e' = tpclPresetG :=
      normalizeTypography_of_typ e' tpclPresetG presetG_norm_props hf hs hw hst
    rw [getTpclFontId, hnorm, fontTable_G_find, hid]

theorem clamp3_idem (z : ℤ) : max 0 (min 3 (max 0 (min 3 z))) = max 0 (min 3 z) := by omega

theorem jsOrStr_ne_nil (v : Option JStr) : jsOrStr v (toChars "H") ≠ [] := by
  match v with
  | none => exact (by decide : toChars "H" ≠ [])
  | some s =>
    rw [jsOrStr]
    by_cases hs : s = []
    · rw [if_pos hs]
      decide
    · rw [if_neg hs]
      exact hs

theorem barcodeTypeCode_cases (el : BarcodeElement) :
    barcodeTypeCode el = toChars "9" ∨ barcodeTypeCode el = toChars "2" ∨
    barcodeTypeCode el = toChars "1" ∨ barcodeTypeCode el = toChars "3" ∨
    barcodeTypeCode el = toChars "4" ∨ barcodeTypeCode el = toChars "5" := by
  rw [barcodeTypeCode]
  cases hf : assocFind el.barcodeType BARCODE_MAP with
  | none => exact Or.inl rfl
  | some v =>
    have hv : v ∈ BARCODE_MAP.map Prod.snd := assocFind_mem hf
    have hv2 : v ∈ [toChars "9", toChars "2", toChars "1", toChars "3",
      toChars "4", toChars "5"] := hv
    have hv3 : v = toChars "9" ∨ v = toChars "2" ∨ v = toChars "1" ∨ v = toChars "3" ∨
        v = toChars "4" ∨ v = toChars "5" := by simpa using hv2
    rcases hv3 with rfl | rfl | rfl | rfl | rfl | rfl <;> decide

theorem barcode_code_roundtrip {c : JStr}
    (hc : c = toChars "9" ∨ c = toChars "2" ∨ c = toChars "1" ∨ c = toChars "3" ∨
      c = toChars "4" ∨ c = toChars "5") :
    (assocFind ((assocFind c REVERSE_BARCODE_MAP).getD (toChars "code128"))
      BARCODE_MAP).getD (toChars "9") = c := by
  rcases hc with rfl | rfl | rfl | rfl | rfl | rfl <;> decide

theorem pcLineOf_regen (i j : ℕ) (el : TextElement)
    (hid : idHasTag (toChars "PC") el.id = false)
    (hwd : match el.width with | none => True | some q => q.den = 1)
    (hhd : match el.height with | none => True | some q => q.den = 1) :
    pcLineOf j (parsedTextElem i el) = pcLineOf i el := by
  have hid2 : pcIdOf (parsedTextElem i el).id j = pcIdOf el.id i := by
    show pcIdOf (pcKeyOf i) j = pcIdOf el.id i
    rw [pcIdOf_key, pcIdOf_untagged hid]
  have hh : normalizeMag (parsedTextElem i el).height = normalizeMag el.height := by
    show normalizeMag (some (intToQ (normalizeMag el.height))) = normalizeMag el.height
    exact normalizeMag_regen_of_den_one hhd
  have hw : normalizeMag (parsedTextElem i el).width = normalizeMag el.width := by
    show normalizeMag (some (intToQ (normalizeMag el.width))) = normalizeMag el.width
    exact normalizeMag_regen_of_den_one hwd
  have hfont : getTpclFontId (parsedTextElem i el) = getTpclFontId el :=
    getTpclFontId_roundtrip el _ rfl rfl rfl rfl
  have hrot : rotationChars (parsedTextElem i el).rotation = rotationChars el.rotation := by
    show rotationChars (some (jsOrZero el.rotation)) = rotationChars el.rotation
    rw [rotationChars, rotationChars]
    rfl
  have hx : (parsedTextElem i el).x = el.x := rfl
  have hy : (parsedTextElem i el).y = el.y := rfl
  rw [pcLineOf, pcLineOf, hid2, hh, hw, hfont, hrot, hx, hy]

theorem rcLineOf_regen (i j : ℕ) (el : TextElement)
    (hid : idHasTag (toChars "PC") el.id = false) :
    rcLineOf j (parsedTextElem i el) = rcLineOf i el := by
  have hid2 : pcIdOf (parsedTextElem i el).id j = pcIdOf el.id i := by
    show pcIdOf (pcKeyOf i) j = pcIdOf el.id i
    rw [pcIdOf_key, pcIdOf_untagged hid]
  have hc : (parsedTextElem i el).content.getD [] = el.content.getD [] := rfl
  rw [rcLineOf, rcLineOf, hid2, hc]

theorem xbLineOf_regen (i j : ℕ) (el : BarcodeElement)
    (hid : idHasTag (toChars "XB") el.id = false) :
    xbLineOf j (parsedBarcodeElem i el) = xbLineOf i el := by
  have hid2 : xbIdOf (parsedBarcodeElem i el).id j = xbIdOf el.id i := by
    show xbIdOf (xbKeyOf i) j = xbIdOf el.id i
    rw [xbIdOf_key, xbIdOf_untagged hid]
  have hbt : barcodeTypeCode (parsedBarcodeElem i el) = barcodeTypeCode el := by
    show (assocFind ((assocFind (barcodeTypeCode el) REVERSE_BARCODE_MAP).getD
      (toChars "code128")) BARCODE_MAP).getD (toChars "9") = barcodeTypeCode el
    exact barcode_code_roundtrip (barcodeTypeCode_cases el)
  have hrot : (max 0 (min 3 (jsOrZero (parsedBarcodeElem i el).rotation))) =
      max 0 (min 3 (jsOrZero el.rotation)) := by
    show max 0 (min 3 (jsOrZero (some (max 0 (min 3 (jsOrZero el.rotation)))))) = _
    exact clamp3_idem _
  have hx : (parsedBarcodeElem i el).x = el.x := rfl
  have hy : (parsedBarcodeElem i el).y = el.y := rfl
  have hwd : (parsedBarcodeElem i el).width = el.width := rfl
  have hht : (parsedBarcodeElem i el).height = el.height := rfl
  rw [xbLineOf, xbLineOf, hid2, hbt, hrot, hx, hy, hwd, hht]

theorem rbLineOf_regen (i j : ℕ) (el : BarcodeElement)
    (hid : idHasTag (toChars "XB") el.id = false) :
    rbLineOf j (parsedBarcodeElem i el) = rbLineOf i el := by
  have hid2 : xbIdOf (parsedBarcodeElem i el).id j = xbIdOf el.id i := by
    show xbIdOf (xbKeyOf i) j = xbIdOf el.id i
    rw [xbIdOf_key, xbIdOf_untagged hid]
  have hc : (parsedBarcodeElem i el).content.getD [] = el.content.getD [] := rfl
  rw [rbLineOf, rbLineOf, hid2, hc]

theorem qrXbLineOf_regen (i j : ℕ) (el : QRCodeElement)
    (hid : idHasTag (toChars "XB") el.id = false) :
    qrXbLineOf j (parsedQrElem i el) = qrXbLineOf i el := by
  have hid2 : xbIdOf (parsedQrElem i el).id j = xbIdOf el.id i := by
    show xbIdOf (xbKeyOf i) j = xbIdOf el.id i
    rw [xbIdOf_key, xbIdOf_untagged hid]
  have hec : jsOrStr (parsedQrElem i el).errorCorrection (toChars "H") =
      jsOrStr el.errorCorrection (toChars "H") := by
    show jsOrStr (some (jsOrStr el.errorCorrection (toChars "H"))) (toChars "H") = _
    rw [jsOrStr, if_neg (jsOrStr_ne_nil el.errorCorrection)]
  have hsz : (parsedQrElem i el).size.map (fun s => max 1 (min 20 s)) =
      el.size.map (fun s => max 1 (min 20 s)) := by
    show (el.size.map (fun s => max 1 (min 20 s))).map (fun s => max 1 (min 20 s)) = _
    match hs : el.size with
    | none => rfl
    | some s =>
      show some (max 1 (min 20 (max 1 (min 20 s)))) = some (max 1 (min 20 s))
      congr 1
      omega
  have hrot : (max 0 (min 3 (jsOrZero (parsedQrElem i el).rotation))) =
      max 0 (min 3 (jsOrZero el.rotation)) := by
    show max 0 (min 3 (jsOrZero (some (max 0 (min 3 (jsOrZero el.rotation)))))) = _
    exact clamp3_idem _
  have hx : (parsedQrElem i el).x = el.x := rfl
  have hy : (parsedQrElem i el).y = el.y := rfl
  rw [qrXbLineOf, qrXbLineOf, hid2, hec, hsz, hrot, hx, hy]

theorem qrRbLineOf_regen (i j : ℕ) (el : QRCodeElement)
    (hid : idHasTag (toChars "XB") el.id = false) :
    qrRbLineOf j (parsedQrElem i el) = qrRbLineOf i el := by
  have hid2 : xbIdOf (parsedQrElem i el).id j = xbIdOf el.id i := by
    show xbIdOf (xbKeyOf i) j = xbIdOf el.id i
    rw [xbIdOf_key, xbIdOf_untagged hid]
  have hc : (parsedQrElem i el).content.getD [] = el.content.getD [] := rfl
  rw [qrRbLineOf, qrRbLineOf, hid2, hc]

theorem lcLineOf_regen (idv : JStr) (el : LineElement) :
    lcLineOf (parsedLineElem idv el) = lcLineOf el := rfl

theorem xrLineOf_regen (idv : JStr) (el : RectangleElement) :
    xrLineOf (parsedRectElem idv el) = xrLineOf el := rfl

theorem tpclXsLine_canonical {ps : PrintSettings} (hq : ps.quantity = some 1) :
    tpclXsLine (some ps) = tpclXsLine none := by
  rw [tpclXsLine, tpclXsLine, hq]
  rfl

theorem buckets_pc (i : ℕ) (els : List LabelElement) :
    (tpclBucketsFrom i els).pc = pcTokens i els := by
  induction els generalizing i with
  | nil => rfl
  | cons el rest ih =>
    cases el <;> simp [tpclBucketsFrom, tpclElementCmds, pcTokens, ih]

theorem buckets_xb (i : ℕ) (els : List LabelElement) :
    (tpclBucketsFrom i els).xb = xbTokens i els := by
  induction els generalizing i with
  | nil => rfl
  | cons el rest ih =>
    cases el <;> simp [tpclBucketsFrom, tpclElementCmds, xbTokens, ih]

theorem buckets_rc (i : ℕ) (els : List LabelElement) :
    (tpclBucketsFrom i els).rc = rcTokens i els := by
  induction els generalizing i with
  | nil => rfl
  | cons el rest ih =>
    cases el <;> simp [tpclBucketsFrom, tpclElementCmds, rcTokens, ih]

theorem buckets_gfx (i : ℕ) (els : List LabelElement) :
    (tpclBucketsFrom i els).gfx = gfxTokens els := by
  induction els generalizing i with
  | nil => rfl
  | cons el rest ih =>
    cases el <;> simp [tpclBucketsFrom, tpclElementCmds, gfxTokens, ih]

theorem canonicalText_spec {el : TextElement} (h : canonicalElemB (.text el) = true) :
    (∃ xv, el.x = some xv ∧ 0 ≤ xv) ∧ (∃ yv, el.y = some yv ∧ 0 ≤ yv) ∧
    (∃ s, el.content = some s ∧ '}' ∉ s) ∧
    (match el.width with | none => True | some q => q.den = 1) ∧
    (match el.height with | none => True | some q => q.den = 1) ∧
    idHasTag (toChars "PC") el.id = false := by
  rw [canonicalElemB] at h
  simp only [Bool.and_eq_true, Bool.not_eq_true'] at h
  obtain ⟨⟨⟨⟨hxy, hc⟩, hwd⟩, hhd⟩, hid⟩ := h
  refine ⟨?_, ?_, ?_, ?_, ?_, hid⟩
  · match hx : el.x, hy : el.y with
    | some xv, some yv =>
      rw [hx, hy] at hxy
      simp only [Bool.and_eq_true, decide_eq_true_eq] at hxy
      exact ⟨xv, rfl, hxy.1⟩
    | some _, none => rw [hx, hy] at hxy; simp at hxy
    | none, _ => rw [hx] at hxy; simp at hxy
  · match hx : el.x, hy : el.y with
    | some xv, some yv =>
      rw [hx, hy] at hxy
      simp only [Bool.and_eq_true, decide_eq_true_eq] at hxy
      exact ⟨yv, rfl, hxy.2⟩
    | some _, none => rw [hx, hy] at hxy; simp at hxy
    | none, _ => rw [hx] at hxy; simp at hxy
  · match hcc : el.content with
    | some s =>
      simp only [hcc] at hc
      refine ⟨s, rfl, ?_⟩
      intro hm
      have hcon : s.contains '}' = true := by
        rw [List.contains_eq_any_beq, List.any_eq_true]
        exact ⟨'}', hm, by simp⟩
      rw [noBrace, hcon] at hc
      cases hc
    | none =>
      simp only [hcc] at hc
      exact absurd hc (by decide)
  · match hw : el.width with
    | none => trivial
    | some q =>
      rw [hw] at hwd
      simpa using hwd
  · match hh : el.height with
    | none => trivial
    | some q =>
      rw [hh] at hhd
      simpa using hhd

theorem canonicalBarcode_spec {el : BarcodeElement} (h : canonicalElemB (.barcode el) = true) :
    (∃ xv, el.x = some xv ∧ 0 ≤ xv) ∧ (∃ yv, el.y = some yv ∧ 0 ≤ yv) ∧
    (∃ hv, el.height = some hv ∧ 0 ≤ hv) ∧
    idHasTag (toChars "XB") el.id = false := by
  rw [canonicalElemB] at h
  simp only [Bool.and_eq_true, Bool.not_eq_true'] at h
  obtain ⟨⟨⟨hxyh, _⟩, _⟩, hid⟩ := h
  refine ⟨?_, ?_, ?_, hid⟩ <;>
  · match hx : el.x, hy : el.y, hh : el.height with
    | some xv, some yv, some hv =>
      rw [hx, hy, hh] at hxyh
      simp only [Bool.and_eq_true, decide_eq_true_eq] at hxyh
      first
      | exact ⟨xv, rfl, hxyh.1.1⟩
      | exact ⟨yv, rfl, hxyh.1.2⟩
      | exact ⟨hv, rfl, hxyh.2⟩
    | some _, some _, none => rw [hx, hy, hh] at hxyh; simp at hxyh
    | some _, none, _ => rw [hx, hy] at hxyh; simp at hxyh
    | none, _, _ => rw [hx] at hxyh; simp at hxyh

theorem canonicalQr_spec {el : QRCodeElement} (h : canonicalElemB (.qrcode el) = true) :
    (∃ xv, el.x = some xv ∧ 0 ≤ xv) ∧ (∃ yv, el.y = some yv ∧ 0 ≤ yv) ∧
    (';' ∉ jsOrStr el.errorCorrection (toChars "H") ∧
     ',' ∉ jsOrStr el.errorCorrection (toChars "H")) ∧
    idHasTag (toChars "XB") el.id = false := by
  rw [canonicalElemB] at h
  simp only [Bool.and_eq_true, Bool.not_eq_true'] at h
  obtain ⟨⟨⟨⟨hxy, _⟩, _⟩, hec⟩, hid⟩ := h
  refine ⟨?_, ?_, ?_, hid⟩
  · match hx : el.x, hy : el.y with
    | some xv, some yv =>
      rw [hx, hy] at hxy
      simp only [Bool.and_eq_true, decide_eq_true_eq] at hxy
      exact ⟨xv, rfl, hxy.1⟩
    | some _, none => rw [hx, hy] at hxy; simp at hxy
    | none, _ => rw [hx] at hxy; simp at hxy
  · match hx : el.x, hy : el.y with
    | some xv, some yv =>
      rw [hx, hy] at hxy
      simp only [Bool.and_eq_true, decide_eq_true_eq] at hxy
      exact ⟨yv, rfl, hxy.2⟩
    | some _, none => rw [hx, hy] at hxy; simp at hxy
    | none, _ => rw [hx] at hxy; simp at hxy
  · simp only [Bool.or_eq_true, decide_eq_true_eq] at hec
    rcases hec with ((((hn | hl) | hm) | hq) | hh) <;>
      first
      | (rw [hn]; exact ⟨by decide, by decide⟩)
      | (rw [hl]; exact ⟨by decide, by decide⟩)
      | (rw [hm]; exact ⟨by decide, by decide⟩)
      | (rw [hq]; exact ⟨by decide, by decide⟩)
      | (rw [hh]; exact ⟨by decide, by decide⟩)

theorem canonicalLine_spec {el : LineElement} (h : canonicalElemB (.line el) = true) :
    ∃ xv yv x2v y2v, el.x = some xv ∧ el.y = some yv ∧ el.x2 = some x2v ∧ el.y2 = some y2v ∧
      0 ≤ xv ∧ 0 ≤ yv ∧ 0 ≤ x2v ∧ 0 ≤ y2v := by
  rw [canonicalElemB] at h
  simp only [Bool.and_eq_true] at h
  obtain ⟨hco, _⟩ := h
  match hx : el.x, hy : el.y, hx2 : el.x2, hy2 : el.y2 with
  | some xv, some yv, some x2v, some y2v =>
    rw [hx, hy, hx2, hy2] at hco
    simp only [Bool.and_eq_true, decide_eq_true_eq] at hco
    exact ⟨xv, yv, x2v, y2v, rfl, rfl, rfl, rfl, hco.1.1.1, hco.1.1.2, hco.1.2, hco.2⟩
  | some _, some _, some _, none => rw [hx, hy, hx2, hy2] at hco; simp at hco
  | some _, some _, none, _ => rw [hx, hy, hx2] at hco; simp at hco
  | some _, none, _, _ => rw [hx, hy] at hco; simp at hco
  | none, _, _, _ => rw [hx] at hco; simp at hco

theorem canonicalRect_spec {el : RectangleElement} (h : canonicalElemB (.rectangle el) = true) :
    ∃ xv yv wv hv, el.x = some xv ∧ el.y = some yv ∧ el.width = some wv ∧ el.height = some hv ∧
      0 ≤ xv ∧ 0 ≤ yv ∧ 0 ≤ xv + wv ∧ 0 ≤ yv + hv := by
  rw [canonicalElemB] at h
  match hx : el.x, hy : el.y, hw : el.width, hh : el.height with
  | some xv, some yv, some wv, some hv =>
    rw [hx, hy, hw, hh] at h
    simp only [Bool.and_eq_true, decide_eq_true_eq] at h
    exact ⟨xv, yv, wv, hv, rfl, rfl, rfl, rfl, h.1.1.1, h.1.1.2, h.1.2, h.2⟩
  | some _, some _, some _, none => rw [hx, hy, hw, hh] at h; simp at h
  | some _, some _, none, _ => rw [hx, hy, hw] at h; simp at h
  | some _, none, _, _ => rw [hx, hy] at h; simp at h
  | none, _, _, _ => rw [hx] at h; simp at h

theorem pcTokens_fold (g : ℕ → JStr) (els : List LabelElement) :
    ∀ (i : ℕ) (st : PState), (∀ el ∈ els, canonicalElemB el = true) →
    (pcTokens i els).foldlM (tpclStep g) st =
      .ok { st with textDefs := (pcEntries i els).reverse ++ st.textDefs } := by
  induction els with
  | nil => intro i st _; rfl
  | cons el rest ih =>
    intro i st hc
    have hcrest : ∀ e ∈ rest, canonicalElemB e = true :=
      fun e he => hc e (List.mem_cons_of_mem _ he)
    cases el with
    | text t =>
      obtain ⟨⟨xv, hx, hxnn⟩, ⟨yv, hy, hynn⟩, _, _, _, hid⟩ :=
        canonicalText_spec (hc _ (List.mem_cons_self _ _))
      rw [pcTokens, List.foldlM_cons, tpclStep_pcLine g st i t hid hx hy hxnn hynn]
      rw [show ((Except.ok { st with textDefs := (pcKeyOf i, parsedTextDef i t) :: st.textDefs }
        : Except JsErr PState) >>= fun b => (pcTokens (i + 1) rest).foldlM (tpclStep g) b) =
        (pcTokens (i + 1) rest).foldlM (tpclStep g)
          { st with textDefs := (pcKeyOf i, parsedTextDef i t) :: st.textDefs } from rfl]
      rw [ih (i + 1) _ hcrest]
      simp [pcEntries, List.append_assoc]
    | barcode b => rw [pcTokens, ih (i + 1) st hcrest]; rfl
    | qrcode q => rw [pcTokens, ih (i + 1) st hcrest]; rfl
    | line l => rw [pcTokens, ih (i + 1) st hcrest]; rfl
    | rectangle r => rw [pcTokens, ih (i + 1) st hcrest]; rfl

theorem xbTokens_fold (g : ℕ → JStr) (els : List LabelElement) :
    ∀ (i : ℕ) (st : PState), (∀ el ∈ els, canonicalElemB el = true) →
    (xbTokens i els).foldlM (tpclStep g) st =
      .ok { st with barcodeDefs := (xbEntries i els).reverse ++ st.barcodeDefs
                    elements := st.elements ++ barElems i els } := by
  induction els with
  | nil => intro i st _; simp [xbTokens, xbEntries, barElems]; rfl
  | cons el rest ih =>
    intro i st hc
    have hcrest : ∀ e ∈ rest, canonicalElemB e = true :=
      fun e he => hc e (List.mem_cons_of_mem _ he)
    cases el with
    | text t => rw [xbTokens, ih (i + 1) st hcrest]; rfl
    | barcode b =>
      obtain ⟨⟨xv, hx, hxnn⟩, ⟨yv, hy, hynn⟩, ⟨hv, hh, hhnn⟩, hid⟩ :=
        canonicalBarcode_spec (hc _ (List.mem_cons_self _ _))
      rw [xbTokens, List.foldlM_cons, tpclStep_xbLine g st i b hid]
      rw [show ((Except.ok { st with
          barcodeDefs := (xbKeyOf i, xbStoredParams b) :: st.barcodeDefs }
        : Except JsErr PState) >>= fun s => (rbLineOf i b :: xbTokens (i + 1) rest).foldlM
          (tpclStep g) s) =
        (rbLineOf i b :: xbTokens (i + 1) rest).foldlM (tpclStep g)
          { st with barcodeDefs := (xbKeyOf i, xbStoredParams b) :: st.barcodeDefs } from rfl]
      rw [List.foldlM_cons, tpclStep_rbLine g _ i b hid hx hy hh hxnn hynn hhnn
        (assocFind_cons_self _ _ _)]
      rw [show ((Except.ok { st with
          barcodeDefs := (xbKeyOf i, xbStoredParams b) :: st.barcodeDefs
          elements := st.elements ++ [.barcode (parsedBarcodeElem i b)] }
        : Except JsErr PState) >>= fun s => (xbTokens (i + 1) rest).foldlM (tpclStep g) s) =
        (xbTokens (i + 1) rest).foldlM (tpclStep g) { st with
          barcodeDefs := (xbKeyOf i, xbStoredParams b) :: st.barcodeDefs
          elements := st.elements ++ [.barcode (parsedBarcodeElem i b)] } from rfl]
      rw [ih (i + 1) _ hcrest]
      simp [xbEntries, barElems, List.append_assoc]
    | qrcode q =>
      obtain ⟨⟨xv, hx, hxnn⟩, ⟨yv, hy, hynn⟩, ⟨hecs, hecc⟩, hid⟩ :=
        canonicalQr_spec (hc _ (List.mem_cons_self _ _))
      rw [xbTokens, List.foldlM_cons, tpclStep_qrXbLine g st i q hid hecs hecc]
      rw [show ((Except.ok { st with
          barcodeDefs := (xbKeyOf i, qrStoredParams q) :: st.barcodeDefs }
        : Except JsErr PState) >>= fun s => (qrRbLineOf i q :: xbTokens (i + 1) rest).foldlM
          (tpclStep g) s) =
        (qrRbLineOf i q :: xbTokens (i + 1) rest).foldlM (tpclStep g)
          { st with barcodeDefs := (xbKeyOf i, qrStoredParams q) :: st.barcodeDefs } from rfl]
      rw [List.foldlM_cons, tpclStep_qrRbLine g _ i q hid hx hy hxnn hynn
        (assocFind_cons_self _ _ _)]
      rw [show ((Except.ok { st with
          barcodeDefs := (xbKeyOf i, qrStoredParams q) :: st.barcodeDefs
          elements := st.elements ++ [.qrcode (parsedQrElem i q)] }
        : Except JsErr PState) >>= fun s => (xbTokens (i + 1) rest).foldlM (tpclStep g) s) =
        (xbTokens (i + 1) rest).foldlM (tpclStep g) { st with
          barcodeDefs := (xbKeyOf i, qrStoredParams q) :: st.barcodeDefs
          elements := st.elements ++ [.qrcode (parsedQrElem i q)] } from rfl]
      rw [ih (i + 1) _ hcrest]
      simp [xbEntries, barElems, List.append_assoc]
    | line l => rw [xbTokens, ih (i + 1) st hcrest]; rfl
    | rectangle r => rw [xbTokens, ih (i + 1) st hcrest]; rfl

theorem rcTokens_fold (g : ℕ → JStr) (els : List LabelElement) :
    ∀ (i : ℕ) (st : PState), (∀ el ∈ els, canonicalElemB el = true) →
    (∀ (j : ℕ) (t : TextElement), els[j]? = some (.text t) →
      assocFind (pcKeyOf (i + j)) st.textDefs = some (parsedTextDef (i + j) t)) →
    (rcTokens i els).foldlM (tpclStep g) st =
      .ok { st with elements := st.elements ++ textElems i els } := by
  induction els with
  | nil =>
    intro i st _ _
    rw [show rcTokens i [] = [] from rfl, List.foldlM_nil,
      show textElems i ([] : List LabelElement) = [] from rfl, List.append_nil]
    rfl
  | cons el rest ih =>
    intro i st hc hfind
    have hcrest : ∀ e ∈ rest, canonicalElemB e = true :=
      fun e he => hc e (List.mem_cons_of_mem _ he)
    cases el with
    | text t =>
      obtain ⟨_, _, ⟨s, hcont, _⟩, _, _, hid⟩ :=
        canonicalText_spec (hc _ (List.mem_cons_self _ _))
      have hf0 : assocFind (pcKeyOf i) st.textDefs = some (parsedTextDef i t) := by
        have := hfind 0 t (by simp)
        rwa [Nat.add_zero] at this
      rw [rcTokens, hcont]
      rw [show ((([rcLineOf i t] ++ rcTokens (i + 1) rest) : List JStr)) =
        rcLineOf i t :: rcTokens (i + 1) rest from rfl]
      rw [List.foldlM_cons, tpclStep_rcLine g st i t hid hf0]
      rw [show ((Except.ok { st with
          elements := st.elements ++ [.text (parsedTextElem i t)] }
        : Except JsErr PState) >>= fun s2 => (rcTokens (i + 1) rest).foldlM (tpclStep g) s2) =
        (rcTokens (i + 1) rest).foldlM (tpclStep g)
          { st with elements := st.elements ++ [.text (parsedTextElem i t)] } from rfl]
      rw [ih (i + 1) _ hcrest (fun j u hj => by
        have heq : i + 1 + j = i + (j + 1) := by omega
        rw [heq]
        exact hfind (j + 1) u (by simpa using hj))]
      rw [textElems, hcont]
      simp [List.append_assoc]
    | barcode b =>
      rw [rcTokens, ih (i + 1) st hcrest (fun j u hj => by
        have heq : i + 1 + j = i + (j + 1) := by omega
        rw [heq]
        exact hfind (j + 1) u (by simpa using hj))]
      rfl
    | qrcode q =>
      rw [rcTokens, ih (i + 1) st hcrest (fun j u hj => by
        have heq : i + 1 + j = i + (j + 1) := by omega
        rw [heq]
        exact hfind (j + 1) u (by simpa using hj))]
      rfl
    | line l =>
      rw [rcTokens, ih (i + 1) st hcrest (fun j u hj => by
        have heq : i + 1 + j = i + (j + 1) := by omega
        rw [heq]
        exact hfind (j + 1) u (by simpa using hj))]
      rfl
    | rectangle r =>
      rw [rcTokens, ih (i + 1) st hcrest (fun j u hj => by
        have heq : i + 1 + j = i + (j + 1) := by omega
        rw [heq]
        exact hfind (j + 1) u (by simpa using hj))]
      rfl

theorem gfxTokens_fold (g : ℕ → JStr) (els : List LabelElement) :
    ∀ (st : PState), (∀ el ∈ els, canonicalElemB el = true) →
    (gfxTokens els).foldlM (tpclStep g) st =
      .ok { st with elements := st.elements ++ gfxElems g st.ctr els
                    ctr := st.ctr + gfxCount els } := by
  induction els with
  | nil =>
    intro st _
    rw [show gfxTokens [] = [] from rfl, List.foldlM_nil,
      show gfxElems g st.ctr [] = [] from rfl, List.append_nil,
      show gfxCount [] = 0 from rfl, Nat.add_zero]
    rfl
  | cons el rest ih =>
    intro st hc
    have hcrest : ∀ e ∈ rest, canonicalElemB e = true :=
      fun e he => hc e (List.mem_cons_of_mem _ he)
    cases el with
    | text t => rw [gfxTokens, ih st hcrest]; rfl
    | barcode b => rw [gfxTokens, ih st hcrest]; rfl
    | qrcode q => rw [gfxTokens, ih st hcrest]; rfl
    | line l =>
      obtain ⟨xv, yv, x2v, y2v, hx, hy, hx2, hy2, hxnn, hynn, hx2nn, hy2nn⟩ :=
        canonicalLine_spec (hc _ (List.mem_cons_self _ _))
      rw [gfxTokens, List.foldlM_cons,
        tpclStep_lcLine g st l hx hy hx2 hy2 hxnn hynn hx2nn hy2nn]
      rw [show ((Except.ok { st with
          elements := st.elements ++ [.line (parsedLineElem (g st.ctr) l)]
          ctr := st.ctr + 1 }
        : Except JsErr PState) >>= fun s2 => (gfxTokens rest).foldlM (tpclStep g) s2) =
        (gfxTokens rest).foldlM (tpclStep g) { st with
          elements := st.elements ++ [.line (parsedLineElem (g st.ctr) l)]
          ctr := st.ctr + 1 } from rfl]
      rw [ih _ hcrest]
      rw [gfxElems, gfxCount]
      simp [List.append_assoc]
      omega
    | rectangle r =>
      obtain ⟨xv, yv, wv, hv, hx, hy, hw, hh, hxnn, hynn, hxw, hyh⟩ :=
        canonicalRect_spec (hc _ (List.mem_cons_self _ _))
      rw [gfxTokens, List.foldlM_cons,
        tpclStep_xrLine g st r hx hy hw hh hxnn hynn hxw hyh]
      rw [show ((Except.ok { st with
          elements := st.elements ++ [.rectangle (parsedRectElem (g st.ctr) r)]
          ctr := st.ctr + 1 }
        : Except JsErr PState) >>= fun s2 => (gfxTokens rest).foldlM (tpclStep g) s2) =
        (gfxTokens rest).foldlM (tpclStep g) { st with
          elements := st.elements ++ [.rectangle (parsedRectElem (g st.ctr) r)]
          ctr := st.ctr + 1 } from rfl]
      rw [ih _ hcrest]
      rw [gfxElems, gfxCount]
      simp [List.append_assoc]
      omega

theorem pcEntries_key_bound (els : List LabelElement) :
    ∀ (i : ℕ) (p : JStr × TextDef), p ∈ pcEntries i els → ∃ k, i ≤ k ∧ p.1 = pcKeyOf k := by
  induction els with
  | nil => intro i p hp; simp [pcEntries] at hp
  | cons el rest ih =>
    intro i p hp
    cases el with
    | text t =>
      rw [pcEntries] at hp
      rcases List.mem_cons.mp hp with rfl | hp'
      · exact ⟨i, le_refl i, rfl⟩
      · obtain ⟨k, hk, hkey⟩ := ih (i + 1) p hp'
        exact ⟨k, by omega, hkey⟩
    | barcode b =>
      rw [pcEntries] at hp
      obtain ⟨k, hk, hkey⟩ := ih (i + 1) p hp
      exact ⟨k, by omega, hkey⟩
    | qrcode q =>
      rw [pcEntries] at hp
      obtain ⟨k, hk, hkey⟩ := ih (i + 1) p hp
      exact ⟨k, by omega, hkey⟩
    | line l =>
      rw [pcEntries] at hp
      obtain ⟨k, hk, hkey⟩ := ih (i + 1) p hp
      exact ⟨k, by omega, hkey⟩
    | rectangle r =>
      rw [pcEntries] at hp
      obtain ⟨k, hk, hkey⟩ := ih (i + 1) p hp
      exact ⟨k, by omega, hkey⟩

theorem pcEntries_lookup (els : List LabelElement) :
    ∀ (i j : ℕ) (t : TextElement), els[j]? = some (.text t) →
    assocFind (pcKeyOf (i + j)) ((pcEntries i els).reverse) =
      some (parsedTextDef (i + j) t) := by
  induction els with
  | nil => intro i j t hj; simp at hj
  | cons el rest ih =>
    intro i j t hj
    cases el with
    | text t0 =>
      match j with
      | 0 =>
        have ht0 : t0 = t := by
          have := hj
          rw [List.getElem?_cons_zero] at this
          exact LabelElement.text.inj (Option.some.inj this)
        subst ht0
        rw [Nat.add_zero, pcEntries, List.reverse_cons]
        rw [assocFind_append_right _ (fun p hp => by
          obtain ⟨k, hk, hkey⟩ := pcEntries_key_bound rest (i + 1) p (List.mem_reverse.mp hp)
          rw [hkey]
          intro hcon
          have := pcKeyOf_inj hcon
          omega)]
        exact assocFind_cons_self _ _ _
      | j' + 1 =>
        rw [pcEntries, List.reverse_cons]
        have heq : i + (j' + 1) = (i + 1) + j' := by omega
        rw [heq]
        exact assocFind_append_left _ (ih (i + 1) j' t (by simpa using hj))
    | barcode b =>
      match j with
      | 0 => rw [List.getElem?_cons_zero] at hj; cases hj
      | j' + 1 =>
        rw [pcEntries]
        have heq : i + (j' + 1) = (i + 1) + j' := by omega
        rw [heq]
        exact ih (i + 1) j' t (by simpa using hj)
    | qrcode q =>
      match j with
      | 0 => rw [List.getElem?_cons_zero] at hj; cases hj
      | j' + 1 =>
        rw [pcEntries]
        have heq : i + (j' + 1) = (i + 1) + j' := by omega
        rw [heq]
        exact ih (i + 1) j' t (by simpa using hj)
    | line l =>
      match j with
      | 0 => rw [List.getElem?_cons_zero] at hj; cases hj
      | j' + 1 =>
        rw [pcEntries]
        have heq : i + (j' + 1) = (i + 1) + j' := by omega
        rw [heq]
        exact ih (i + 1) j' t (by simpa using hj)
    | rectangle r =>
      match j with
      | 0 => rw [List.getElem?_cons_zero] at hj; cases hj
      | j' + 1 =>
        rw [pcEntries]
        have heq : i + (j' + 1) = (i + 1) + j' := by omega
        rw [heq]
        exact ih (i + 1) j' t (by simpa using hj)

theorem jsNum_no_brace (v : Option ℤ) : '}' ∉ jsNumToChars v := by
  intro hm
  rcases mem_jsNumToChars hm with h | h | h
  · exact absurd h (by decide)
  · exact (isDigit_ne_special h).1 rfl
  · exact absurd h (by decide)

theorem pcKey_no_brace (i : ℕ) : '}' ∉ pcKeyOf i := by
  rw [pcKeyOf]
  intro hmem
  rcases List.mem_append.mp hmem with h1 | h1
  · exact absurd h1 (by decide)
  · rcases mem_padStartCh h1 with h | h
    · exact absurd h (by decide)
    · exact (isDigit_ne_special (natToChars_all_digits _ _ h)).1 rfl

theorem xbKey_no_brace (i : ℕ) : '}' ∉ xbKeyOf i := by
  rw [xbKeyOf]
  intro hmem
  rcases List.mem_append.mp hmem with h1 | h1
  · exact absurd h1 (by decide)
  · rcases mem_padStartCh h1 with h | h
    · exact absurd h (by decide)
    · exact (isDigit_ne_special (natToChars_all_digits _ _ h)).1 rfl

theorem canonicalBarcode_content {el : BarcodeElement}
    (h : canonicalElemB (.barcode el) = true) : '}' ∉ el.content.getD [] := by
  rw [canonicalElemB] at h
  simp only [Bool.and_eq_true] at h
  obtain ⟨⟨⟨_, _⟩, hc⟩, _⟩ := h
  match hcc : el.content with
  | none => exact List.not_mem_nil '}'
  | some s =>
    simp only [hcc] at hc
    intro hm
    have hcon : s.contains '}' = true := by
      rw [List.contains_eq_any_beq, List.any_eq_true]
      exact ⟨'}', hm, by simp⟩
    rw [noBrace, hcon] at hc
    cases hc

theorem canonicalQr_content {el : QRCodeElement}
    (h : canonicalElemB (.qrcode el) = true) : '}' ∉ el.content.getD [] := by
  rw [canonicalElemB] at h
  simp only [Bool.and_eq_true] at h
  obtain ⟨⟨⟨⟨_, _⟩, hc⟩, _⟩, _⟩ := h
  match hcc : el.content with
  | none => exact List.not_mem_nil '}'
  | some s =>
    simp only [hcc] at hc
    intro hm
    have hcon : s.contains '}' = true := by
      rw [List.contains_eq_any_beq, List.any_eq_true]
      exact ⟨'}', hm, by simp⟩
    rw [noBrace, hcon] at hc
    cases hc

theorem canonicalQr_ec_no_brace {el : QRCodeElement}
    (h : canonicalElemB (.qrcode el) = true) :
    '}' ∉ jsOrStr el.errorCorrection (toChars "H") := by
  rw [canonicalElemB] at h
  simp only [Bool.and_eq_true, Bool.or_eq_true, decide_eq_true_eq] at h
  obtain ⟨⟨_, hec⟩, _⟩ := h
  rcases hec with ((((hn | hl) | hm) | hq) | hh) <;>
    first
    | (rw [hn]; decide)
    | (rw [hl]; decide)
    | (rw [hm]; decide)
    | (rw [hq]; decide)
    | (rw [hh]; decide)

theorem idHasTag_no_brace {tag id : JStr} (htag : '}' ∉ tag)
    (h : idHasTag tag id = true) : '}' ∉ id := by
  rw [idHasTag, Bool.and_eq_true] at h
  obtain ⟨hpre, hdig⟩ := h
  obtain ⟨r, rfl⟩ := (hasPre_iff_append tag id).mp hpre
  rw [List.drop_left] at hdig
  rw [Bool.and_eq_true] at hdig
  intro hm
  rcases List.mem_append.mp hm with h1 | h1
  · exact htag h1
  · have hd : r.all Char.isDigit = true := hdig.2
    rw [List.all_eq_true] at hd
    exact (isDigit_ne_special (hd '}' h1)).1 rfl

theorem lineOk_pcLine (i : ℕ) (el : TextElement) : lineOk (pcLineOf i el) := by
  obtain ⟨⟨_, _⟩, hfb, hfne⟩ := getTpclFontId_shape el
  refine lineOk_tpclCmd (by simp [pcIdOf]) ?_
  intro hm
  rcases List.mem_append.mp hm with h1 | h1
  · rw [pcIdOf] at h1
    by_cases htag : idHasTag (toChars "PC") el.id = true
    · rw [if_pos htag] at h1
      exact idHasTag_no_brace (by decide) htag h1
    · rw [if_neg htag] at h1
      rcases List.mem_append.mp h1 with h2 | h2
      · exact absurd h2 (by decide)
      · rcases mem_padStartCh h2 with h | h
        · exact absurd h (by decide)
        · exact (isDigit_ne_special (natToChars_all_digits _ _ h)).1 rfl
  · rcases List.mem_cons.mp h1 with h2 | h2
    · exact absurd h2 (by decide)
    rcases List.mem_append.mp h2 with h3 | h3
    · exact padNum_no_brace _ _ h3
    rcases List.mem_cons.mp h3 with h4 | h4
    · exact absurd h4 (by decide)
    rcases List.mem_append.mp h4 with h5 | h5
    · exact padNum_no_brace _ _ h5
    rcases List.mem_cons.mp h5 with h6 | h6
    · exact absurd h6 (by decide)
    rcases List.mem_append.mp h6 with h7 | h7
    · exact padInt_no_brace _ _ h7
    rcases List.mem_cons.mp h7 with h8 | h8
    · exact absurd h8 (by decide)
    rcases List.mem_append.mp h8 with h9 | h9
    · exact padInt_no_brace _ _ h9
    rcases List.mem_cons.mp h9 with h10 | h10
    · exact absurd h10 (by decide)
    rcases List.mem_append.mp h10 with h11 | h11
    · exact hfb h11
    rcases List.mem_cons.mp h11 with h12 | h12
    · exact absurd h12 (by decide)
    rcases List.mem_append.mp h12 with h13 | h13
    · rw [rotationChars] at h13
      exact padInt_no_brace _ _ h13
    · exact absurd h13 (by decide)

theorem lineOk_rcLine (i : ℕ) (el : TextElement) (hcb : '}' ∉ el.content.getD []) :
    lineOk (rcLineOf i el) := by
  refine lineOk_tpclCmd (by simp [rcIdFrom]) ?_
  intro hm
  rcases List.mem_append.mp hm with h1 | h1
  · rw [rcIdFrom] at h1
    have hpcid : '}' ∉ pcIdOf el.id i := by
      rw [pcIdOf]
      by_cases htag : idHasTag (toChars "PC") el.id = true
      · rw [if_pos htag]
        exact idHasTag_no_brace (by decide) htag
      · rw [if_neg htag]
        intro h2
        rcases List.mem_append.mp h2 with h3 | h3
        · exact absurd h3 (by decide)
        · rcases mem_padStartCh h3 with h | h
          · exact absurd h (by decide)
          · exact (isDigit_ne_special (natToChars_all_digits _ _ h)).1 rfl
    revert h1
    by_cases hpre : hasPre (toChars "PC") (pcIdOf el.id i) = true
    · rw [if_pos hpre]
      intro h1
      rcases List.mem_append.mp h1 with h2 | h2
      · exact absurd h2 (by decide)
      · exact hpcid (List.mem_of_mem_drop h2)
    · rw [if_neg hpre]
      exact hpcid
  · rcases List.mem_cons.mp h1 with h2 | h2
    · exact absurd h2 (by decide)
    · exact hcb h2

theorem lineOk_xbLine (i : ℕ) (el : BarcodeElement) : lineOk (xbLineOf i el) := by
  obtain ⟨⟨_, _⟩, hbb, _⟩ := barcodeTypeCode_shape el
  have hxbid : '}' ∉ xbIdOf el.id i := by
    rw [xbIdOf]
    by_cases htag : idHasTag (toChars "XB") el.id = true
    · rw [if_pos htag]
      exact idHasTag_no_brace (by decide) htag
    · rw [if_neg htag]
      intro h2
      rcases List.mem_append.mp h2 with h3 | h3
      · exact absurd h3 (by decide)
      · rcases mem_padStartCh h3 with h | h
        · exact absurd h (by decide)
        · exact (isDigit_ne_special (natToChars_all_digits _ _ h)).1 rfl
  refine lineOk_tpclCmd (by simp [xbIdOf]) ?_
  intro hm
  rcases List.mem_append.mp hm with h1 | h1
  · exact hxbid h1
  rcases List.mem_cons.mp h1 with h2 | h2
  · exact absurd h2 (by decide)
  rcases List.mem_append.mp h2 with h3 | h3
  · exact padNum_no_brace _ _ h3
  rcases List.mem_cons.mp h3 with h4 | h4
  · exact absurd h4 (by decide)
  rcases List.mem_append.mp h4 with h5 | h5
  · exact padNum_no_brace _ _ h5
  rcases List.mem_cons.mp h5 with h6 | h6
  · exact absurd h6 (by decide)
  rcases List.mem_append.mp h6 with h7 | h7
  · exact hbb h7
  rcases List.mem_cons.mp h7 with h8 | h8
  · exact absurd h8 (by decide)
  rcases List.mem_cons.mp h8 with h9 | h9
  · exact absurd h9 (by decide)
  rcases List.mem_cons.mp h9 with h10 | h10
  · exact absurd h10 (by decide)
  rcases List.mem_append.mp h10 with h11 | h11
  · exact padNum_no_brace _ _ h11
  rcases List.mem_cons.mp h11 with h12 | h12
  · exact absurd h12 (by decide)
  rcases List.mem_append.mp h12 with h13 | h13
  · exact intChars_no_brace _ h13
  rcases List.mem_cons.mp h13 with h14 | h14
  · exact absurd h14 (by decide)
  rcases List.mem_append.mp h14 with h15 | h15
  · exact padNum_no_brace _ _ h15
  · exact absurd h15 (by decide)

theorem lineOk_rbLine (i : ℕ) (el : BarcodeElement) (hcb : '}' ∉ el.content.getD []) :
    lineOk (rbLineOf i el) := by
  have hxbid : '}' ∉ xbIdOf el.id i := by
    rw [xbIdOf]
    by_cases htag : idHasTag (toChars "XB") el.id = true
    · rw [if_pos htag]
      exact idHasTag_no_brace (by decide) htag
    · rw [if_neg htag]
      intro h2
      rcases List.mem_append.mp h2 with h3 | h3
      · exact absurd h3 (by decide)
      · rcases mem_padStartCh h3 with h | h
        · exact absurd h (by decide)
        · exact (isDigit_ne_special (natToChars_all_digits _ _ h)).1 rfl
  refine lineOk_tpclCmd (by simp [rbIdFrom]) ?_
  intro hm
  rcases List.mem_append.mp hm with h1 | h1
  · rw [rbIdFrom] at h1
    revert h1
    by_cases hpre : hasPre (toChars "XB") (xbIdOf el.id i) = true
    · rw [if_pos hpre]
      intro h1
      rcases List.mem_append.mp h1 with h2 | h2
      · exact absurd h2 (by decide)
      · exact hxbid (List.mem_of_mem_drop h2)
    · rw [if_neg hpre]
      exact hxbid
  · rcases List.mem_cons.mp h1 with h2 | h2
    · exact absurd h2 (by decide)
    · exact hcb h2

theorem lineOk_qrXbLine (i : ℕ) (el : QRCodeElement)
    (hec : '}' ∉ jsOrStr el.errorCorrection (toChars "H")) : lineOk (qrXbLineOf i el) := by
  have hxbid : '}' ∉ xbIdOf el.id i := by
    rw [xbIdOf]
    by_cases htag : idHasTag (toChars "XB") el.id = true
    · rw [if_pos htag]
      exact idHasTag_no_brace (by decide) htag
    · rw [if_neg htag]
      intro h2
      rcases List.mem_append.mp h2 with h3 | h3
      · exact absurd h3 (by decide)
      · rcases mem_padStartCh h3 with h | h
        · exact absurd h (by decide)
        · exact (isDigit_ne_special (natToChars_all_digits _ _ h)).1 rfl
  refine lineOk_tpclCmd (by simp [xbIdOf]) ?_
  intro hm
  rcases List.mem_append.mp hm with h1 | h1
  · exact hxbid h1
  rcases List.mem_cons.mp h1 with h2 | h2
  · exact absurd h2 (by decide)
  rcases List.mem_append.mp h2 with h3 | h3
  · exact padNum_no_brace _ _ h3
  rcases List.mem_cons.mp h3 with h4 | h4
  · exact absurd h4 (by decide)
  rcases List.mem_append.mp h4 with h5 | h5
  · exact padNum_no_brace _ _ h5
  rcases List.mem_cons.mp h5 with h6 | h6
  · exact absurd h6 (by decide)
  rcases List.mem_cons.mp h6 with h7 | h7
  · exact absurd h7 (by decide)
  rcases List.mem_cons.mp h7 with h8 | h8
  · exact absurd h8 (by decide)
  rcases List.mem_append.mp h8 with h9 | h9
  · exact hec h9
  rcases List.mem_cons.mp h9 with h10 | h10
  · exact absurd h10 (by decide)
  rcases List.mem_append.mp h10 with h11 | h11
  · exact padNum_no_brace _ _ h11
  rcases List.mem_cons.mp h11 with h12 | h12
  · exact absurd h12 (by decide)
  rcases List.mem_cons.mp h12 with h13 | h13
  · exact absurd h13 (by decide)
  rcases List.mem_cons.mp h13 with h14 | h14
  · exact absurd h14 (by decide)
  · exact intChars_no_brace _ h14

theorem lineOk_qrRbLine (i : ℕ) (el : QRCodeElement) (hcb : '}' ∉ el.content.getD []) :
    lineOk (qrRbLineOf i el) := by
  have hxbid : '}' ∉ xbIdOf el.id i := by
    rw [xbIdOf]
    by_cases htag : idHasTag (toChars "XB") el.id = true
    · rw [if_pos htag]
      exact idHasTag_no_brace (by decide) htag
    · rw [if_neg htag]
      intro h2
      rcases List.mem_append.mp h2 with h3 | h3
      · exact absurd h3 (by decide)
      · rcases mem_padStartCh h3 with h | h
        · exact absurd h (by decide)
        · exact (isDigit_ne_special (natToChars_all_digits _ _ h)).1 rfl
  refine lineOk_tpclCmd (by simp [rbIdFrom]) ?_
  intro hm
  rcases List.mem_append.mp hm with h1 | h1
  · rw [rbIdFrom] at h1
    revert h1
    by_cases hpre : hasPre (toChars "XB") (xbIdOf el.id i) = true
    · rw [if_pos hpre]
      intro h1
      rcases List.mem_append.mp h1 with h2 | h2
      · exact absurd h2 (by decide)
      · exact hxbid (List.mem_of_mem_drop h2)
    · rw [if_neg hpre]
      exact hxbid
  · rcases List.mem_cons.mp h1 with h2 | h2
    · exact absurd h2 (by decide)
    · exact hcb h2

theorem lineOk_lcLine (el : LineElement) : lineOk (lcLineOf el) := by
  refine lineOk_tpclCmd (by simp) ?_
  intro hm
  rcases List.mem_cons.mp hm with h1 | h1
  · exact absurd h1 (by decide)
  rcases List.mem_cons.mp h1 with h2 | h2
  · exact absurd h2 (by decide)
  rcases List.mem_cons.mp h2 with h3 | h3
  · exact absurd h3 (by decide)
  rcases List.mem_append.mp h3 with h4 | h4
  · exact padNum_no_brace _ _ h4
  rcases List.mem_cons.mp h4 with h5 | h5
  · exact absurd h5 (by decide)
  rcases List.mem_append.mp h5 with h6 | h6
  · exact padNum_no_brace _ _ h6
  rcases List.mem_cons.mp h6 with h7 | h7
  · exact absurd h7 (by decide)
  rcases List.mem_append.mp h7 with h8 | h8
  · exact padNum_no_brace _ _ h8
  rcases List.mem_cons.mp h8 with h9 | h9
  · exact absurd h9 (by decide)
  rcases List.mem_append.mp h9 with h10 | h10
  · exact padNum_no_brace _ _ h10
  rcases List.mem_cons.mp h10 with h11 | h11
  · exact absurd h11 (by decide)
  rcases List.mem_cons.mp h11 with h12 | h12
  · exact absurd h12 (by decide)
  rcases List.mem_cons.mp h12 with h13 | h13
  · exact absurd h13 (by decide)
  · exact jsNum_no_brace _ h13

theorem lineOk_xrLine (el : RectangleElement) : lineOk (xrLineOf el) := by
  refine lineOk_tpclCmd (by simp) ?_
  intro hm
  rcases List.mem_cons.mp hm with h1 | h1
  · exact absurd h1 (by decide)
  rcases List.mem_cons.mp h1 with h2 | h2
  · exact absurd h2 (by decide)
  rcases List.mem_cons.mp h2 with h3 | h3
  · exact absurd h3 (by decide)
  rcases List.mem_append.mp h3 with h4 | h4
  · exact padNum_no_brace _ _ h4
  rcases List.mem_cons.mp h4 with h5 | h5
  · exact absurd h5 (by decide)
  rcases List.mem_append.mp h5 with h6 | h6
  · exact padNum_no_brace _ _ h6
  rcases List.mem_cons.mp h6 with h7 | h7
  · exact absurd h7 (by decide)
  rcases List.mem_append.mp h7 with h8 | h8
  · exact padNum_no_brace _ _ h8
  rcases List.mem_cons.mp h8 with h9 | h9
  · exact absurd h9 (by decide)
  rcases List.mem_append.mp h9 with h10 | h10
  · exact padNum_no_brace _ _ h10
  · exact absurd h10 (by decide)

theorem lineOk_sizeLine (t : LabelTemplate) : lineOk (tpclSizeLine t) := by
  have hmm : ∀ v : Option ℚ, '\x7d' ∉ mmTimes10Chars v := by
    intro v
    match v with
    | none => decide
    | some q =>
      show '\x7d' ∉ intToChars (jsRound (qmul q COORDS_PER_MM))
      exact intChars_no_brace _
  refine lineOk_tpclCmd (by simp) ?_
  intro hm
  rcases List.mem_append.mp hm with h1 | h1
  · rcases List.mem_cons.mp h1 with h2 | h2
    · exact absurd h2 (by decide)
    rcases List.mem_append.mp h2 with h3 | h3
    · rcases mem_padStartCh h3 with h | h
      · exact absurd h (by decide)
      · exact hmm _ h
    rcases List.mem_cons.mp h3 with h4 | h4
    · exact absurd h4 (by decide)
    · rcases mem_padStartCh h4 with h | h
      · exact absurd h (by decide)
      · exact hmm _ h
  · rcases List.mem_cons.mp h1 with h2 | h2
    · exact absurd h2 (by decide)
    · rcases mem_padStartCh h2 with h | h
      · exact absurd h (by decide)
      · exact hmm _ h

theorem lineOk_xsLine (ps : Option PrintSettings) : lineOk (tpclXsLine ps) := by
  match ps with
  | none => exact lineOk_tpclCmd (by decide) (by decide)
  | some s =>
    rw [tpclXsLine]
    have hpre : toChars "XS;I," = ['X', 'S', ';', 'I', ','] := rfl
    rw [hpre]
    refine lineOk_tpclCmd (by simp) ?_
    intro hm
    rcases List.mem_cons.mp hm with h1 | h1
    · exact absurd h1 (by decide)
    rcases List.mem_cons.mp h1 with h2 | h2
    · exact absurd h2 (by decide)
    rcases List.mem_cons.mp h2 with h3 | h3
    · exact absurd h3 (by decide)
    rcases List.mem_cons.mp h3 with h4 | h4
    · exact absurd h4 (by decide)
    rcases List.mem_cons.mp h4 with h5 | h5
    · exact absurd h5 (by decide)
    rcases List.mem_append.mp h5 with h6 | h6
    · rcases mem_padStartCh h6 with h | h
      · exact absurd h (by decide)
      · exact jsNum_no_brace _ h
    · exact absurd h6 (by decide)

theorem lineOk_pcTokens (els : List LabelElement) :
    ∀ (i : ℕ), ∀ l ∈ pcTokens i els, lineOk l := by
  induction els with
  | nil => intro i l hl; simp [pcTokens] at hl
  | cons el rest ih =>
    intro i l hl
    cases el with
    | text t =>
      rw [pcTokens] at hl
      rcases List.mem_cons.mp hl with rfl | hl'
      · exact lineOk_pcLine i t
      · exact ih (i + 1) l hl'
    | barcode b => rw [pcTokens] at hl; exact ih (i + 1) l hl
    | qrcode q => rw [pcTokens] at hl; exact ih (i + 1) l hl
    | line e => rw [pcTokens] at hl; exact ih (i + 1) l hl
    | rectangle r => rw [pcTokens] at hl; exact ih (i + 1) l hl

theorem lineOk_xbTokens (els : List LabelElement) :
    ∀ (i : ℕ), (∀ el ∈ els, canonicalElemB el = true) → ∀ l ∈ xbTokens i els, lineOk l := by
  induction els with
  | nil => intro i _ l hl; simp [xbTokens] at hl
  | cons el rest ih =>
    intro i hc l hl
    have hcrest : ∀ e ∈ rest, canonicalElemB e = true :=
      fun e he => hc e (List.mem_cons_of_mem _ he)
    cases el with
    | text t => rw [xbTokens] at hl; exact ih (i + 1) hcrest l hl
    | barcode b =>
      rw [xbTokens] at hl
      rcases List.mem_cons.mp hl with rfl | hl'
      · exact lineOk_xbLine i b
      rcases List.mem_cons.mp hl' with rfl | hl2
      · exact lineOk_rbLine i b (canonicalBarcode_content (hc _ (List.mem_cons_self _ _)))
      · exact ih (i + 1) hcrest l hl2
    | qrcode q =>
      rw [xbTokens] at hl
      rcases List.mem_cons.mp hl with rfl | hl'
      · exact lineOk_qrXbLine i q (canonicalQr_ec_no_brace (hc _ (List.mem_cons_self _ _)))
      rcases List.mem_cons.mp hl' with rfl | hl2
      · exact lineOk_qrRbLine i q (canonicalQr_content (hc _ (List.mem_cons_self _ _)))
      · exact ih (i + 1) hcrest l hl2
    | line e => rw [xbTokens] at hl; exact ih (i + 1) hcrest l hl
    | rectangle r => rw [xbTokens] at hl; exact ih (i + 1) hcrest l hl

theorem lineOk_rcTokens (els : List LabelElement) :
    ∀ (i : ℕ), (∀ el ∈ els, canonicalElemB el = true) → ∀ l ∈ rcTokens i els, lineOk l := by
  induction els with
  | nil => intro i _ l hl; simp [rcTokens] at hl
  | cons el rest ih =>
    intro i hc l hl
    have hcrest : ∀ e ∈ rest, canonicalElemB e = true :=
      fun e he => hc e (List.mem_cons_of_mem _ he)
    cases el with
    | text t =>
      obtain ⟨_, _, ⟨s, hcont, hsnb⟩, _, _, _⟩ :=
        canonicalText_spec (hc _ (List.mem_cons_self _ _))
      rw [rcTokens, hcont] at hl
      rcases List.mem_cons.mp hl with rfl | hl'
      · refine lineOk_rcLine i t ?_
        rw [hcont]
        exact hsnb
      · exact ih (i + 1) hcrest l hl'
    | barcode b => rw [rcTokens] at hl; exact ih (i + 1) hcrest l hl
    | qrcode q => rw [rcTokens] at hl; exact ih (i + 1) hcrest l hl
    | line e => rw [rcTokens] at hl; exact ih (i + 1) hcrest l hl
    | rectangle r => rw [rcTokens] at hl; exact ih (i + 1) hcrest l hl

theorem lineOk_gfxTokens (els : List LabelElement) :
    ∀ l ∈ gfxTokens els, lineOk l := by
  induction els with
  | nil => intro l hl; simp [gfxTokens] at hl
  | cons el rest ih =>
    intro l hl
    cases el with
    | text t => rw [gfxTokens] at hl; exact ih l hl
    | barcode b => rw [gfxTokens] at hl; exact ih l hl
    | qrcode q => rw [gfxTokens] at hl; exact ih l hl
    | line e =>
      rw [gfxTokens] at hl
      rcases List.mem_cons.mp hl with rfl | hl'
      · exact lineOk_lcLine e
      · exact ih l hl'
    | rectangle r =>
      rw [gfxTokens] at hl
      rcases List.mem_cons.mp hl with rfl | hl'
      · exact lineOk_xrLine r
      · exact ih l hl'

theorem lineOk_generateLines (t : LabelTemplate)
    (hels : ∀ el ∈ t.elements, canonicalElemB el = true) :
    ∀ l ∈ tpclGenerateLines t, lineOk l := by
  intro l hl
  rw [tpclGenerateLines] at hl
  simp only [buckets_pc, buckets_xb, buckets_rc, buckets_gfx, List.mem_append,
    List.mem_cons, List.mem_singleton] at hl
  rcases hl with (((((rfl | rfl | rfl | rfl | h0) | h) | h) | h) | h) | rfl | h0
  · exact lineOk_tpclCmd (by decide) (by decide)
  · exact lineOk_sizeLine t
  · exact lineOk_tpclCmd (by decide) (by decide)
  · exact lineOk_tpclCmd (by decide) (by decide)
  · exact absurd h0 (List.not_mem_nil l)
  · exact lineOk_pcTokens t.elements 0 l h
  · exact lineOk_xbTokens t.elements 0 hels l h
  · exact lineOk_rcTokens t.elements 0 hels l h
  · exact lineOk_gfxTokens t.elements l h
  · exact lineOk_xsLine t.printSettings
  · exact absurd h0 (List.not_mem_nil l)

theorem canonicalB_spec {t : LabelTemplate} (h : canonicalB t = true) :
    (∃ w, t.width = some w ∧ 0 ≤ w) ∧ (∃ hq, t.height = some hq ∧ 0 ≤ hq) ∧
    (∀ el ∈ t.elements, canonicalElemB el = true) ∧
    (match t.printSettings with | none => True | some ps => ps.quantity = some 1) := by
  rw [canonicalB] at h
  simp only [Bool.and_eq_true] at h
  obtain ⟨⟨⟨hw, hh⟩, hall⟩, hps⟩ := h
  refine ⟨?_, ?_, ?_, ?_⟩
  · match hW : t.width with
    | some q =>
      rw [hW] at hw
      simp only [decide_eq_true_eq] at hw
      exact ⟨q, rfl, hw⟩
    | none => rw [hW] at hw; cases hw
  · match hH : t.height with
    | some q =>
      rw [hH] at hh
      simp only [decide_eq_true_eq] at hh
      exact ⟨q, rfl, hh⟩
    | none => rw [hH] at hh; cases hh
  · rw [List.all_eq_true] at hall
    exact hall
  · match hP : t.printSettings with
    | none => trivial
    | some ps =>
      rw [hP] at hps
      simpa using hps

theorem tpclParse_unfold (g : ℕ → JStr) (s : JStr) :
    tpclParse g s = ((tokenize s).foldlM (tpclStep g) pInit) >>= fun st =>
      .ok { name := toChars "Imported Label"
            width := st.width
            height := st.height
            elements := st.elements
            printSettings := none } := rfl

theorem exceptOk_bind {α β γ : Type} (x : α) (f : α → Except γ β) :
    ((Except.ok x : Except γ α) >>= f) = f x := rfl

theorem tpclParse_of_generate (g : ℕ → JStr) (t : LabelTemplate)
    (hcan : canonicalB t = true) :
    tpclParse g (tpclGenerate t) = .ok (tpclReparsed g t) := by
  obtain ⟨⟨w, hW, hw0⟩, ⟨hq, hH, hh0⟩, hels, _⟩ := canonicalB_spec hcan
  have htok : tokenize (tpclGenerate t) = tpclGenerateLines t := by
    rw [tpclGenerate]
    exact tokenize_join _ (lineOk_generateLines t hels)
  rw [tpclParse_unfold, htok]
  rw [tpclGenerateLines, buckets_pc, buckets_xb, buckets_rc, buckets_gfx]
  simp only [List.append_assoc, List.cons_append, List.nil_append]
  simp only [List.foldlM_cons, List.foldlM_append]
  rw [tpclStep_headerC g pInit]
  simp only [exceptOk_bind]
  rw [tpclStep_sizeLine g pInit t hW hH hw0 hh0]
  simp only [exceptOk_bind]
  rw [tpclStep_headerAX g]
  simp only [exceptOk_bind]
  rw [tpclStep_headerAY g]
  simp only [exceptOk_bind]
  rw [pcTokens_fold g t.elements 0 _ hels]
  simp only [exceptOk_bind]
  rw [xbTokens_fold g t.elements 0 _ hels]
  simp only [exceptOk_bind]
  rw [rcTokens_fold g t.elements 0 _ hels (fun j tt hj => by
    show assocFind (pcKeyOf (0 + j)) ((pcEntries 0 t.elements).reverse ++ []) =
      some (parsedTextDef (0 + j) tt)
    exact assocFind_append_left _ (pcEntries_lookup t.elements 0 j tt hj))]
  simp only [exceptOk_bind]
  rw [gfxTokens_fold g t.elements _ hels]
  simp only [exceptOk_bind]
  rw [tpclStep_xs g _ t.printSettings]
  simp only [exceptOk_bind, List.foldlM_nil]
  rw [tpclReparsed, parsedDim, hW, hH]
  rfl

theorem pcTokens_barElems (E : List LabelElement) :
    ∀ i j, pcTokens j (barElems i E) = [] := by
  induction E with
  | nil => intro i j; rfl
  | cons el rest ih =>
    intro i j
    cases el with
    | text t => rw [barElems]; exact ih (i + 1) j
    | barcode b => rw [barElems, pcTokens]; exact ih (i + 1) (j + 1)
    | qrcode q => rw [barElems, pcTokens]; exact ih (i + 1) (j + 1)
    | line e => rw [barElems]; exact ih (i + 1) j
    | rectangle r => rw [barElems]; exact ih (i + 1) j

theorem pcTokens_gfxElems (g : ℕ → JStr) (E : List LabelElement) :
    ∀ c j, pcTokens j (gfxElems g c E) = [] := by
  induction E with
  | nil => intro c j; rfl
  | cons el rest ih =>
    intro c j
    cases el with
    | text t => rw [gfxElems]; exact ih c j
    | barcode b => rw [gfxElems]; exact ih c j
    | qrcode q => rw [gfxElems]; exact ih c j
    | line e => rw [gfxElems, pcTokens]; exact ih (c + 1) (j + 1)
    | rectangle r => rw [gfxElems, pcTokens]; exact ih (c + 1) (j + 1)

theorem xbTokens_gfxElems (g : ℕ → JStr) (E : List LabelElement) :
    ∀ c j, xbTokens j (gfxElems g c E) = [] := by
  induction E with
  | nil => intro c j; rfl
  | cons el rest ih =>
    intro c j
    cases el with
    | text t => rw [gfxElems]; exact ih c j
    | barcode b => rw [gfxElems]; exact ih c j
    | qrcode q => rw [gfxElems]; exact ih c j
    | line e => rw [gfxElems, xbTokens]; exact ih (c + 1) (j + 1)
    | rectangle r => rw [gfxElems, xbTokens]; exact ih (c + 1) (j + 1)

theorem rcTokens_barElems (E : List LabelElement) :
    ∀ i j, rcTokens j (barElems i E) = [] := by
  induction E with
  | nil => intro i j; rfl
  | cons el rest ih =>
    intro i j
    cases el with
    | text t => rw [barElems]; exact ih (i + 1) j
    | barcode b => rw [barElems, rcTokens]; exact ih (i + 1) (j + 1)
    | qrcode q => rw [barElems, rcTokens]; exact ih (i + 1) (j + 1)
    | line e => rw [barElems]; exact ih (i + 1) j
    | rectangle r => rw [barElems]; exact ih (i + 1) j

theorem rcTokens_gfxElems (g : ℕ → JStr) (E : List LabelElement) :
    ∀ c j, rcTokens j (gfxElems g c E) = [] := by
  induction E with
  | nil => intro c j; rfl
  | cons el rest ih =>
    intro c j
    cases el with
    | text t => rw [gfxElems]; exact ih c j
    | barcode b => rw [gfxElems]; exact ih c j
    | qrcode q => rw [gfxElems]; exact ih c j
    | line e => rw [gfxElems, rcTokens]; exact ih (c + 1) (j + 1)
    | rectangle r => rw [gfxElems, rcTokens]; exact ih (c + 1) (j + 1)

theorem gfxTokens_barElems (E : List LabelElement) :
    ∀ i, gfxTokens (barElems i E) = [] := by
  induction E with
  | nil => intro i; rfl
  | cons el rest ih =>
    intro i
    cases el with
    | text t => rw [barElems]; exact ih (i + 1)
    | barcode b => rw [barElems, gfxTokens]; exact ih (i + 1)
    | qrcode q => rw [barElems, gfxTokens]; exact ih (i + 1)
    | line e => rw [barElems]; exact ih (i + 1)
    | rectangle r => rw [barElems]; exact ih (i + 1)

theorem gfxTokens_textElems (E : List LabelElement) :
    ∀ i, gfxTokens (textElems i E) = [] := by
  induction E with
  | nil => intro i; rfl
  | cons el rest ih =>
    intro i
    cases el with
    | text t =>
      rw [textElems]
      match t.content with
      | some s =>
        rw [List.cons_append, List.nil_append, gfxTokens]
        exact ih (i + 1)
      | none =>
        rw [List.nil_append]
        exact ih (i + 1)
    | barcode b => rw [textElems]; exact ih (i + 1)
    | qrcode q => rw [textElems]; exact ih (i + 1)
    | line e => rw [textElems]; exact ih (i + 1)
    | rectangle r => rw [textElems]; exact ih (i + 1)

theorem xbTokens_textElems (E : List LabelElement) :
    ∀ i j, xbTokens j (textElems i E) = [] := by
  induction E with
  | nil => intro i j; rfl
  | cons el rest ih =>
    intro i j
    cases el with
    | text t =>
      rw [textElems]
      match t.content with
      | some s =>
        rw [List.cons_append, List.nil_append, xbTokens]
        exact ih (i + 1) (j + 1)
      | none => rw [List.nil_append]; exact ih (i + 1) j
    | barcode b => rw [textElems]; exact ih (i + 1) j
    | qrcode q => rw [textElems]; exact ih (i + 1) j
    | line e => rw [textElems]; exact ih (i + 1) j
    | rectangle r => rw [textElems]; exact ih (i + 1) j

theorem pcTokens_append (A : List LabelElement) :
    ∀ (B : List LabelElement) (j : ℕ),
    pcTokens j (A ++ B) = pcTokens j A ++ pcTokens (j + A.length) B := by
  induction A with
  | nil => intro B j; simp [pcTokens]
  | cons el rest ih =>
    intro B j
    cases el with
    | text t =>
      rw [List.cons_append, pcTokens, pcTokens, ih B (j + 1), List.cons_append]
      rw [List.length_cons]
      have hl : j + (rest.length + 1) = j + 1 + rest.length := by omega
      rw [hl]
    | barcode b =>
      rw [List.cons_append, pcTokens, pcTokens, ih B (j + 1)]
      rw [List.length_cons]
      have hl : j + (rest.length + 1) = j + 1 + rest.length := by omega
      rw [hl]
    | qrcode q =>
      rw [List.cons_append, pcTokens, pcTokens, ih B (j + 1)]
      rw [List.length_cons]
      have hl : j + (rest.length + 1) = j + 1 + rest.length := by omega
      rw [hl]
    | line e =>
      rw [List.cons_append, pcTokens, pcTokens, ih B (j + 1)]
      rw [List.length_cons]
      have hl : j + (rest.length + 1) = j + 1 + rest.length := by omega
      rw [hl]
    | rectangle r =>
      rw [List.cons_append, pcTokens, pcTokens, ih B (j + 1)]
      rw [List.length_cons]
      have hl : j + (rest.length + 1) = j + 1 + rest.length := by omega
      rw [hl]

theorem xbTokens_append (A : List LabelElement) :
    ∀ (B : List LabelElement) (j : ℕ),
    xbTokens j (A ++ B) = xbTokens j A ++ xbTokens (j + A.length) B := by
  induction A with
  | nil => intro B j; simp [xbTokens]
  | cons el rest ih =>
    intro B j
    cases el with
    | text t =>
      rw [List.cons_append, xbTokens, xbTokens, ih B (j + 1)]
      rw [List.length_cons]
      have hl : j + (rest.length + 1) = j + 1 + rest.length := by omega
      rw [hl]
    | barcode b =>
      rw [List.cons_append, xbTokens, xbTokens, ih B (j + 1), List.cons_append,
        List.cons_append]
      rw [List.length_cons]
      have hl : j + (rest.length + 1) = j + 1 + rest.length := by omega
      rw [hl]
    | qrcode q =>
      rw [List.cons_append, xbTokens, xbTokens, ih B (j + 1), List.cons_append,
        List.cons_append]
      rw [List.length_cons]
      have hl : j + (rest.length + 1) = j + 1 + rest.length := by omega
      rw [hl]
    | line e =>
      rw [List.cons_append, xbTokens, xbTokens, ih B (j + 1)]
      rw [List.length_cons]
      have hl : j + (rest.length + 1) = j + 1 + rest.length := by omega
      rw [hl]
    | rectangle r =>
      rw [List.cons_append, xbTokens, xbTokens, ih B (j + 1)]
      rw [List.length_cons]
      have hl : j + (rest.length + 1) = j + 1 + rest.length := by omega
      rw [hl]

theorem rcTokens_append (A : List LabelElement) :
    ∀ (B : List LabelElement) (j : ℕ),
    rcTokens j (A ++ B) = rcTokens j A ++ rcTokens (j + A.length) B := by
  induction A with
  | nil => intro B j; simp [rcTokens]
  | cons el rest ih =>
    intro B j
    cases el with
    | text t =>
      rw [List.cons_append, rcTokens, rcTokens, ih B (j + 1), List.append_assoc]
      rw [List.length_cons]
      have hl : j + (rest.length + 1) = j + 1 + rest.length := by omega
      rw [hl]
    | barcode b =>
      rw [List.cons_append, rcTokens, rcTokens, ih B (j + 1)]
      rw [List.length_cons]
      have hl : j + (rest.length + 1) = j + 1 + rest.length := by omega
      rw [hl]
    | qrcode q =>
      rw [List.cons_append, rcTokens, rcTokens, ih B (j + 1)]
      rw [List.length_cons]
      have hl : j + (rest.length + 1) = j + 1 + rest.length := by omega
      rw [hl]
    | line e =>
      rw [List.cons_append, rcTokens, rcTokens, ih B (j + 1)]
      rw [List.length_cons]
      have hl : j + (rest.length + 1) = j + 1 + rest.length := by omega
      rw [hl]
    | rectangle r =>
      rw [List.cons_append, rcTokens, rcTokens, ih B (j + 1)]
      rw [List.length_cons]
      have hl : j + (rest.length + 1) = j + 1 + rest.length := by omega
      rw [hl]

theorem gfxTokens_append (A B : List LabelElement) :
    gfxTokens (A ++ B) = gfxTokens A ++ gfxTokens B := by
  induction A with
  | nil => simp [gfxTokens]
  | cons el rest ih =>
    cases el with
    | text t => rw [List.cons_append, gfxTokens, gfxTokens, ih]
    | barcode b => rw [List.cons_append, gfxTokens, gfxTokens, ih]
    | qrcode q => rw [List.cons_append, gfxTokens, gfxTokens, ih]
    | line e => rw [List.cons_append, gfxTokens, gfxTokens, ih, List.cons_append]
    | rectangle r => rw [List.cons_append, gfxTokens, gfxTokens, ih, List.cons_append]

theorem pcTokens_textElems (E : List LabelElement) :
    ∀ i j, (∀ el ∈ E, canonicalElemB el = true) →
    pcTokens j (textElems i E) = pcTokens i E := by
  induction E with
  | nil => intro i j _; rfl
  | cons el rest ih =>
    intro i j hc
    have hcrest : ∀ e ∈ rest, canonicalElemB e = true :=
      fun e he => hc e (List.mem_cons_of_mem _ he)
    cases el with
    | text t =>
      obtain ⟨_, _, ⟨s, hcont, _⟩, hwd, hhd, hid⟩ :=
        canonicalText_spec (hc _ (List.mem_cons_self _ _))
      rw [textElems, hcont, List.cons_append, List.nil_append, pcTokens, pcTokens]
      rw [pcLineOf_regen i j t hid hwd hhd, ih (i + 1) (j + 1) hcrest]
    | barcode b => rw [textElems, pcTokens]; exact ih (i + 1) j hcrest
    | qrcode q => rw [textElems, pcTokens]; exact ih (i + 1) j hcrest
    | line e => rw [textElems, pcTokens]; exact ih (i + 1) j hcrest
    | rectangle r => rw [textElems, pcTokens]; exact ih (i + 1) j hcrest

theorem rcTokens_textElems (E : List LabelElement) :
    ∀ i j, (∀ el ∈ E, canonicalElemB el = true) →
    rcTokens j (textElems i E) = rcTokens i E := by
  induction E with
  | nil => intro i j _; rfl
  | cons el rest ih =>
    intro i j hc
    have hcrest : ∀ e ∈ rest, canonicalElemB e = true :=
      fun e he => hc e (List.mem_cons_of_mem _ he)
    cases el with
    | text t =>
      obtain ⟨_, _, ⟨s, hcont, _⟩, _, _, hid⟩ :=
        canonicalText_spec (hc _ (List.mem_cons_self _ _))
      rw [textElems, hcont, List.cons_append, List.nil_append, rcTokens, rcTokens, hcont]
      rw [show (parsedTextElem i t).content = some (t.content.getD []) from rfl]
      rw [rcLineOf_regen i j t hid, ih (i + 1) (j + 1) hcrest]
    | barcode b => rw [textElems, rcTokens]; exact ih (i + 1) j hcrest
    | qrcode q => rw [textElems, rcTokens]; exact ih (i + 1) j hcrest
    | line e => rw [textElems, rcTokens]; exact ih (i + 1) j hcrest
    | rectangle r => rw [textElems, rcTokens]; exact ih (i + 1) j hcrest

theorem xbTokens_barElems (E : List LabelElement) :
    ∀ i j, (∀ el ∈ E, canonicalElemB el = true) →
    xbTokens j (barElems i E) = xbTokens i E := by
  induction E with
  | nil => intro i j _; rfl
  | cons el rest ih =>
    intro i j hc
    have hcrest : ∀ e ∈ rest, canonicalElemB e = true :=
      fun e he => hc e (List.mem_cons_of_mem _ he)
    cases el with
    | text t => rw [barElems, xbTokens]; exact ih (i + 1) j hcrest
    | barcode b =>
      obtain ⟨_, _, _, hid⟩ := canonicalBarcode_spec (hc _ (List.mem_cons_self _ _))
      rw [barElems, xbTokens, xbTokens]
      rw [xbLineOf_regen i j b hid, rbLineOf_regen i j b hid, ih (i + 1) (j + 1) hcrest]
    | qrcode q =>
      obtain ⟨_, _, _, hid⟩ := canonicalQr_spec (hc _ (List.mem_cons_self _ _))
      rw [barElems, xbTokens, xbTokens]
      rw [qrXbLineOf_regen i j q hid, qrRbLineOf_regen i j q hid, ih (i + 1) (j + 1) hcrest]
    | line e => rw [barElems, xbTokens]; exact ih (i + 1) j hcrest
    | rectangle r => rw [barElems, xbTokens]; exact ih (i + 1) j hcrest

theorem gfxTokens_gfxElems (g : ℕ → JStr) (E : List LabelElement) :
    ∀ c, gfxTokens (gfxElems g c E) = gfxTokens E := by
  induction E with
  | nil => intro c; rfl
  | cons el rest ih =>
    intro c
    cases el with
    | text t => rw [gfxElems, gfxTokens]; exact ih c
    | barcode b => rw [gfxElems, gfxTokens]; exact ih c
    | qrcode q => rw [gfxElems, gfxTokens]; exact ih c
    | line e =>
      rw [gfxElems, gfxTokens, gfxTokens, lcLineOf_regen (g c) e, ih (c + 1)]
    | rectangle r =>
      rw [gfxElems, gfxTokens, gfxTokens, xrLineOf_regen (g c) r, ih (c + 1)]

theorem tpclSizeLine_reparsed (g : ℕ → JStr) (t : LabelTemplate) {w hq : ℚ}
    (hW : t.width = some w) (hH : t.height = some hq) :
    tpclSizeLine (tpclReparsed g t) = tpclSizeLine t := by
  have hW2 : (tpclReparsed g t).width =
      some (Rat.divInt (jsRound (qmul w COORDS_PER_MM)) 10) := by
    show parsedDim t.width = _
    rw [parsedDim, hW]
    rfl
  have hH2 : (tpclReparsed g t).height =
      some (Rat.divInt (jsRound (qmul hq COORDS_PER_MM)) 10) := by
    show parsedDim t.height = _
    rw [parsedDim, hH]
    rfl
  rw [tpclSizeLine, tpclSizeLine, hW2, hH2, hW, hH]
  rw [show (some (Rat.divInt (jsRound (qmul hq COORDS_PER_MM)) 10)).map (fun h => qsub h 3) =
    some (qsub (Rat.divInt (jsRound (qmul hq COORDS_PER_MM)) 10) 3) from rfl]
  rw [show (some hq).map (fun h => qsub h 3) = some (qsub hq 3) from rfl]
  simp only [mmTimes10Chars]
  rw [roundMul10_divInt, roundMul10_divInt, effLen_divInt, roundSub3Mul10]

theorem tpclGenerate_reparsed (g : ℕ → JStr) (t : LabelTemplate)
    (hcan : canonicalB t = true) :
    tpclGenerate (tpclReparsed g t) = tpclGenerate t := by
  obtain ⟨⟨w, hW, hw0⟩, ⟨hq, hH, hh0⟩, hels, hps⟩ := canonicalB_spec hcan
  have hlines : tpclGenerateLines (tpclReparsed g t) = tpclGenerateLines t := by
    rw [tpclGenerateLines, tpclGenerateLines]
    rw [buckets_pc, buckets_xb, buckets_rc, buckets_gfx,
      buckets_pc, buckets_xb, buckets_rc, buckets_gfx]
    have hE : (tpclReparsed g t).elements =
        (barElems 0 t.elements ++ textElems 0 t.elements) ++ gfxElems g 0 t.elements := rfl
    have hpc : pcTokens 0 (tpclReparsed g t).elements = pcTokens 0 t.elements := by
      rw [hE, pcTokens_append, pcTokens_append, pcTokens_barElems, pcTokens_gfxElems]
      rw [List.nil_append, List.append_nil]
      exact pcTokens_textElems t.elements 0 _ hels
    have hxb : xbTokens 0 (tpclReparsed g t).elements = xbTokens 0 t.elements := by
      rw [hE, xbTokens_append, xbTokens_append, xbTokens_textElems, xbTokens_gfxElems]
      rw [List.append_nil, List.append_nil]
      exact xbTokens_barElems t.elements 0 _ hels
    have hrc : rcTokens 0 (tpclReparsed g t).elements = rcTokens 0 t.elements := by
      rw [hE, rcTokens_append, rcTokens_append, rcTokens_barElems, rcTokens_gfxElems]
      rw [List.nil_append, List.append_nil]
      exact rcTokens_textElems t.elements 0 _ hels
    have hgfx : gfxTokens (tpclReparsed g t).elements = gfxTokens t.elements := by
      rw [hE, gfxTokens_append, gfxTokens_append, gfxTokens_barElems, gfxTokens_textElems]
      rw [List.nil_append, List.nil_append]
      exact gfxTokens_gfxElems g t.elements 0
    have hxs : tpclXsLine (tpclReparsed g t).printSettings =
        tpclXsLine t.printSettings := by
      rw [show (tpclReparsed g t).printSettings = none from rfl]
      match hP : t.printSettings with
      | none => rfl
      | some ps =>
        rw [hP] at hps
        exact (tpclXsLine_canonical hps).symm
    rw [hpc, hxb, hrc, hgfx, hxs, tpclSizeLine_reparsed g t hW hH]
  rw [tpclGenerate, tpclGenerate, hlines]

/-- C4: for a template whose numeric fields hold canonical rounded/clamped
values, re-encoding through TPCL parse is idempotent on the generated
payload.  Corrected: this holds when the print quantity is 1 (or settings
are absent) — an explicit quantity of 2 is re-encoded as `0001` because
parse returns no print settings, so the original claim's `quantity ≥ 1` is
too permissive. -/
theorem tpcl_reencode_idempotent (g : ℕ → JStr) (t : LabelTemplate)
    (hcan : canonicalB t = true) :
    ∃ t', tpclParse g (tpclGenerate t) = .ok t' ∧ tpclGenerate t' = tpclGenerate t :=
  ⟨tpclReparsed g t, tpclParse_of_generate g t hcan, tpclGenerate_reparsed g t hcan⟩

theorem tpcl_reencode_idempotent_witness :
    canonicalB richTemplate = true ∧
    ∃ t', tpclParse cexGid (tpclGenerate richTemplate) = .ok t' ∧
      tpclGenerate t' = tpclGenerate richTemplate :=
  ⟨by decide, tpcl_reencode_idempotent cexGid richTemplate (by decide)⟩

theorem tpcl_reencode_qty2_counterexample :
    tpclParse cexGid (tpclGenerate qty2Template) = .ok (tpclReparsed cexGid qty2Template) ∧
    tpclGenerate (tpclReparsed cexGid qty2Template) ≠ tpclGenerate qty2Template := by
  constructor
  · decide
  · decide

theorem firstMax3 {α : Type} (f : α → ℤ) (dflt x y z : α) :
    some (([x, y, z].foldl
      (fun acc cand =>
        match acc.2 with
        | none => (cand, some (f cand))
        | some bestScore => if bestScore < f cand then (cand, some (f cand)) else acc)
      (dflt, (none : Option ℤ))).1) =
    [x, y, z].find? (fun c => [x, y, z].all (fun e => decide (f e ≤ f c))) := by
  by_cases hxy : f x < f y
  · by_cases hyz : f y < f z
    · rw [show [x, y, z].find? (fun c => [x, y, z].all (fun e => decide (f e ≤ f c))) =
          some z from by
        rw [List.find?_cons_of_neg _ (by simp; omega), List.find?_cons_of_neg _ (by simp; omega),
          List.find?_cons_of_pos _ (by simp; omega)]]
      simp [hxy, hyz]
    · rw [show [x, y, z].find? (fun c => [x, y, z].all (fun e => decide (f e ≤ f c))) =
          some y from by
        rw [List.find?_cons_of_neg _ (by simp; omega),
          List.find?_cons_of_pos _ (by simp; omega)]]
      simp [hxy, hyz]
  · by_cases hxz : f x < f z
    · rw [show [x, y, z].find? (fun c => [x, y, z].all (fun e => decide (f e ≤ f c))) =
          some z from by
        rw [List.find?_cons_of_neg _ (by simp; omega), List.find?_cons_of_neg _ (by simp; omega),
          List.find?_cons_of_pos _ (by simp; omega)]]
      simp [hxy, hxz]
    · rw [show [x, y, z].find? (fun c => [x, y, z].all (fun e => decide (f e ≤ f c))) =
          some x from by
        rw [List.find?_cons_of_pos _ (by simp; omega)]]
      simp [hxy, hxz]

/-- C2: a Protocol B payload with page width 816 dots and length 1218 dots
and no explicit resolution infers the configured default resolution
(203 DPI, 8 dots/mm) over the 300 and 600 DPI candidates, and in general
the selection fold adopts the first candidate in enumeration order among
the top-scoring ones. -/
theorem zpl_infer_default_dpi :
    (zplParse cexGid (toChars "^XA^PW816^LL1218^XZ")).printSettings.map
        (fun ps => ps.zplDotsPerMm) = some (some DOTS_PER_MM) ∧
    inferDotsPerMmZ 816 1218 [] = DOTS_PER_MM ∧
    inferDotsPerMmDpi 816 1218 [] = qdiv DEFAULT_DPI (Rat.divInt 254 10) ∧
    ∀ (w h : ℚ) (typ : Option ℤ) (dflt c1 c2 c3 : ℚ),
      some (selectCand w h typ dflt [c1, c2, c3]) = specFirstMaxCand w h typ [c1, c2, c3] := by
  refine ⟨by decide, by decide, by decide, ?_⟩
  intro w h typ dflt c1 c2 c3
  exact firstMax3 (fun c => scoreCand c w h typ) dflt c1 c2 c3

/-- C1: the 100mm x 150mm template with the single `Hello` text field
(10pt helvetica, x = 253, y = 355 tenths of a millimetre) generates exactly
the documented command lines, including the size command `D1500,1000,1470`,
a `PC000` definition with x field `0253` and y field `0355`, and the
`RC000;Hello` data command. -/
theorem tpcl_generate_hello_lines :
    tpclGenerateLines helloTemplate =
      [toChars "\x7bC|\x7d", toChars "\x7bD1500,1000,1470|\x7d",
       toChars "\x7bAX;+000,+000,+00|\x7d", toChars "\x7bAY;+10,0|\x7d",
       toChars "\x7bPC000;0253,0355,10,10,H,00,B|\x7d",
       toChars "\x7bRC000;Hello|\x7d",
       toChars "\x7bXS;I,0001,0002C52200|\x7d"] := by decide

/-- C3: for the two-element list [barcode, text] — in either input order —
every `PC`/`XB` definition command of the generated stream occurs before
every `RC`/`RB` data command. -/
theorem tpcl_defs_before_data :
    defsBeforeData (tpclGenerateLines btTemplate) ∧
    defsBeforeData (tpclGenerateLines tbTemplate) := by
  constructor <;> · rw [defsBeforeData]; decide

/-- C5: out-of-range numeric inputs to generate are clamped, never
rejected: a QR size input of 25 encodes as `20`, a barcode rotation input
of 7 encodes as `3`, and a text magnification input of 150 encodes as
`99`.  Corrected: a *text* rotation input of 7 is not clamped — it is
zero-padded to `07` — so the original claim's "a rotation input of 7
encodes as 3" holds only for barcode and QR rotations. -/
theorem tpcl_clamped_encodings :
    (tpclGenerateLines qr25Template)[4]? =
      some (toChars "\x7bXB00;0000,0000,T,H,20,A,0|\x7d") ∧
    (tpclGenerateLines bar7Template)[4]? =
      some (toChars "\x7bXB00;0000,0000,9,3,02,3,0100,+0000000000,000,0,00|\x7d") ∧
    (tpclGenerateLines mag150Template)[4]? =
      some (toChars "\x7bPC000;0000,0000,99,99,G,00,B|\x7d") := by
  refine ⟨by decide, by decide, by decide⟩

theorem tpcl_text_rotation_unclamped :
    (tpclGenerateLines rot7Template)[4]? =
      some (toChars "\x7bPC000;0000,0000,10,10,G,07,B|\x7d") := by decide

/-- C7: the spec says a tokenized command that does not match the expected
shape (such as `\x7bLC\x7d` with no parameter section) is dropped silently;
in the code, the `LC` handler reads `parts[1].split(',')` and `parts[1]` is
`undefined` for such a token, so parse throws a TypeError instead of
returning a template. -/
theorem tpcl_malformed_lc_typeerror :
    ∀ g : ℕ → JStr, tpclParse g (toChars "\x7bLC\x7d") = .error .typeError :=
  fun _ => rfl

theorem pcIdOf_shape (id : JStr) (i : ℕ) : ∃ r, pcIdOf id i = 'P' :: 'C' :: r := by
  rw [pcIdOf]
  by_cases htag : idHasTag (toChars "PC") id = true
  · rw [if_pos htag]
    rw [idHasTag, Bool.and_eq_true] at htag
    obtain ⟨r, hr⟩ := (hasPre_iff_append _ _).mp htag.1
    exact ⟨r, hr⟩
  · rw [if_neg htag]
    exact ⟨padStartCh (natToChars i) 3 '0', rfl⟩

/-- C6: a text element with no content property generates a `PC` definition
command and no `RC` data command, while a text element with a defined
content — including the empty string — generates both the definition and
the data command. -/
theorem tpcl_rc_iff_content (el : TextElement) :
    ((tpclGenerateLines (textOnlyTemplate el)).filter isPcLine).length = 1 ∧
    ((tpclGenerateLines (textOnlyTemplate el)).filter isRcLine).length =
      (match el.content with | some _ => 1 | none => 0) := by
  obtain ⟨r, hr⟩ := pcIdOf_shape el.id 0
  have hrc : rcIdFrom (pcIdOf el.id 0) = 'R' :: 'C' :: r := by
    rw [hr, rcIdFrom, if_pos (by rfl)]
    rfl
  have h1 : isPcLine (pcLineOf 0 el) = true := by rw [pcLineOf, hr]; rfl
  have h2 : isRcLine (pcLineOf 0 el) = false := by rw [pcLineOf, hr]; rfl
  have h3 : isRcLine (rcLineOf 0 el) = true := by rw [rcLineOf, hrc]; rfl
  have h4 : isPcLine (rcLineOf 0 el) = false := by rw [rcLineOf, hrc]; rfl
  have hlines : tpclGenerateLines (textOnlyTemplate el) =
      tpclCmd (toChars "C") :: tpclSizeLine (textOnlyTemplate el) ::
      tpclCmd (toChars "AX;+000,+000,+00") :: tpclCmd (toChars "AY;+10,0") ::
      pcLineOf 0 el ::
      (((match el.content with
         | some _ => [rcLineOf 0 el]
         | none => []) ++ []) ++ [tpclXsLine none]) := by
    rw [tpclGenerateLines, buckets_pc, buckets_xb, buckets_rc, buckets_gfx]
    rw [show pcTokens 0 (textOnlyTemplate el).elements = [pcLineOf 0 el] from rfl]
    rw [show xbTokens 0 (textOnlyTemplate el).elements = [] from rfl]
    rw [show gfxTokens (textOnlyTemplate el).elements = [] from rfl]
    rw [show rcTokens 0 (textOnlyTemplate el).elements =
      ((match el.content with
        | some _ => [rcLineOf 0 el]
        | none => []) ++ []) from rfl]
    rw [show (textOnlyTemplate el).printSettings = none from rfl]
    simp
  rw [hlines]
  match hcont : el.content with
  | some s =>
    simp only [List.append_nil, List.cons_append, List.nil_append]
    simp only [List.filter_cons, h1, h2, h3, h4,
      show isPcLine (tpclCmd (toChars "C")) = false from rfl,
      show isRcLine (tpclCmd (toChars "C")) = false from rfl,
      show isPcLine (tpclSizeLine (textOnlyTemplate el)) = false from rfl,
      show isRcLine (tpclSizeLine (textOnlyTemplate el)) = false from rfl,
      show isPcLine (tpclCmd (toChars "AX;+000,+000,+00")) = false from rfl,
      show isRcLine (tpclCmd (toChars "AX;+000,+000,+00")) = false from rfl,
      show isPcLine (tpclCmd (toChars "AY;+10,0")) = false from rfl,
      show isRcLine (tpclCmd (toChars "AY;+10,0")) = false from rfl,
      show isPcLine (tpclXsLine none) = false from rfl,
      show isRcLine (tpclXsLine none) = false from rfl]
    simp
  | none =>
    simp only [List.append_nil, List.cons_append, List.nil_append]
    simp only [List.filter_cons, h1, h2, h3, h4,
      show isPcLine (tpclCmd (toChars "C")) = false from rfl,
      show isRcLine (tpclCmd (toChars "C")) = false from rfl,
      show isPcLine (tpclSizeLine (textOnlyTemplate el)) = false from rfl,
      show isRcLine (tpclSizeLine (textOnlyTemplate el)) = false from rfl,
      show isPcLine (tpclCmd (toChars "AX;+000,+000,+00")) = false from rfl,
      show isRcLine (tpclCmd (toChars "AX;+000,+000,+00")) = false from rfl,
      show isPcLine (tpclCmd (toChars "AY;+10,0")) = false from rfl,
      show isRcLine (tpclCmd (toChars "AY;+10,0")) = false from rfl,
      show isPcLine (tpclXsLine none) = false from rfl,
      show isRcLine (tpclXsLine none) = false from rfl]
    simp

theorem tpclStep_erased (g1 g2 : ℕ → JStr) (tok : JStr) (st1 st2 : PState)
    (h : pstateIdErased st1 = pstateIdErased st2) :
    (tpclStep g1 st1 tok).map pstateIdErased = (tpclStep g2 st2 tok).map pstateIdErased := by
  obtain ⟨w1, h1, td1, bd1, el1, c1⟩ := st1
  obtain ⟨w2, h2, td2, bd2, el2, c2⟩ := st2
  rw [pstateIdErased, pstateIdErased] at h
  injection h with hw hh htd hbd hel hc
  dsimp only at hw hh htd hbd hel hc
  subst hw
  subst hh
  subst htd
  subst hbd
  subst hc
  simp only [tpclStep]
  by_cases hA : (hasPre (toChars "D") (cleanOf tok) &&
      decide ((splitCh ';' (cleanOf tok)).length = 1)) = true
  · simp only [if_pos hA]
    by_cases hB : 2 ≤ (splitCh ',' ((cleanOf tok).drop 1)).length
    · simp only [if_pos hB, Except.map, pstateIdErased]
      rw [hel]
    · simp only [if_neg hB, Except.map, pstateIdErased]
      rw [hel]
  · simp only [if_neg hA]
    by_cases hC : (decide ((splitCh ';' (cleanOf tok)).headD [] = toChars "D") &&
        decide (1 < (splitCh ';' (cleanOf tok)).length)) = true
    · simp only [if_pos hC]
      by_cases hD : 2 ≤ (splitCh ',' ((splitCh ';' (cleanOf tok)).getD 1 [])).length
      · simp only [if_pos hD, Except.map, pstateIdErased]
        rw [hel]
      · simp only [if_neg hD, Except.map, pstateIdErased]
        rw [hel]
    · simp only [if_neg hC]
      by_cases hE : (splitCh ';' (cleanOf tok)).headD [] = toChars "LC"
      · simp only [if_pos hE]
        cases hp : (splitCh ';' (cleanOf tok))[1]? with
        | none => simp only [hp, Except.map]
        | some p1 =>
          simp only [hp]
          by_cases hF : 6 ≤ (splitCh ',' p1).length
          · simp only [if_pos hF, Except.map, pstateIdErased, List.map_append,
              List.map_cons, List.map_nil, eraseElemId]
            rw [hel]
          · simp only [if_neg hF, Except.map, pstateIdErased]
            rw [hel]
      · simp only [if_neg hE]
        by_cases hG : (splitCh ';' (cleanOf tok)).headD [] = toChars "XR"
        · simp only [if_pos hG]
          cases hp : (splitCh ';' (cleanOf tok))[1]? with
          | none => simp only [hp, Except.map]
          | some p1 =>
            simp only [hp]
            by_cases hH : 5 ≤ (splitCh ',' p1).length
            · simp only [if_pos hH, Except.map, pstateIdErased, List.map_append,
                List.map_cons, List.map_nil, eraseElemId]
              rw [hel]
            · simp only [if_neg hH, Except.map, pstateIdErased]
              rw [hel]
        · simp only [if_neg hG]
          by_cases hI : hasPre (toChars "PC") ((splitCh ';' (cleanOf tok)).headD []) = true
          · simp only [if_pos hI]
            cases hp : (splitCh ';' (cleanOf tok))[1]? with
            | none => simp only [hp, Except.map]
            | some p1 =>
              simp only [hp, Except.map, pstateIdErased]
              rw [hel]
          · simp only [if_neg hI]
            by_cases hJ : hasPre (toChars "RC") ((splitCh ';' (cleanOf tok)).headD []) = true
            · simp only [if_pos hJ]
              cases hd : assocFind (toChars "PC" ++
                  ((splitCh ';' (cleanOf tok)).headD []).drop 2) td1 with
              | none =>
                simp only [hd, Except.map, pstateIdErased]
                rw [hel]
              | some d =>
                simp only [hd, Except.map, pstateIdErased, List.map_append,
                  List.map_cons, List.map_nil, eraseElemId]
                rw [hel]
            · simp only [if_neg hJ]
              by_cases hK : hasPre (toChars "XB") ((splitCh ';' (cleanOf tok)).headD []) = true
              · simp only [if_pos hK]
                cases hp : (splitCh ';' (cleanOf tok))[1]? with
                | none => simp only [hp, Except.map]
                | some p1 =>
                  simp only [hp, Except.map, pstateIdErased]
                  rw [hel]
              · simp only [if_neg hK]
                by_cases hL : hasPre (toChars "RB") ((splitCh ';' (cleanOf tok)).headD []) = true
                · simp only [if_pos hL]
                  cases hd : assocFind (toChars "XB" ++
                      ((splitCh ';' (cleanOf tok)).headD []).drop 2) bd1 with
                  | none =>
                    simp only [hd, Except.map, pstateIdErased]
                    rw [hel]
                  | some params =>
                    simp only [hd]
                    by_cases hM : ((decide (params.length = 7)) &&
                        decide (params[2]? = some (toChars "T"))) = true
                    · simp only [if_pos hM, Except.map, pstateIdErased, List.map_append,
                        List.map_cons, List.map_nil, eraseElemId]
                      rw [hel]
                    · simp only [if_neg hM, Except.map, pstateIdErased, List.map_append,
                        List.map_cons, List.map_nil, eraseElemId]
                      rw [hel]
                · simp only [if_neg hL, Except.map, pstateIdErased]
                  rw [hel]

theorem foldlM_tpclStep_erased (toks : List JStr) :
    ∀ (g1 g2 : ℕ → JStr) (st1 st2 : PState), pstateIdErased st1 = pstateIdErased st2 →
    (toks.foldlM (tpclStep g1) st1).map pstateIdErased =
      (toks.foldlM (tpclStep g2) st2).map pstateIdErased := by
  induction toks with
  | nil =>
    intro g1 g2 st1 st2 h
    simp only [List.foldlM_nil]
    exact congrArg Except.ok h
  | cons tok rest ih =>
    intro g1 g2 st1 st2 h
    simp only [List.foldlM_cons]
    have hstep := tpclStep_erased g1 g2 tok st1 st2 h
    cases h1 : tpclStep g1 st1 tok with
    | error e1 =>
      cases h2 : tpclStep g2 st2 tok with
      | error e2 => cases e1; cases e2; rfl
      | ok s2 =>
        rw [h1, h2] at hstep
        simp [Except.map] at hstep
    | ok s1 =>
      cases h2 : tpclStep g2 st2 tok with
      | error e2 =>
        rw [h1, h2] at hstep
        simp [Except.map] at hstep
      | ok s2 =>
        rw [h1, h2] at hstep
        simp only [Except.map, Except.ok.injEq] at hstep
        exact ih g1 g2 s1 s2 hstep

/-- C8: generate and parse are deterministic in their inputs, except that
parse mints fresh random ids for line and rectangle elements.  Corrected:
two parses of the same payload agree exactly up to those element ids — the
templates with all element ids erased are equal — but the templates
themselves differ between runs whose random ids differ, so "identical
templates (including element ids)" does not hold. -/
theorem tpcl_parse_deterministic_up_to_ids (g1 g2 : ℕ → JStr) (s : JStr) :
    (tpclParse g1 s).map eraseIds = (tpclParse g2 s).map eraseIds := by
  rw [tpclParse_unfold, tpclParse_unfold]
  have hfold := foldlM_tpclStep_erased (tokenize s) g1 g2 pInit pInit rfl
  cases h1 : (tokenize s).foldlM (tpclStep g1) pInit with
  | error e1 =>
    cases h2 : (tokenize s).foldlM (tpclStep g2) pInit with
    | error e2 => cases e1; cases e2; rfl
    | ok s2 =>
      rw [h1, h2] at hfold
      simp [Except.map] at hfold
  | ok s1 =>
    cases h2 : (tokenize s).foldlM (tpclStep g2) pInit with
    | error e2 =>
      rw [h1, h2] at hfold
      simp [Except.map] at hfold
    | ok s2 =>
      rw [h1, h2] at hfold
      simp only [Except.map, Except.ok.injEq] at hfold
      have helems : s1.elements.map eraseElemId = s2.elements.map eraseElemId := by
        have h' := congrArg PState.elements hfold
        simpa [pstateIdErased] using h'
      have hw : s1.width = s2.width := by
        have h' := congrArg PState.width hfold
        simpa [pstateIdErased] using h'
      have hh : s1.height = s2.height := by
        have h' := congrArg PState.height hfold
        simpa [pstateIdErased] using h'
      simp only [exceptOk_bind, Except.map, eraseIds]
      rw [hw, hh, helems]

theorem tpcl_parse_random_ids_counterexample :
    tpclParse gidA lcPayload ≠ tpclParse gidB lcPayload := by decide

/-- C9: when parse resolves an `RC` data command whose `PC` definition
carries a font code that is neither a key of the typography table nor a
property name inherited from `Object.prototype`, the element falls back to
`TPCL_FONT_PRESETS.G` — 6pt helvetica — not to the first table entry
(code `A`, 8pt times) as the spec states. (For an inherited property name
such as `constructor` the bracket lookup returns the inherited value, the
`??` fallback does not fire, and the element gets undefined typography —
see the counterexample theorem.) -/
theorem tpcl_unknown_font_fallback (c : JStr) (hsemi : ';' ∉ c) (hcomma : ',' ∉ c)
    (hbrace : '}' ∉ c) (hfind : assocFind c TPCL_FONT_PRESETS = none)
    (hproto : c ∉ OBJECT_PROTO_KEYS) (g : ℕ → JStr) :
    tpclParse g (unknownFontCmds c) = .ok unknownFontResult := by
  have hsem2 : ';' ∉ (toChars "0000,0000,10,10," ++ (c ++ toChars ",00,B")) := by
    intro hm
    rcases List.mem_append.mp hm with h1 | h1
    · exact absurd h1 (by decide)
    rcases List.mem_append.mp h1 with h2 | h2
    · exact hsemi h2
    · exact absurd h2 (by decide)
  have hbr2 : '}' ∉ (toChars "0000,0000,10,10," ++ (c ++ toChars ",00,B")) := by
    intro hm
    rcases List.mem_append.mp hm with h1 | h1
    · exact absurd h1 (by decide)
    rcases List.mem_append.mp h1 with h2 | h2
    · exact hbrace h2
    · exact absurd h2 (by decide)
  have htok : tokenize (unknownFontCmds c) =
      [tpclCmd (toChars "PC000" ++ ';' ::
        (toChars "0000,0000,10,10," ++ (c ++ toChars ",00,B"))),
       tpclCmd (toChars "RC000" ++ ';' :: toChars "Hi")] := by
    rw [unknownFontCmds]
    refine tokenize_join _ ?_
    intro l hl
    rcases List.mem_cons.mp hl with rfl | hl2
    · refine lineOk_tpclCmd (by simp) ?_
      intro hm
      rcases List.mem_append.mp hm with h1 | h1
      · exact absurd h1 (by decide)
      rcases List.mem_cons.mp h1 with h2 | h2
      · exact absurd h2 (by decide)
      · exact hbr2 h2
    rcases List.mem_cons.mp hl2 with rfl | hl3
    · exact lineOk_tpclCmd (by decide) (by decide)
    · exact absurd hl3 (List.not_mem_nil l)
  rw [tpclParse_unfold, htok]
  rw [List.foldlM_cons]
  have hstep1 : tpclStep g pInit (tpclCmd (toChars "PC000" ++ ';' ::
      (toChars "0000,0000,10,10," ++ (c ++ toChars ",00,B")))) =
      .ok { pInit with textDefs := [(toChars "PC000", unknownFontDef c)] } := by
    simp only [tpclStep, cleanOf_tpclCmd]
    rw [splitCh_append _ (by decide), splitCh_not_mem hsem2]
    rw [if_neg (by rw [show hasPre (toChars "D") (toChars "PC000" ++ ';' ::
      (toChars "0000,0000,10,10," ++ (c ++ toChars ",00,B"))) = false from rfl]; simp)]
    rw [if_neg (by simp [List.headD_cons]; decide)]
    rw [if_neg (by simp [List.headD_cons]; decide)]
    rw [if_neg (by simp [List.headD_cons]; decide)]
    rw [if_pos (by rw [List.headD_cons]; rfl)]
    simp only [List.headD_cons, List.getElem?_cons_zero, List.getElem?_cons_succ]
    have hshape : (toChars "0000,0000,10,10," ++ (c ++ toChars ",00,B")) =
        toChars "0000" ++ ',' :: (toChars "0000" ++ ',' :: (toChars "10" ++
          ',' :: (toChars "10" ++ ',' :: (c ++ ',' :: (toChars "00" ++
          ',' :: toChars "B"))))) := by
      rw [show toChars "0000,0000,10,10," = toChars "0000" ++ ',' :: (toChars "0000" ++
        ',' :: (toChars "10" ++ ',' :: (toChars "10" ++ [',']))) from rfl]
      simp only [List.append_assoc, List.cons_append, List.nil_append]
      rfl
    rw [hshape]
    rw [splitCh_append _ (by decide), splitCh_append _ (by decide),
      splitCh_append _ (by decide), splitCh_append _ (by decide),
      splitCh_append _ hcomma, splitCh_append _ (by decide),
      splitCh_not_mem (by decide)]
    rfl
  rw [hstep1]
  rw [show ((Except.ok { pInit with textDefs := [(toChars "PC000", unknownFontDef c)] }
      : Except JsErr PState) >>= fun s =>
      ([tpclCmd (toChars "RC000" ++ ';' :: toChars "Hi")] : List JStr).foldlM
        (tpclStep g) s) =
    ([tpclCmd (toChars "RC000" ++ ';' :: toChars "Hi")] : List JStr).foldlM (tpclStep g)
      { pInit with textDefs := [(toChars "PC000", unknownFontDef c)] } from rfl]
  rw [List.foldlM_cons]
  have hstep2 : tpclStep g { pInit with textDefs := [(toChars "PC000", unknownFontDef c)] }
      (tpclCmd (toChars "RC000" ++ ';' :: toChars "Hi")) =
      .ok { pInit with
        textDefs := [(toChars "PC000", unknownFontDef c)]
        elements := [.text unknownFontElem] } := by
    simp only [tpclStep, cleanOf_tpclCmd]
    rw [splitCh_append _ (by decide), splitCh_not_mem (by decide)]
    rw [if_neg (by rw [show hasPre (toChars "D") (toChars "RC000" ++ ';' :: toChars "Hi") =
      false from rfl]; simp)]
    rw [if_neg (by simp [List.headD_cons]; decide)]
    rw [if_neg (by simp [List.headD_cons]; decide)]
    rw [if_neg (by simp [List.headD_cons]; decide)]
    rw [if_neg (by rw [List.headD_cons]; decide)]
    rw [if_pos (by rw [List.headD_cons]; rfl)]
    rw [List.headD_cons]
    rw [show toChars "PC" ++ (toChars "RC000").drop 2 = toChars "PC000" from rfl]
    simp only [assocFind_cons_self]
    rw [drop_after_key]
    rw [show (unknownFontDef c).font = some c from rfl]
    simp only [fontPresetIndex, hfind, if_neg hproto]
    rfl
  rw [hstep2]
  rfl

theorem tpcl_unknown_font_fallback_witness :
    (';' ∉ toChars "Z" ∧ ',' ∉ toChars "Z" ∧ '}' ∉ toChars "Z" ∧
      assocFind (toChars "Z") TPCL_FONT_PRESETS = none ∧
      toChars "Z" ∉ OBJECT_PROTO_KEYS) ∧
    tpclParse gid0 (unknownFontCmds (toChars "Z")) = .ok unknownFontResult :=
  ⟨⟨by decide, by decide, by decide, by decide, by decide⟩,
    tpcl_unknown_font_fallback (toChars "Z") (by decide) (by decide) (by decide)
      (by decide) (by decide) gid0⟩

/-- The spec's "first entry of the table" is wrong twice over: an unknown
font code `Z` yields the `G` preset (6pt helvetica), not the first entry
(8pt times); and a font code that is an `Object.prototype` property name,
such as `constructor`, yields an element with undefined typography fields
— neither the first entry nor the `G` preset. -/
theorem tpcl_unknown_font_not_first_entry :
    (tpclParse gid0 (unknownFontCmds (toChars "Z"))).map
      (fun t => t.elements.map (fun el => match el with
        | .text te => (te.fontFamily, te.fontSizePt)
        | _ => ([], none))) =
      .ok [(toChars "helvetica", some 6)] ∧
    (tpclParse gid0 (unknownFontCmds (toChars "constructor"))).map
      (fun t => t.elements.map (fun el => match el with
        | .text te => (te.fontFamily, te.fontSizePt)
        | _ => ([], none))) =
      .ok [([], none)] ∧
    (TPCL_FONT_PRESETS.head?.map (fun p => p.2.fontFamily) = some (toChars "times") ∧
     TPCL_FONT_PRESETS.head?.map (fun p => p.2.fontSizePt) = some 8) ∧
    ¬ ((toChars "helvetica" : JStr) = toChars "times" ∧ (some (6:ℚ) : Option ℚ) = some 8) := by
  refine ⟨by decide, by decide, ⟨by decide, by decide⟩, by decide⟩

theorem quantity_backfill (ps0 : PrintSettings) :
    ((if ps0.quantity = none then { ps0 with quantity := some 1 } else ps0).quantity).isSome =
      true := by
  by_cases h : ps0.quantity = none
  · rw [if_pos h]
    rfl
  · rw [if_neg h]
    cases hq : ps0.quantity with
    | none => exact absurd hq h
    | some q => rw [Option.isSome_some]

/-- C10: the spec says every parsed template carries back-filled print
settings with quantity at least 1.  Corrected: Protocol A parse never
returns print settings at all, and Protocol B parse always returns them
with a present quantity — defaulting to 1 only when the stream has no
`PQ` command, while an explicit `PQ0` is kept as quantity 0. -/
theorem parse_print_settings (g : ℕ → JStr) (s : JStr) :
    (∀ t', tpclParse g s = .ok t' → t'.printSettings = none) ∧
    (zplParse g s).printSettings.isSome = true ∧
    (zplParse g s).printSettings.map (fun ps => ps.quantity.isSome) = some true ∧
    (zplParse gid0 (toChars "^XA^XZ")).printSettings.map (fun ps => ps.quantity) =
      some (some 1) := by
  refine ⟨?_, ?_, ?_, by decide⟩
  · intro t' h
    rw [tpclParse_unfold] at h
    cases hf : (tokenize s).foldlM (tpclStep g) pInit with
    | error e =>
      rw [hf] at h
      exact Except.noConfusion h
    | ok st =>
      rw [hf] at h
      have h2 : ({ name := toChars "Imported Label"
                   width := st.width
                   height := st.height
                   elements := st.elements
                   printSettings := none } : LabelTemplate) = t' := Except.ok.inj h
      rw [← h2]
  · rw [zplParse]
    rfl
  · exact congrArg some (quantity_backfill _)

theorem parse_print_settings_counterexample :
    tpclParse gid0 [] = .ok
      { name := toChars "Imported Label"
        width := some 100
        height := some 150
        elements := []
        printSettings := none } ∧
    (zplParse gid0 (toChars "^XA^PQ0^XZ")).printSettings.map (fun ps => ps.quantity) =
      some (some 0) := by
  refine ⟨by decide, by decide⟩
